import Mathlib

/-!
# Rockchip system monitor: status bits, wide-temperature state, frequency caps

A shallow embedding of `drivers/soc/rockchip/rockchip_system_monitor.c`.

Conventions of the embedding:

* the data model is LP64: `unsigned long` has 64 bits, `int` and
  `unsigned int` have 32 bits; a C value is a `Nat` (unsigned) or an `Int`
  (signed), and every conversion or wrapping operation of the source is
  written out;
* global variables are the fields of `SysState`, and a function that writes
  them maps a state to a state;
* a function returns `none` where the C code has no defined behaviour (a
  shift by 32 or more, an index outside `ref_count`, a read past the end of
  a table).
-/

namespace SystemMonitor

/-! ## Machine integers -/

/-- Conversion of a mathematical integer to a 32-bit `int` (two's complement). -/
def wrap_int (x : Int) : Int := (x + 2147483648) % 4294967296 - 2147483648

/-- Conversion of an `int` to `unsigned long` (sign extension to 64 bits). -/
def int_to_ulong (x : Int) : Nat := (x % 18446744073709551616).toNat

/-- Conversion of an `unsigned long` to `unsigned int`. -/
def ulong_to_uint (x : Nat) : Nat := x % 4294967296

/-- The `int` expression `1 << k`, for `k < 32` (`1 << 31` is `INT_MIN`). -/
def int_shl_one (k : Nat) : Int := wrap_int (2 ^ k)

/-- The `int` expression `~x`. -/
def int_not (x : Int) : Int := -x - 1

/-- The operand `1 << k` of `system_status |= 1 << k`, as an `unsigned long`. -/
def set_mask (k : Nat) : Nat := int_to_ulong (int_shl_one k)

/-- The operand `~(1 << k)` of `x &= ~(1 << k)`, as an `unsigned long`. -/
def clear_mask (k : Nat) : Nat := int_to_ulong (int_not (int_shl_one k))

/-- Scan of `fls`: the highest set bit below position `k`, counted from 1. -/
def fls_aux : Nat → Nat → Nat
  | 0, _ => 0
  | k + 1, x => if x.testBit k then k + 1 else fls_aux k x

/-- Kernel `fls` on the 32-bit argument: position of the last (most
significant) set bit counted from 1, and 0 when no bit is set. -/
def fls (x : Nat) : Nat := fls_aux 32 x

/-! ## System status -/

/-- One entry of `video_info_list`. -/
structure VideoInfo where
  width : Nat
  height : Nat
  ishevc : Nat
  videoFramerate : Nat
  streamBitrate : Nat
  deriving DecidableEq, Repr

/-- The globals of the status machinery. `ref_count` has 32 entries, indexed
`0..31`; its entries are `unsigned long` counters, kept here as unbounded
naturals (a counter would need 2^64 increments to wrap). `notified` records
the values handed to `rockchip_system_status_notifier_call_chain`, oldest
first. -/
structure SysState where
  system_status : Nat
  ref_count : Nat → Nat
  video_info_list : List VideoInfo
  notified : List Nat

/-- The state at module load: `system_status = 0`, all counters zero, no
video registered. -/
def SysState.init : SysState :=
  { system_status := 0, ref_count := fun _ => 0, video_info_list := [], notified := [] }

/-- The tail of both status functions: the notifier chain is called with the
new `system_status` when it differs from the value saved on entry. -/
def notify_if_changed (old_system_status : Nat) (st : SysState) : SysState :=
  if old_system_status ≠ st.system_status then
    { st with notified := st.notified ++ [st.system_status] }
  else st

/-- The offset computed at the top of an iteration:
`single_status_offset = fls(status) - 1`, an `unsigned int`; `fls` takes the
low 32 bits of `status`. -/
def status_offset (status : Nat) : Nat :=
  (fls (ulong_to_uint status) + 4294967295) % 4294967296

/-- Body of one iteration of the loop of `rockchip_set_system_status`, after
the offset is computed: the bit is raised when its counter is zero, and the
counter is incremented. -/
def set_status_bit (single_status_offset : Nat) (st : SysState) : SysState :=
  let st1 :=
    if st.ref_count single_status_offset = 0 then
      { st with system_status := st.system_status ||| set_mask single_status_offset }
    else st
  { st1 with ref_count := (Function.update st1.ref_count single_status_offset
      (st1.ref_count single_status_offset + 1)) }

/-- The `while (status)` loop of `rockchip_set_system_status`. The first
argument bounds the number of iterations. -/
def set_status_loop : Nat → Nat → SysState → Option SysState
  | 0, status, st => if status = 0 then some st else none
  | fuel + 1, status, st =>
    if status = 0 then some st
    else if status_offset status < 32 then
      set_status_loop fuel (status &&& clear_mask (status_offset status))
        (set_status_bit (status_offset status) st)
    else none

/-- Model of `rockchip_set_system_status`: every iteration clears one of the low 32
bits of `status`, so 32 iterations are enough whenever the loop ends. -/
def rockchip_set_system_status (status : Nat) (st : SysState) : Option SysState :=
  (set_status_loop 32 status st).map (notify_if_changed st.system_status)

/-- Body of one iteration of the loop of `rockchip_clear_system_status`: a
zero counter is skipped (`continue`); otherwise the bit is dropped when the
counter is 1, and the counter is decremented. -/
def clear_status_bit (single_status_offset : Nat) (st : SysState) : SysState :=
  if st.ref_count single_status_offset = 0 then st
  else
    let st1 :=
      if st.ref_count single_status_offset = 1 then
        { st with system_status := st.system_status &&& clear_mask single_status_offset }
      else st
    { st1 with ref_count := (Function.update st1.ref_count single_status_offset
        (st1.ref_count single_status_offset - 1)) }

/-- The `while (status)` loop of `rockchip_clear_system_status`. -/
def clear_status_loop : Nat → Nat → SysState → Option SysState
  | 0, status, st => if status = 0 then some st else none
  | fuel + 1, status, st =>
    if status = 0 then some st
    else if status_offset status < 32 then
      clear_status_loop fuel (status &&& clear_mask (status_offset status))
        (clear_status_bit (status_offset status) st)
    else none

/-- Model of `rockchip_clear_system_status`. -/
def rockchip_clear_system_status (status : Nat) (st : SysState) : Option SysState :=
  (clear_status_loop 32 status st).map (notify_if_changed st.system_status)

/-- Model of `rockchip_get_system_status`. -/
def rockchip_get_system_status (st : SysState) : Nat := st.system_status

/-- A call of one of the two status functions. -/
inductive StatusCall where
  | set (status : Nat)
  | clear (status : Nat)
  deriving DecidableEq, Repr

/-- The status argument of a call. -/
def StatusCall.status : StatusCall → Nat
  | .set s => s
  | .clear s => s

/-- Effect of one call. -/
def StatusCall.apply : StatusCall → SysState → Option SysState
  | .set s, st => rockchip_set_system_status s st
  | .clear s, st => rockchip_clear_system_status s st

/-- Effect of a sequence of calls, first call first. -/
def run_status_calls : List StatusCall → SysState → Option SysState
  | [], st => some st
  | c :: cs, st => (c.apply st).bind (run_status_calls cs)

/-! ## Video messages

A C string is the list of its characters before the terminating NUL; a `NULL`
pointer is `none`. -/

/-- The constant `VIDEO_1080P_SIZE`. -/
def VIDEO_1080P_SIZE : Nat := 1920 * 1080

/-- Modelled from the spec: the status masks of
`dt-bindings/soc/rockchip-system-status.h`, a header that is not among the
sources; the masks the file uses are parameters of the model. -/
structure SysStatusBits where
  SYS_STATUS_VIDEO_4K : Nat
  SYS_STATUS_VIDEO_1080P : Nat
  SYS_STATUS_VIDEO_4K_10B : Nat
  SYS_STATUS_LOW_POWER : Nat
  SYS_STATUS_PERFORMANCE : Nat

/-- The mask `SYS_STATUS_VIDEO`: the three video bits together. -/
def SysStatusBits.SYS_STATUS_VIDEO (K : SysStatusBits) : Nat :=
  K.SYS_STATUS_VIDEO_4K ||| K.SYS_STATUS_VIDEO_1080P ||| K.SYS_STATUS_VIDEO_4K_10B

/-- A choice of masks, one distinct bit each: 4K is bit 4, 1080P bit 5,
PERFORMANCE bit 13, 4K_10B bit 16, LOW_POWER bit 17. -/
def status_bits : SysStatusBits :=
  { SYS_STATUS_VIDEO_4K := 16, SYS_STATUS_VIDEO_1080P := 32,
    SYS_STATUS_VIDEO_4K_10B := 65536, SYS_STATUS_LOW_POWER := 131072,
    SYS_STATUS_PERFORMANCE := 8192 }

/-- C library `strsep` with a single delimiter: the token before the first
delimiter and the rest of the string after it; the rest is `none` (`NULL`)
when the string holds no delimiter, and both are `none` for a `NULL`
string. -/
def strsep (str : Option (List Char)) (delim : Char) :
    Option (List Char) × Option (List Char) :=
  match str with
  | none => (none, none)
  | some s =>
    match s.dropWhile (fun c => decide (c ≠ delim)) with
    | [] => (some s, none)
    | _ :: rest => (some (s.takeWhile (fun c => decide (c ≠ delim))), some rest)

/-- Value of a string of decimal digits. -/
def digits_value (ds : List Char) : Nat :=
  ds.foldl (fun acc c => acc * 10 + (c.toNat - 48)) 0

/-- Modelled from the spec: `kstrtoul(s, 10, &val)` of the kernel library, not
among the sources. The string is an optional `+`, at least one decimal digit,
and an optional single newline; the value must fit an `unsigned long`. The
result is `none` when the call fails (and `val` is not written). -/
def kstrtoul (s : List Char) : Option Nat :=
  let s1 := match s with
    | [] => []
    | c :: t => if c = '+' then t else c :: t
  let digits := s1.takeWhile Char.isDigit
  let rest := s1.dropWhile Char.isDigit
  if digits = [] then none
  else if rest ≠ [] ∧ rest ≠ [Char.ofNat 10] then none
  else if digits_value digits ≥ 18446744073709551616 then none
  else some (digits_value digits)

/-- Model of `rockchip_get_video_param`: the value returned and the string
pointer left in `*str`. -/
def rockchip_get_video_param (str : Option (List Char)) : Nat × Option (List Char) :=
  let s1 := (strsep str ('=')).2
  let r := strsep s1 (',')
  match r.1 with
  | none => (0, r.2)
  | some p =>
    match kstrtoul p with
    | none => (0, r.2)
    | some val => (val, r.2)

/-- The loop `while ((cp = strpbrk(cp + 1, ","))) ntokens++;` run over the
characters after `cp`: the number of commas among them. -/
def count_separators : List Char → Nat
  | [] => 0
  | c :: rest =>
    if c = ',' then count_separators rest + 1 else count_separators rest

/-- Model of `rockchip_parse_video_info` for a non-empty `buf` (the scan starts
at `buf + 1`); `none` is `NULL`. The allocations are taken to succeed. Each
field is an `unsigned int` that receives an `unsigned long`. -/
def rockchip_parse_video_info (buf : List Char) : Option VideoInfo :=
  if count_separators buf.tail ≠ 5 then none
  else
    let s0 := (strsep (some buf) (',')).2
    let w := rockchip_get_video_param s0
    let h := rockchip_get_video_param w.2
    let i := rockchip_get_video_param h.2
    let f := rockchip_get_video_param i.2
    let b := rockchip_get_video_param f.2
    some { width := ulong_to_uint w.1, height := ulong_to_uint h.1,
           ishevc := ulong_to_uint i.1, videoFramerate := ulong_to_uint f.1,
           streamBitrate := ulong_to_uint b.1 }

/-- Model of `rockchip_find_video_info`: the first entry of `video_info_list`
whose five fields equal those parsed from `buf`. -/
def rockchip_find_video_info (buf : List Char) (st : SysState) : Option VideoInfo :=
  match rockchip_parse_video_info buf with
  | none => none
  | some video_info => st.video_info_list.find? (fun info => decide (info = video_info))

/-- Model of `rockchip_add_video_info` for a non-`NULL` entry: `list_add` puts
it at the head of the list. -/
def rockchip_add_video_info (video_info : VideoInfo) (st : SysState) : SysState :=
  { st with video_info_list := video_info :: st.video_info_list }

/-- Model of `rockchip_del_video_info` for the entry `rockchip_find_video_info`
returned, the first one with these fields. -/
def rockchip_del_video_info (video_info : VideoInfo) (st : SysState) : SysState :=
  { st with video_info_list := st.video_info_list.erase video_info }

/-- The `list_for_each_entry` loop of `rockchip_update_video_info`: the pair
`(max_res, max_stream_bitrate)`; `res` is an `unsigned int` product. -/
def video_maxima : List VideoInfo → Nat × Nat → Nat × Nat
  | [], acc => acc
  | video_info :: rest, (max_res, max_stream_bitrate) =>
    let res := (video_info.width * video_info.height) % 4294967296
    video_maxima rest
      (if res > max_res then res else max_res,
       if video_info.streamBitrate > max_stream_bitrate then video_info.streamBitrate
       else max_stream_bitrate)

/-- Model of `rockchip_update_video_info`. -/
def rockchip_update_video_info (K : SysStatusBits) (st : SysState) : Option SysState :=
  if st.video_info_list.isEmpty then
    rockchip_clear_system_status K.SYS_STATUS_VIDEO st
  else
    let m := video_maxima st.video_info_list (0, 0)
    if m.1 ≤ VIDEO_1080P_SIZE then
      rockchip_set_system_status K.SYS_STATUS_VIDEO_1080P st
    else if m.2 = 10 then
      rockchip_set_system_status K.SYS_STATUS_VIDEO_4K_10B st
    else
      rockchip_set_system_status K.SYS_STATUS_VIDEO_4K st

/-- Model of `rockchip_update_system_status`. The first character of an empty
string is the terminating NUL, which matches no `case`. -/
def rockchip_update_system_status (K : SysStatusBits) (buf : Option (List Char))
    (st : SysState) : Option SysState :=
  match buf with
  | none => some st
  | some b =>
    match b.head? with
    | none => some st
    | some c =>
      if c = '0' then
        match rockchip_find_video_info b st with
        | some video_info =>
          rockchip_update_video_info K (rockchip_del_video_info video_info st)
        | none => some st
      else if c = '1' then
        match rockchip_parse_video_info b with
        | some video_info =>
          rockchip_update_video_info K (rockchip_add_video_info video_info st)
        | none => some st
      else if c = 'L' then
        rockchip_clear_system_status K.SYS_STATUS_LOW_POWER st
      else if c = 'l' then
        rockchip_set_system_status K.SYS_STATUS_LOW_POWER st
      else if c = 'p' then
        rockchip_set_system_status K.SYS_STATUS_PERFORMANCE st
      else if c = 'n' then
        rockchip_clear_system_status K.SYS_STATUS_PERFORMANCE st
      else some st

/-- Effect of a sequence of messages written to the `system_status` attribute,
first message first. -/
def run_status_messages (K : SysStatusBits) : List (List Char) → SysState → Option SysState
  | [], st => some st
  | buf :: rest, st =>
    (rockchip_update_system_status K (some buf) st).bind (run_status_messages K rest)

/-- The message that registers a 1920x1080 video. -/
def set_1080p_message : List Char :=
  "1,width=1920,height=1080,ishevc=0,videoFramerate=30,streamBitrate=8".toList

/-- The message that removes the 1920x1080 video. -/
def clear_1080p_message : List Char :=
  "0,width=1920,height=1080,ishevc=0,videoFramerate=30,streamBitrate=8".toList

/-! ## Monitored devices -/

/-- The constant `INT_MAX`, the `volt` value of the terminating row of an adjust table. -/
def INT_MAX : Int := 2147483647

/-- The constant `INT_MIN`. -/
def INT_MIN : Int := -2147483648

/-- The errno `EINVAL`. -/
def EINVAL : Int := 22

/-- The errno `ENODATA`. -/
def ENODATA : Int := 61

/-- The values of an `int`. -/
def is_int (x : Int) : Prop := INT_MIN ≤ x ∧ x ≤ INT_MAX

instance (x : Int) : Decidable (is_int x) := by
  unfold is_int; exact inferInstance

/-- Modelled from the spec: `struct volt_adjust_table` is declared in
`soc/rockchip/rockchip_system_monitor.h`, which is not among the sources. A
row holds a frequency range `min..max` in MHz (`unsigned int`, compared with
the `unsigned int` `_rate`) and a voltage `volt` (`int`, compared with
`INT_MAX` and stored through an `int *`). -/
structure VoltAdjust where
  min : Nat
  max : Nat
  volt : Int
  deriving DecidableEq, Repr

/-- Modelled from the spec: `struct temp_opp_table`, declared in the same
missing header; one row of `info->opp_table`, all fields `unsigned long`. -/
structure TempOppEntry where
  rate : Nat := 0
  volt : Nat := 0
  low_temp_volt : Nat := 0
  max_volt : Nat := 0
  deriving DecidableEq, Repr

/-- Modelled from the spec: `struct monitor_dev_info`, declared in the same
missing header. The fields are the ones this file reads and writes, with the
types their uses show: the limits and voltages are `unsigned long` (printed
with `%lu`), the temperatures and the hysteresis are `int` (printed with
`%d`, defaulted to `INT_MIN` and `INT_MAX`), the flags are `bool`. A pointer
field is `none` when it is `NULL`. The default values are those of the
zeroed record `kzalloc` returns. -/
structure MonitorDevInfo where
  low_temp_adjust_table : Option (List VoltAdjust) := none
  opp_table : Option (List TempOppEntry) := none
  low_limit : Nat := 0
  high_limit : Nat := 0
  max_volt : Nat := 0
  low_temp_min_volt : Nat := 0
  high_temp_max_volt : Nat := 0
  wide_temp_limit : Nat := 0
  low_temp : Int := 0
  high_temp : Int := 0
  temp_hysteresis : Int := 0
  is_low_temp : Bool := false
  is_high_temp : Bool := false
  is_low_temp_enabled : Bool := false

/-- Modelled from the spec: `enum monitor_dev_type` of the missing header,
with the spelling of the source. -/
inductive MonitorDevType where
  | MONITOR_TPYE_CPU
  | MONITOR_TPYE_DEV
  deriving DecidableEq, Repr

/-- An adjust callback of a device profile. It receives the device record and
the flag; it is described by the `wide_temp_limit` it leaves in the record and
by the code it returns. (The callbacks defined in this file write no other
field of the record.) -/
abbrev AdjustCallback := MonitorDevInfo → Bool → Nat × Int

/-- Modelled from the spec: `struct monitor_dev_profile` of the missing
header: the device type, the two optional callbacks and the cpumask
`allowed_cpus` (a predicate on cpu numbers). -/
structure MonitorDevProfile where
  type : MonitorDevType := MonitorDevType.MONITOR_TPYE_CPU
  low_temp_adjust : Option AdjustCallback := none
  high_temp_adjust : Option AdjustCallback := none
  allowed_cpus : Nat → Bool := fun _ => false

/-- An entry of `monitor_dev_list`: a device record and the profile `devp` it
points to. -/
structure MonitorDev where
  devp : MonitorDevProfile
  info : MonitorDevInfo

/-- The pattern `ret = 0; if (cb) ret = cb(info, flag);`: the record after the
call and `ret`. -/
def call_adjust (cb : Option AdjustCallback) (info : MonitorDevInfo) (flag : Bool) :
    MonitorDevInfo × Int :=
  match cb with
  | none => (info, 0)
  | some f => ({ info with wide_temp_limit := (f info flag).1 }, (f info flag).2)

/-- Model of `rockchip_low_temp_adjust`. The call of
`rockchip_adjust_low_temp_opp_volt` rewrites voltages inside the OPP library
and touches no field of the record; its result is ignored. -/
def rockchip_low_temp_adjust (devp : MonitorDevProfile) (info : MonitorDevInfo)
    (is_low : Bool) : MonitorDevInfo :=
  let r := call_adjust devp.low_temp_adjust info is_low
  if r.2 = 0 then { r.1 with is_low_temp := is_low } else r.1

/-- Model of `rockchip_high_temp_adjust`. -/
def rockchip_high_temp_adjust (devp : MonitorDevProfile) (info : MonitorDevInfo)
    (is_high : Bool) : MonitorDevInfo :=
  let r := call_adjust devp.high_temp_adjust info is_high
  if r.2 = 0 then { r.1 with is_high_temp := is_high } else r.1

/-- Model of `rockchip_monitor_suspend_low_temp_adjust`; the return value is
always 0. A `NULL` record is `none`. -/
def rockchip_monitor_suspend_low_temp_adjust (devp : MonitorDevProfile)
    (info : Option MonitorDevInfo) : Option MonitorDevInfo :=
  match info with
  | none => none
  | some i =>
    if !i.is_low_temp_enabled then some i
    else
      let a := if i.is_high_temp then rockchip_high_temp_adjust devp i false else i
      some (if !a.is_low_temp then rockchip_low_temp_adjust devp a true else a)

/-- First `if`/`else if` of `rockchip_system_monitor_wide_temp_adjust`, the
low-temperature side. The `int` sum wraps (the kernel is built with
`-fno-strict-overflow`). -/
def wide_temp_adjust_low (devp : MonitorDevProfile) (info : MonitorDevInfo)
    (temp : Int) : MonitorDevInfo :=
  if temp < info.low_temp then
    let a := if info.is_high_temp then rockchip_high_temp_adjust devp info false else info
    if !a.is_low_temp then rockchip_low_temp_adjust devp a true else a
  else if temp > wrap_int (info.low_temp + info.temp_hysteresis) then
    if info.is_low_temp then rockchip_low_temp_adjust devp info false else info
  else info

/-- Second `if`/`else if` of `rockchip_system_monitor_wide_temp_adjust`, the
high-temperature side. -/
def wide_temp_adjust_high (devp : MonitorDevProfile) (info : MonitorDevInfo)
    (temp : Int) : MonitorDevInfo :=
  if temp > info.high_temp then
    let a := if info.is_low_temp then rockchip_low_temp_adjust devp info false else info
    if !a.is_high_temp then rockchip_high_temp_adjust devp a true else a
  else if temp < wrap_int (info.high_temp - info.temp_hysteresis) then
    if info.is_high_temp then rockchip_high_temp_adjust devp info false else info
  else info

/-- Model of `rockchip_system_monitor_wide_temp_adjust`; the return value is
always 0. -/
def rockchip_system_monitor_wide_temp_adjust (devp : MonitorDevProfile)
    (info : MonitorDevInfo) (temp : Int) : MonitorDevInfo :=
  wide_temp_adjust_high devp (wide_temp_adjust_low devp info temp) temp

/-- A profile whose adjust callbacks are absent or return 0. -/
def callbacks_return_zero (devp : MonitorDevProfile) : Prop :=
  (∀ f, devp.low_temp_adjust = some f → ∀ i b, (f i b).2 = 0) ∧
  (∀ f, devp.high_temp_adjust = some f → ∀ i b, (f i b).2 = 0)

/-- A call made on a registered device by the thermal work or the suspend
path. -/
inductive WideTempCall where
  | adjust (temp : Int)
  | suspend
  deriving DecidableEq, Repr

/-- Effect of one call on the device record. -/
def WideTempCall.apply (devp : MonitorDevProfile) :
    WideTempCall → MonitorDevInfo → MonitorDevInfo
  | .adjust temp, info => rockchip_system_monitor_wide_temp_adjust devp info temp
  | .suspend, info =>
    (rockchip_monitor_suspend_low_temp_adjust devp (some info)).getD info

/-- Effect of a sequence of calls, first call first. -/
def run_wide_temp_calls (devp : MonitorDevProfile) :
    List WideTempCall → MonitorDevInfo → MonitorDevInfo
  | [], info => info
  | c :: cs, info => run_wide_temp_calls devp cs (c.apply devp info)

/-! ## Frequency caps -/

/-- Notifier return value `NOTIFY_DONE` of `linux/notifier.h`. -/
def NOTIFY_DONE : Int := 0

/-- Notifier return value `NOTIFY_OK` of `linux/notifier.h`. -/
def NOTIFY_OK : Int := 1

/-- Event `DEVFREQ_ADJUST` of the devfreq policy notifier. -/
def DEVFREQ_ADJUST : Nat := 0

/-- Event `CPUFREQ_ADJUST` of the cpufreq policy notifier. -/
def CPUFREQ_ADJUST : Nat := 0

/-- The limits of a `struct devfreq_policy`. -/
structure DevfreqPolicy where
  min : Nat
  max : Nat
  deriving DecidableEq, Repr

/-- Modelled from the spec: `devfreq_verify_within_limits` belongs to the
devfreq framework and is not among the sources; it is the frequency cap the
monitor applies, modelled like its cpufreq counterpart: both limits of the
policy are brought into `min..max`, and `policy->min` never exceeds
`policy->max` afterwards. -/
def devfreq_verify_within_limits (policy : DevfreqPolicy) (min max : Nat) :
    DevfreqPolicy :=
  let p1 := if policy.min < min then { policy with min := min } else policy
  let p2 := if p1.max < min then { p1 with max := min } else p1
  let p3 := if p2.min > max then { p2 with min := max } else p2
  let p4 := if p3.max > max then { p3 with max := max } else p3
  if p4.min > p4.max then { p4 with min := p4.max } else p4

/-- Model of `system_monitor_devfreq_notifier_call`: the return value and the
policy it leaves. -/
def system_monitor_devfreq_notifier_call (info : MonitorDevInfo) (event : Nat)
    (policy : DevfreqPolicy) : Int × DevfreqPolicy :=
  if event ≠ DEVFREQ_ADJUST then (NOTIFY_DONE, policy)
  else if info.wide_temp_limit ≠ 0 ∧ info.wide_temp_limit < policy.max then
    (NOTIFY_OK, devfreq_verify_within_limits policy 0 info.wide_temp_limit)
  else (NOTIFY_OK, policy)

/-- The fields of a `struct cpufreq_policy` the notifier uses; `min` and `max`
are `unsigned int`, in kHz. -/
structure CpufreqPolicy where
  cpu : Nat
  min : Nat
  max : Nat
  deriving DecidableEq, Repr

/-- Modelled from the spec: `cpufreq_verify_within_limits` of
`linux/cpufreq.h`, not among the sources: both limits of the policy are
brought into `min..max`, and `policy->min` never exceeds `policy->max`
afterwards. -/
def cpufreq_verify_within_limits (policy : CpufreqPolicy) (min max : Nat) :
    CpufreqPolicy :=
  let p1 := if policy.min < min then { policy with min := min } else policy
  let p2 := if p1.max < min then { p1 with max := min } else p1
  let p3 := if p2.min > max then { p2 with min := max } else p2
  let p4 := if p3.max > max then { p3 with max := max } else p3
  if p4.min > p4.max then { p4 with min := p4.max } else p4

/-- Body of the `list_for_each_entry` loop of
`rockchip_monitor_cpufreq_policy_notifier` for one device. `target_freq` is an
`unsigned int`. -/
def cpufreq_policy_adjust_one (cpu : Nat) (policy : CpufreqPolicy) (d : MonitorDev) :
    CpufreqPolicy :=
  if d.devp.type ≠ MonitorDevType.MONITOR_TPYE_CPU then policy
  else if !d.devp.allowed_cpus cpu then policy
  else if d.info.wide_temp_limit ≠ 0 then
    let target_freq := ulong_to_uint (d.info.wide_temp_limit / 1000)
    if target_freq < policy.max then cpufreq_verify_within_limits policy 0 target_freq
    else policy
  else policy

/-- Model of `rockchip_monitor_cpufreq_policy_notifier` over the list
`monitor_dev_list`, head first: the return value and the policy it leaves. -/
def rockchip_monitor_cpufreq_policy_notifier (monitor_dev_list : List MonitorDev)
    (event : Nat) (policy : CpufreqPolicy) : Int × CpufreqPolicy :=
  if event ≠ CPUFREQ_ADJUST then (NOTIFY_OK, policy)
  else (NOTIFY_OK, monitor_dev_list.foldl (cpufreq_policy_adjust_one policy.cpu) policy)

/-- Whether a device bears on the policy of cpu `cpu`. -/
def bears_on_cpu (cpu : Nat) (d : MonitorDev) : Bool :=
  decide (d.devp.type = MonitorDevType.MONITOR_TPYE_CPU) && d.devp.allowed_cpus cpu &&
    decide (d.info.wide_temp_limit ≠ 0)

/-- The devices that bear on the policy of cpu `cpu`: type `MONITOR_TPYE_CPU`,
`allowed_cpus` containing `cpu`, and a non-zero `wide_temp_limit`. -/
def capping_devices (monitor_dev_list : List MonitorDev) (cpu : Nat) : List MonitorDev :=
  monitor_dev_list.filter (bears_on_cpu cpu)

/-- The minimum of `start` and of the members of a list. -/
def min_with (start : Nat) (xs : List Nat) : Nat := xs.foldl Nat.min start

/-- The value the specification gives for `policy->max` after a
`CPUFREQ_ADJUST` event: the minimum of the old `policy->max` and of
`wide_temp_limit / 1000` over the devices that bear on the policy. -/
def spec_cpufreq_max (monitor_dev_list : List MonitorDev) (policy : CpufreqPolicy) : Nat :=
  min_with policy.max
    ((capping_devices monitor_dev_list policy.cpu).map (fun d => d.info.wide_temp_limit / 1000))

/-! ## Low-temperature voltage table -/

/-- The rows of a device-tree property of `u32` cells, three cells per row;
the `volt` cell is stored into an `int`. -/
def volt_rows : List Nat → List VoltAdjust
  | a :: b :: c :: rest => { min := a, max := b, volt := wrap_int c } :: volt_rows rest
  | _ => []

/-- Model of `rockchip_get_adjust_volt_table`. The property is `none` when
`of_find_property` finds nothing, `some none` when it has no value, and
`some (some cells)` otherwise, `cells` being its `u32` elements (their number
is the `count` of the source, which is then never negative). The result is
the return value and the table stored through `table` (`none` when nothing is
stored): the rows of the property followed by the terminating row
`{0, 0, INT_MAX}`. The allocation is taken to succeed. -/
def rockchip_get_adjust_volt_table (prop : Option (Option (List Nat))) :
    Int × Option (List VoltAdjust) :=
  match prop with
  | none => (-EINVAL, none)
  | some none => (-ENODATA, none)
  | some (some cells) =>
    if cells.length % 3 ≠ 0 then (-EINVAL, none)
    else (0, some (volt_rows cells ++ [{ min := 0, max := 0, volt := INT_MAX }]))

/-- The `for` loop of `rockchip_get_low_temp_volt` over the rows of the table,
carrying `ret` and `*delta_volt`. It stops at the first row whose `volt` is
`INT_MAX`; a table without such a row is read past its end (`none`). -/
def low_temp_volt_scan (_rate : Nat) : List VoltAdjust → Int × Int → Option (Int × Int)
  | [], _ => none
  | row :: rest, (ret, delta_volt) =>
    if row.volt = INT_MAX then some (ret, delta_volt)
    else if _rate ≥ row.min ∧ _rate ≤ row.max then low_temp_volt_scan _rate rest (0, row.volt)
    else low_temp_volt_scan _rate rest (ret, delta_volt)

/-- Model of `rockchip_get_low_temp_volt`: the return value and the content of
`*delta_volt` after the call, given its content `delta_volt` before. -/
def rockchip_get_low_temp_volt (info : MonitorDevInfo) (rate : Nat) (delta_volt : Int) :
    Option (Int × Int) :=
  let _rate := ulong_to_uint (rate / 1000000)
  match info.low_temp_adjust_table with
  | none => some (-EINVAL, delta_volt)
  | some table => low_temp_volt_scan _rate table (-EINVAL, delta_volt)

/-- The rows of a table before its terminating row, the first one whose `volt`
is `INT_MAX`. -/
def rows_before_sentinel (table : List VoltAdjust) : List VoltAdjust :=
  table.takeWhile (fun row => decide (row.volt ≠ INT_MAX))

/-- The rows, among those before the terminating row, whose range contains
`mhz`. -/
def matching_rows (table : List VoltAdjust) (mhz : Nat) : List VoltAdjust :=
  (rows_before_sentinel table).filter (fun row => decide (row.min ≤ mhz ∧ mhz ≤ row.max))

/-- The result of the lookup for a frequency of `mhz` MHz as the specification
words it: `-EINVAL` and an untouched `delta` when no row matches, otherwise 0
and the `volt` of the last matching row. -/
def spec_low_temp_volt (table : List VoltAdjust) (mhz : Nat) (delta_volt : Int) : Int × Int :=
  match (matching_rows table mhz).getLast? with
  | none => (-EINVAL, delta_volt)
  | some row => (0, row.volt)

/-- Two device records agree on the thresholds read by the wide-temperature
code. -/
def same_thresholds (a b : MonitorDevInfo) : Prop :=
  a.low_temp = b.low_temp ∧ a.high_temp = b.high_temp ∧
    a.temp_hysteresis = b.temp_hysteresis ∧ a.is_low_temp_enabled = b.is_low_temp_enabled

/-- A device record as registration leaves it: thresholds 0 and 85000
millidegrees, hysteresis 5000, both flags clear. -/
def fresh_info : MonitorDevInfo :=
  { low_temp := 0, high_temp := 85000, temp_hysteresis := 5000, is_low_temp_enabled := true }

/-- A profile without callbacks, as a device that only uses the flags. -/
def plain_profile : MonitorDevProfile := {}

/-- A device record with thresholds 0 and 85000 millidegrees, hysteresis
5000, recorded as being in the high-temperature state. -/
def sample_info : MonitorDevInfo :=
  { low_temp := 0, high_temp := 85000, temp_hysteresis := 5000, is_high_temp := true,
    is_low_temp_enabled := true }

/-- The value the code leaves in `policy->max` after a `CPUFREQ_ADJUST` event:
as `spec_cpufreq_max`, with each `wide_temp_limit / 1000` reduced to the
`unsigned int` `target_freq`. -/
def truncated_cpufreq_max (monitor_dev_list : List MonitorDev) (policy : CpufreqPolicy) :
    Nat :=
  min_with policy.max
    ((capping_devices monitor_dev_list policy.cpu).map
      (fun d => ulong_to_uint (d.info.wide_temp_limit / 1000)))

/-- A cpu device whose `wide_temp_limit` is 4294967297000 Hz, so that
`wide_temp_limit / 1000` is 2^32 + 1. -/
def wide_limit_device : MonitorDev :=
  { devp := { type := MonitorDevType.MONITOR_TPYE_CPU, allowed_cpus := fun _ => true },
    info := { wide_temp_limit := 4294967297000 } }

/-- A cpu device capped at 1200000000 Hz. -/
def capped_device : MonitorDev :=
  { devp := { type := MonitorDevType.MONITOR_TPYE_CPU, allowed_cpus := fun _ => true },
    info := { wide_temp_limit := 1200000000 } }

/-- A device record whose adjust table has the row 0..10 MHz, 25000 uV,
followed by the terminating row. -/
def one_row_info : MonitorDevInfo :=
  { low_temp_adjust_table :=
      some [{ min := 0, max := 10, volt := 25000 }, { min := 0, max := 0, volt := INT_MAX }] }

/-- The number `m` is the largest value of `f` over the list `l`: it is attained
and bounds every entry. -/
def is_largest (f : VideoInfo → Nat) (l : List VideoInfo) (m : Nat) : Prop :=
  (∃ v ∈ l, f v = m) ∧ ∀ v ∈ l, f v ≤ m

/-- A decimal numeral: a non-empty string of decimal digits. -/
def is_numeral (ds : List Char) : Prop := ds ≠ [] ∧ ∀ ch ∈ ds, ch.isDigit = true

instance (ds : List Char) : Decidable (is_numeral ds) := by
  unfold is_numeral; exact inferInstance

/-- The string `ds` is a decimal numeral of the number `n`: a non-empty string
of decimal digits whose positional value, digit `k` from the right counting
`10 ^ k` times, is `n`. Leading zeros are allowed. -/
def numeral_of (ds : List Char) (n : Nat) : Prop :=
  is_numeral ds ∧ Nat.ofDigits 10 (ds.reverse.map (fun ch => ch.toNat - 48)) = n

instance (ds : List Char) (n : Nat) : Decidable (numeral_of ds n) := by
  unfold numeral_of; exact inferInstance

/-- A message of the documented form
`<c>,width=W,height=H,ishevc=I,videoFramerate=F,streamBitrate=B`. -/
def video_message (c : Char) (W H I F B : List Char) : List Char :=
  c :: (",width=".toList ++ W ++ ",height=".toList ++ H ++ ",ishevc=".toList ++ I ++
    ",videoFramerate=".toList ++ F ++ ",streamBitrate=".toList ++ B)

/-! ## CPU offlining on temperature -/

/-- The fields of `struct system_monitor` read and written by the thermal
path. A `struct cpumask` is the natural number whose bit `n` says whether cpu
`n` is in the mask. -/
structure system_monitor where
  video_4k_offline_cpus : Nat := 0
  status_offline_cpus : Nat := 0
  temp_offline_cpus : Nat := 0
  offline_cpus : Nat := 0
  offline_cpus_temp : Int := 0
  temp_hysteresis : Int := 0
  is_temp_offline : Bool := false
  deriving DecidableEq, Repr

/-- Model of `rockchip_system_monitor_cpu_on_off` with `CONFIG_HOTPLUG_CPU`: the
set of cpus to keep offline is recomputed and stored when it changed. The
`cpu_down` and `cpu_up` calls that follow act on the hotplug core and write no
field of the record. -/
def rockchip_system_monitor_cpu_on_off (m : system_monitor) : system_monitor :=
  let offline_cpus :=
    if m.is_temp_offline then m.status_offline_cpus ||| m.temp_offline_cpus
    else m.status_offline_cpus
  if offline_cpus = m.offline_cpus then m
  else { m with offline_cpus := offline_cpus }

/-- The tail of `rockchip_system_monitor_temp_cpu_on_off` once the local
`is_temp_offline` is decided. -/
def set_temp_offline (m : system_monitor) (is_temp_offline : Bool) : system_monitor :=
  if m.is_temp_offline = is_temp_offline then m
  else rockchip_system_monitor_cpu_on_off { m with is_temp_offline := is_temp_offline }

/-- Model of `rockchip_system_monitor_temp_cpu_on_off`. The `int` difference
wraps. -/
def rockchip_system_monitor_temp_cpu_on_off (m : system_monitor) (temp : Int) :
    system_monitor :=
  if m.temp_offline_cpus = 0 then m
  else if temp > m.offline_cpus_temp then set_temp_offline m true
  else if temp < wrap_int (m.offline_cpus_temp - m.temp_hysteresis) then
    set_temp_offline m false
  else m

/-- A monitor that offlines cpus 2 and 3 above 100000 millidegrees, with a
hysteresis of -10000. -/
def negative_hysteresis_monitor : system_monitor :=
  { temp_offline_cpus := 12, offline_cpus_temp := 100000, temp_hysteresis := -10000 }

/-- A monitor that offlines cpus 2 and 3 above 100000 millidegrees, with a
hysteresis of 5000, currently offlining. -/
def sample_monitor : system_monitor :=
  { temp_offline_cpus := 12, offline_cpus_temp := 100000, temp_hysteresis := 5000,
    is_temp_offline := true, offline_cpus := 12 }

/-! ## Temperature OPP table -/

/-- The errno `ERANGE`, the error of `dev_pm_opp_find_freq_ceil`. -/
def ERANGE : Int := 34

/-- Modelled from the spec: the fields of `struct dev_pm_opp` (OPP library, not
among the sources) that the monitor reads, all `unsigned long`. -/
structure DevPmOpp where
  rate : Nat
  u_volt : Nat
  u_volt_max : Nat
  deriving DecidableEq, Repr

/-- Modelled from the spec: `dev_pm_opp_find_freq_ceil` of the OPP library: the
first OPP of the device's list, which the library keeps in ascending order of
rate, whose rate is at least `freq`; `none` is the error pointer. The rate
found is written back through the `freq` pointer. -/
def dev_pm_opp_find_freq_ceil (opps : List DevPmOpp) (freq : Nat) : Option DevPmOpp :=
  opps.find? (fun opp => decide (opp.rate ≥ freq))

/-- The `unsigned long` sum `opp->u_volt + delta_volt`: the `int` is converted to
`unsigned long` and the sum is taken modulo 2^64. -/
def volt_plus_delta (u_volt : Nat) (delta_volt : Int) : Nat :=
  (u_volt + int_to_ulong delta_volt) % 18446744073709551616

/-- The statement `if (rockchip_get_low_temp_volt(info, rate, &delta_volt))
delta_volt = 0;`: the content of `delta_volt` afterwards (`none` when the
lookup runs past its table). -/
def low_temp_delta (info : MonitorDevInfo) (rate : Nat) (delta_volt : Int) : Option Int :=
  match rockchip_get_low_temp_volt info rate delta_volt with
  | none => none
  | some r => some (if r.1 ≠ 0 then 0 else r.2)

/-- The value stored in `opp_table[i].low_temp_volt` for an OPP of voltage
`u_volt`, given `delta_volt`. -/
def low_temp_volt_value (info : MonitorDevInfo) (u_volt : Nat) (delta_volt : Int) : Nat :=
  if volt_plus_delta u_volt delta_volt ≤ info.max_volt then
    if volt_plus_delta u_volt delta_volt < info.low_temp_min_volt then info.low_temp_min_volt
    else volt_plus_delta u_volt delta_volt
  else info.max_volt

/-- The locals and the record as one iteration of the loop of
`rockchip_init_temp_opp_table` leaves them; `table` holds the rows written so
far, first row first. -/
structure TempOppLoop where
  info : MonitorDevInfo
  table : List TempOppEntry
  delta_volt : Int
  reach_max_volt : Bool
  reach_high_temp_max_volt : Bool

/-- The first half of the body of the loop of `rockchip_init_temp_opp_table`:
the record after `high_limit` is updated for the OPP found. -/
def high_limit_step (opp : DevPmOpp) (s : TempOppLoop) : MonitorDevInfo :=
  if opp.u_volt ≤ s.info.high_temp_max_volt ∧ ¬ s.reach_high_temp_max_volt = true then
    { s.info with high_limit := opp.rate }
  else s.info

/-- The body of the loop of `rockchip_init_temp_opp_table` for the OPP found
(`none` when the voltage lookup runs past its table). -/
def init_temp_opp_step (opp : DevPmOpp) (s : TempOppLoop) : Option TempOppLoop :=
  let info1 := high_limit_step opp s
  let reach_high :=
    if opp.u_volt ≤ s.info.high_temp_max_volt ∧ opp.u_volt = s.info.high_temp_max_volt then true
    else s.reach_high_temp_max_volt
  match low_temp_delta info1 opp.rate s.delta_volt with
  | none => none
  | some delta_volt =>
    let low_temp_volt := low_temp_volt_value info1 opp.u_volt delta_volt
    let fits := decide (volt_plus_delta opp.u_volt delta_volt ≤ info1.max_volt)
    let info2 :=
      if fits = true ∧ ¬ s.reach_max_volt = true then { info1 with low_limit := opp.rate }
      else info1
    let reach_max :=
      if fits = true ∧ low_temp_volt = info1.max_volt then true else s.reach_max_volt
    some
      { info := info2,
        table := s.table ++ [{ rate := opp.rate, volt := opp.u_volt,
                               low_temp_volt := low_temp_volt, max_volt := opp.u_volt_max }],
        delta_volt := delta_volt,
        reach_max_volt := reach_max,
        reach_high_temp_max_volt := reach_high }

/-- The loop `for (i = 0, rate = 0; i < max_count; i++, rate++)` of
`rockchip_init_temp_opp_table`, with the number of iterations left and the
current `rate`. The result is `ret`, the loop state and the last OPP found;
a failed search ends the loop with `-ERANGE`. -/
def init_temp_opp_loop (opps : List DevPmOpp) :
    Nat → Nat → TempOppLoop → Option DevPmOpp → Option (Int × TempOppLoop × Option DevPmOpp)
  | 0, _, s, last => some (0, s, last)
  | n + 1, rate, s, last =>
    match dev_pm_opp_find_freq_ceil opps rate with
    | none => some (-ERANGE, s, last)
    | some opp =>
      match init_temp_opp_step opp s with
      | none => none
      | some s1 =>
        init_temp_opp_loop opps n ((opp.rate + 1) % 18446744073709551616) s1 (some opp)

/-- Model of `rockchip_init_temp_opp_table` over the OPPs of the device: the
return value and the record it leaves (`none` when the voltage lookup runs
past its table). `dev_pm_opp_get_opp_count` is the number of OPPs. When a
search fails the table is freed; the record is then returned without it. The
allocation is taken to succeed. -/
def rockchip_init_temp_opp_table (opps : List DevPmOpp) (info : MonitorDevInfo) :
    Option (Int × MonitorDevInfo) :=
  if opps.length = 0 then some (-ENODATA, info)
  else
    match init_temp_opp_loop opps opps.length 0
        { info := info, table := [], delta_volt := 0, reach_max_volt := false,
          reach_high_temp_max_volt := false } none with
    | none => none
    | some (ret, s, last) =>
      if ret ≠ 0 then some (ret, { s.info with opp_table := none })
      else
        match last with
        | none => some (0, { s.info with opp_table := some s.table })
        | some opp =>
          let info1 :=
            if s.info.low_limit = opp.rate then { s.info with low_limit := 0 } else s.info
          let info2 :=
            if info1.high_limit = opp.rate then { info1 with high_limit := 0 } else info1
          some (0, { info2 with opp_table := some s.table })

/-- A device record with the adjust table of `one_row_info`, `max_volt`
1350000 and `low_temp_min_volt` 900000. -/
def opp_info : MonitorDevInfo :=
  { low_temp_adjust_table :=
      some [{ min := 0, max := 10, volt := 25000 }, { min := 0, max := 0, volt := INT_MAX }],
    max_volt := 1350000, low_temp_min_volt := 900000, high_temp_max_volt := 1250000 }

/-- Three OPPs in ascending order of rate. -/
def sample_opps : List DevPmOpp :=
  [{ rate := 8000000, u_volt := 850000, u_volt_max := 1350000 },
   { rate := 600000000, u_volt := 1000000, u_volt_max := 1350000 },
   { rate := 1200000000, u_volt := 1300000, u_volt_max := 1350000 }]

/-- Two device records agree on what the voltage computation reads: the
adjust table, `max_volt` and `low_temp_min_volt`. -/
def same_volt_config (a b : MonitorDevInfo) : Prop :=
  a.low_temp_adjust_table = b.low_temp_adjust_table ∧ a.max_volt = b.max_volt ∧
    a.low_temp_min_volt = b.low_temp_min_volt

/-- The property of a row of the temperature OPP table: it comes from an OPP of
the device, and its `low_temp_volt` is `max_volt` when `volt + delta` exceeds
`max_volt` and the larger of `volt + delta` and `low_temp_min_volt` otherwise,
`delta` being what the lookup for the OPP's rate gives (0 when it fails) and
the sum being the `unsigned long` sum of the source. -/
def row_follows_rule (opps : List DevPmOpp) (info : MonitorDevInfo) (e : TempOppEntry) :
    Prop :=
  ∃ opp ∈ opps, e.rate = opp.rate ∧ e.volt = opp.u_volt ∧
    ∃ delta, low_temp_delta info opp.rate 0 = some delta ∧
      e.low_temp_volt =
        if volt_plus_delta e.volt delta > info.max_volt then info.max_volt
        else Nat.max (volt_plus_delta e.volt delta) info.low_temp_min_volt

/-- The record `rockchip_init_temp_opp_table` leaves for `sample_opps` and
`opp_info`. -/
def sample_opp_result : MonitorDevInfo :=
  { opp_info with
    opp_table := some
      [{ rate := 8000000, volt := 850000, low_temp_volt := 900000, max_volt := 1350000 },
       { rate := 600000000, volt := 1000000, low_temp_volt := 1000000, max_volt := 1350000 },
       { rate := 1200000000, volt := 1300000, low_temp_volt := 1300000,
         max_volt := 1350000 }],
    low_limit := 0, high_limit := 600000000 }

/-- The table of `sample_opp_result`. -/
def sample_opp_table : List TempOppEntry :=
  [{ rate := 8000000, volt := 850000, low_temp_volt := 900000, max_volt := 1350000 },
   { rate := 600000000, volt := 1000000, low_temp_volt := 1000000, max_volt := 1350000 },
   { rate := 1200000000, volt := 1300000, low_temp_volt := 1300000, max_volt := 1350000 }]

/-! ## The offsets visited by the status loops -/

/-- The values of `single_status_offset` computed by the `while (status)` loop
that `rockchip_set_system_status` and `rockchip_clear_system_status` share (the
loop variable `status` evolves in the same way in both), in the order of the
iterations, and whether the loop ended with `status == 0`. An offset of 32 or
more is recorded and ends the scan: the shift and the `ref_count` access are
then undefined. The first argument bounds the number of iterations. -/
def status_loop_offsets : Nat → Nat → List Nat × Bool
  | 0, status => ([], decide (status = 0))
  | fuel + 1, status =>
    if status = 0 then ([], true)
    else if status_offset status < 32 then
      (status_offset status ::
          (status_loop_offsets fuel (status &&& clear_mask (status_offset status))).1,
        (status_loop_offsets fuel (status &&& clear_mask (status_offset status))).2)
    else ([status_offset status], false)

/-- The positions below `k` of the bits set in `status`, highest first. -/
def set_bits_descending (k status : Nat) : List Nat :=
  ((List.range k).filter (fun i => status.testBit i)).reverse

/-- The number of bits set among the low 32 bits of `status`. -/
def popcount (status : Nat) : Nat := (List.range 32).countP (fun i => status.testBit i)

/-- The body of the loop of `rockchip_init_temp_opp_table` run on a list of
OPPs, one after the other. -/
def init_temp_opp_steps : List DevPmOpp → TempOppLoop → Option TempOppLoop
  | [], s => some s
  | opp :: rest, s => (init_temp_opp_step opp s).bind (init_temp_opp_steps rest)

/-- A value of `high_limit` is 0 or the rate of an OPP whose voltage does not
exceed `high_temp_max_volt`. -/
def high_limit_source (opps : List DevPmOpp) (info : MonitorDevInfo) (limit : Nat) : Prop :=
  limit = 0 ∨ ∃ opp ∈ opps, opp.rate = limit ∧ opp.u_volt ≤ info.high_temp_max_volt

/-- A value of `low_limit` is 0 or the rate of an OPP whose voltage plus the
adjustment the lookup gives for its rate (0 when it fails) does not exceed
`max_volt`, the sum being the `unsigned long` sum of the source. -/
def low_limit_source (opps : List DevPmOpp) (info : MonitorDevInfo) (limit : Nat) : Prop :=
  limit = 0 ∨ ∃ opp ∈ opps, opp.rate = limit ∧
    ∃ delta, low_temp_delta info opp.rate 0 = some delta ∧
      volt_plus_delta opp.u_volt delta ≤ info.max_volt

/-! ## Registration of a monitored device -/

/-- The constant `THERMAL_TEMP_INVALID` of `linux/thermal.h`. -/
def THERMAL_TEMP_INVALID : Int := -274000

/-- The constant `ULONG_MAX`. -/
def ULONG_MAX : Nat := 18446744073709551615

/-- Model of `rockchip_system_monitor_wide_temp_init`. The arguments `ret` and
`temp` are what `thermal_zone_get_temp` returned and stored. The call of
`rockchip_adjust_low_temp_opp_volt` rewrites voltages inside the OPP library
and touches no field of the record. -/
def rockchip_system_monitor_wide_temp_init (info : MonitorDevInfo) (ret temp : Int) :
    MonitorDevInfo :=
  if ret ≠ 0 ∨ temp = THERMAL_TEMP_INVALID then info
  else if temp < info.low_temp then { info with wide_temp_limit := info.low_limit }
  else if temp > info.high_temp then { info with wide_temp_limit := info.high_limit }
  else info

/-- Model of `rockchip_monitor_dev_low_temp_adjust` as an adjust callback: the
`wide_temp_limit` it leaves and its return value 0. The call of
`update_devfreq` re-evaluates the frequency of the device and writes no field
of the record. -/
def rockchip_monitor_dev_low_temp_adjust : AdjustCallback := fun info is_low =>
  (if info.low_limit ≠ 0 then (if is_low = true then info.low_limit else 0)
   else info.wide_temp_limit, 0)

/-- Model of `rockchip_monitor_dev_high_temp_adjust` as an adjust callback. -/
def rockchip_monitor_dev_high_temp_adjust : AdjustCallback := fun info is_high =>
  (if info.high_limit ≠ 0 then (if is_high = true then info.high_limit else 0)
   else info.wide_temp_limit, 0)

/-- The profile of a device of type `MONITOR_TPYE_DEV` that uses the two
callbacks above. -/
def dev_profile : MonitorDevProfile :=
  { type := MonitorDevType.MONITOR_TPYE_DEV,
    low_temp_adjust := some rockchip_monitor_dev_low_temp_adjust,
    high_temp_adjust := some rockchip_monitor_dev_high_temp_adjust }

/-- The properties of the `operating-points-v2` node that
`monitor_device_parse_dt` reads. A `u32` property is `none` when
`of_property_read_u32` fails, in which case its target is not written; the
adjust table property is as in `rockchip_get_adjust_volt_table`. -/
structure MonitorDtProps where
  max_volt : Option Nat := none
  temp_hysteresis : Option Nat := none
  low_temp : Option Nat := none
  low_temp_adjust_volt : Option (Option (List Nat)) := none
  low_temp_min_volt : Option Nat := none
  high_temp : Option Nat := none
  high_temp_max_volt : Option Nat := none
  high_temp_max_freq : Option Nat := none

/-- The first half of `monitor_device_parse_dt`, up to the call of
`rockchip_init_temp_opp_table`: the thresholds and voltages read from the
node. A `u32` stored into an `int` field is reinterpreted. -/
def parse_dt_config (p : MonitorDtProps) (info : MonitorDevInfo) : MonitorDevInfo :=
  { info with
    max_volt := (match p.max_volt with
      | none => ULONG_MAX
      | some value => value),
    temp_hysteresis := (match p.temp_hysteresis with
      | none => info.temp_hysteresis
      | some value => wrap_int value),
    low_temp := (match p.low_temp with
      | none => INT_MIN
      | some value => wrap_int value),
    low_temp_adjust_table :=
      (match (rockchip_get_adjust_volt_table p.low_temp_adjust_volt).2 with
      | none => info.low_temp_adjust_table
      | some table => some table),
    low_temp_min_volt := (match p.low_temp_min_volt with
      | none => info.low_temp_min_volt
      | some value => value),
    high_temp := (match p.high_temp with
      | none => INT_MAX
      | some value => wrap_int value),
    high_temp_max_volt := (match p.high_temp_max_volt with
      | none => ULONG_MAX
      | some value => value) }

/-- The statement of `monitor_device_parse_dt` on `rockchip,high-temp-max-freq`:
`value * 1000` is a `u32` product. -/
def parse_dt_high_limit (p : MonitorDtProps) (info : MonitorDevInfo) : MonitorDevInfo :=
  match p.high_temp_max_freq with
  | none => info
  | some value =>
    if info.high_limit ≠ 0 then
      { info with high_limit := Nat.min (value * 1000 % 4294967296) info.high_limit }
    else { info with high_limit := value * 1000 % 4294967296 }

/-- Model of `monitor_device_parse_dt`: the return value and the record. The
node `np` is `none` when `of_parse_phandle` finds none; `opps` are the OPPs of
the device. The result of `rockchip_init_temp_opp_table` is ignored, as in the
source. On an error the two tables are freed. -/
def monitor_device_parse_dt (np : Option MonitorDtProps) (opps : List DevPmOpp)
    (info : MonitorDevInfo) : Option (Int × MonitorDevInfo) :=
  match np with
  | none => some (-EINVAL, info)
  | some p =>
    match rockchip_init_temp_opp_table opps (parse_dt_config p info) with
    | none => none
    | some r =>
      let i := parse_dt_high_limit p r.2
      if wrap_int (i.low_temp + i.temp_hysteresis) > i.high_temp then
        some (-EINVAL, { i with low_temp_adjust_table := none, opp_table := none })
      else if i.low_temp_adjust_table = none ∧ i.low_temp_min_volt = 0 ∧ i.low_limit = 0 ∧
          i.high_limit = 0 then
        some (-EINVAL, { i with low_temp_adjust_table := none, opp_table := none })
      else if ¬ i.low_temp_adjust_table = none ∨ i.low_temp_min_volt ≠ 0 then
        some (0, { i with is_low_temp_enabled := true })
      else some (0, i)

/-- Model of `rockchip_system_monitor_register`: the record returned, `none`
inside when the result is an error pointer. The record starts as `kzalloc`
returns it, all fields zero; `ret` and `temp` are the thermal reading taken by
`rockchip_system_monitor_wide_temp_init`. The allocation is taken to succeed;
registering the devfreq notifier writes no field of the record. -/
def rockchip_system_monitor_register (np : Option MonitorDtProps) (opps : List DevPmOpp)
    (ret temp : Int) : Option (Option MonitorDevInfo) :=
  match monitor_device_parse_dt np opps {} with
  | none => none
  | some r =>
    if r.1 ≠ 0 then some none
    else some (some (rockchip_system_monitor_wide_temp_init r.2 ret temp))

/-- A node with thresholds 0 and 85000 millidegrees, hysteresis 5000,
`rockchip,max-volt` 1350000 and `rockchip,high-temp-max-volt` 1250000. -/
def sample_props : MonitorDtProps :=
  { max_volt := some 1350000, temp_hysteresis := some 5000, low_temp := some 0,
    high_temp := some 85000, high_temp_max_volt := some 1250000 }

/-- The record that registration leaves for `sample_props` and `sample_opps`
when the thermal zone reads 90000 millidegrees: capped at the rate of the
second OPP, both flags clear. -/
def capped_at_registration : MonitorDevInfo :=
  { opp_table := some
      [{ rate := 8000000, volt := 850000, low_temp_volt := 850000, max_volt := 1350000 },
       { rate := 600000000, volt := 1000000, low_temp_volt := 1000000, max_volt := 1350000 },
       { rate := 1200000000, volt := 1300000, low_temp_volt := 1300000,
         max_volt := 1350000 }],
    low_limit := 0, high_limit := 600000000, max_volt := 1350000,
    high_temp_max_volt := 1250000, wide_temp_limit := 600000000, low_temp := 0,
    high_temp := 85000, temp_hysteresis := 5000, is_low_temp := false,
    is_high_temp := false }

/-- The rule the specification gives for `low_temp_volt`, with the sum
`volt + delta` taken in the integers: `max_volt` when the sum exceeds
`max_volt`, otherwise the larger of the sum and `low_temp_min_volt`. -/
def spec_table_low_temp_volt (info : MonitorDevInfo) (volt : Nat) (delta : Int) : Int :=
  if (volt : Int) + delta > (info.max_volt : Int) then (info.max_volt : Int)
  else max ((volt : Int) + delta) (info.low_temp_min_volt : Int)

/-- A device record whose adjust table lowers the voltage by 25000 uV for rates
up to 10 MHz, with `max_volt` 1350000 and `low_temp_min_volt` 900000. -/
def negative_delta_info : MonitorDevInfo :=
  { low_temp_adjust_table :=
      some [{ min := 0, max := 10, volt := -25000 }, { min := 0, max := 0, volt := INT_MAX }],
    max_volt := 1350000, low_temp_min_volt := 900000, high_temp_max_volt := 1250000 }

/-- One OPP of 8 MHz at 10000 uV. -/
def low_volt_opps : List DevPmOpp :=
  [{ rate := 8000000, u_volt := 10000, u_volt_max := 1350000 }]

/-- The record `rockchip_init_temp_opp_table` leaves for `low_volt_opps` and
`negative_delta_info`. -/
def negative_delta_result : MonitorDevInfo :=
  { negative_delta_info with
    opp_table := some
      [{ rate := 8000000, volt := 10000, low_temp_volt := 1350000, max_volt := 1350000 }],
    low_limit := 0, high_limit := 0 }

/-- The invariant of the status machinery: a bit among the low 32 is set
exactly when its counter is positive. -/
def StatusInv (st : SysState) : Prop :=
  ∀ i, i < 32 → (st.system_status.testBit i = true ↔ 0 < st.ref_count i)

end SystemMonitor

/-!
# Normal DMA descriptors of the Ethernet MAC

A shallow embedding of `drivers/net/ethernet/stmicro/stmmac/norm_desc.c`. A
descriptor is a record of four `unsigned int` words; a function that writes a
descriptor returns the descriptor it leaves. The bit definitions come from
`descs.h` and the small helpers from `descs_com.h`, two headers that are not
among the sources.
-/

namespace NormDesc

/-- The kernel macro `BIT(n)`, the `unsigned long` `1UL << n`. -/
def BIT (n : Nat) : Nat := 2 ^ n

/-- The kernel macro `GENMASK(h, l)`: the bits `l..h`, an `unsigned long`. -/
def GENMASK (h l : Nat) : Nat := 2 ^ (h + 1) - 2 ^ l

/-- Conversion of an `unsigned long` to `unsigned int`, as when a word of a
descriptor is stored. -/
def to_uint (x : Nat) : Nat := x % 4294967296

/-- Conversion of an `unsigned long` to `int`, as when a value is returned. -/
def to_int (x : Nat) : Int := SystemMonitor.wrap_int x

/-- Addition of `unsigned long` counters. -/
def ulong_add (a b : Nat) : Nat := (a + b) % 18446744073709551616

/-- Modelled from the spec: `struct dma_desc` of `descs.h`, four `unsigned int`
words. -/
structure DmaDesc where
  des0 : Nat
  des1 : Nat
  des2 : Nat
  des3 : Nat
  deriving DecidableEq, Repr

/-- Modelled from the spec: bit `TDES0_DEFERRED` of `descs.h`. -/
def TDES0_DEFERRED : Nat := BIT 0

/-- Modelled from the spec: bit `TDES0_UNDERFLOW_ERROR` of `descs.h`. -/
def TDES0_UNDERFLOW_ERROR : Nat := BIT 1

/-- Modelled from the spec: bit `TDES0_EXCESSIVE_DEFERRAL` of `descs.h`. -/
def TDES0_EXCESSIVE_DEFERRAL : Nat := BIT 2

/-- Modelled from the spec: field `TDES0_COLLISION_COUNT_MASK` of `descs.h`;
the source shifts it right by 3. -/
def TDES0_COLLISION_COUNT_MASK : Nat := GENMASK 6 3

/-- Modelled from the spec: bit `TDES0_VLAN_FRAME` of `descs.h`. -/
def TDES0_VLAN_FRAME : Nat := BIT 7

/-- Modelled from the spec: bit `TDES0_EXCESSIVE_COLLISIONS` of `descs.h`. -/
def TDES0_EXCESSIVE_COLLISIONS : Nat := BIT 8

/-- Modelled from the spec: bit `TDES0_LATE_COLLISION` of `descs.h`. -/
def TDES0_LATE_COLLISION : Nat := BIT 9

/-- Modelled from the spec: bit `TDES0_NO_CARRIER` of `descs.h`. -/
def TDES0_NO_CARRIER : Nat := BIT 10

/-- Modelled from the spec: bit `TDES0_LOSS_CARRIER` of `descs.h`. -/
def TDES0_LOSS_CARRIER : Nat := BIT 11

/-- Modelled from the spec: bit `TDES0_ERROR_SUMMARY` of `descs.h`. -/
def TDES0_ERROR_SUMMARY : Nat := BIT 15

/-- Modelled from the spec: bit `TDES0_OWN` of `descs.h`; the source shifts it
right by 31. -/
def TDES0_OWN : Nat := BIT 31

/-- Modelled from the spec: field `RDES1_BUFFER1_SIZE_MASK` of `descs.h`. -/
def RDES1_BUFFER1_SIZE_MASK : Nat := GENMASK 10 0

/-- Modelled from the spec: bit `TDES1_SECOND_ADDRESS_CHAINED` of `descs.h`. -/
def TDES1_SECOND_ADDRESS_CHAINED : Nat := BIT 24

/-- Modelled from the spec: bit `TDES1_END_RING` of `descs.h`; the source shifts
it right by 25. -/
def TDES1_END_RING : Nat := BIT 25

/-- Modelled from the spec: bit `TDES1_LAST_SEGMENT` of `descs.h`; the source
shifts it right by 30. -/
def TDES1_LAST_SEGMENT : Nat := BIT 30

/-- Modelled from the spec: bit `RDES0_CRC_ERROR` of `descs.h`. -/
def RDES0_CRC_ERROR : Nat := BIT 1

/-- Modelled from the spec: bit `RDES0_DRIBBLING` of `descs.h`. -/
def RDES0_DRIBBLING : Nat := BIT 2

/-- Modelled from the spec: bit `RDES0_MII_ERROR` of `descs.h`. -/
def RDES0_MII_ERROR : Nat := BIT 3

/-- Modelled from the spec: bit `RDES0_COLLISION` of `descs.h`. -/
def RDES0_COLLISION : Nat := BIT 6

/-- Modelled from the spec: bit `RDES0_IPC_CSUM_ERROR` of `descs.h`. -/
def RDES0_IPC_CSUM_ERROR : Nat := BIT 7

/-- Modelled from the spec: bit `RDES0_LAST_DESCRIPTOR` of `descs.h`. -/
def RDES0_LAST_DESCRIPTOR : Nat := BIT 8

/-- Modelled from the spec: bit `RDES0_VLAN_TAG` of `descs.h`. -/
def RDES0_VLAN_TAG : Nat := BIT 10

/-- Modelled from the spec: bit `RDES0_OVERFLOW_ERROR` of `descs.h`. -/
def RDES0_OVERFLOW_ERROR : Nat := BIT 11

/-- Modelled from the spec: bit `RDES0_LENGTH_ERROR` of `descs.h`. -/
def RDES0_LENGTH_ERROR : Nat := BIT 12

/-- Modelled from the spec: bit `RDES0_SA_FILTER_FAIL` of `descs.h`. -/
def RDES0_SA_FILTER_FAIL : Nat := BIT 13

/-- Modelled from the spec: bit `RDES0_DESCRIPTOR_ERROR` of `descs.h`. -/
def RDES0_DESCRIPTOR_ERROR : Nat := BIT 14

/-- Modelled from the spec: bit `RDES0_ERROR_SUMMARY` of `descs.h`. -/
def RDES0_ERROR_SUMMARY : Nat := BIT 15

/-- Modelled from the spec: field `RDES0_FRAME_LEN_MASK` of `descs.h`, the bits
16..29. -/
def RDES0_FRAME_LEN_MASK : Nat := GENMASK 29 16

/-- Modelled from the spec: shift `RDES0_FRAME_LEN_SHIFT` of `descs.h`. -/
def RDES0_FRAME_LEN_SHIFT : Nat := 16

/-- Modelled from the spec: bit `RDES0_OWN` of `descs.h`. -/
def RDES0_OWN : Nat := BIT 31

/-- Modelled from the spec: value `good_frame` of `enum rx_frame_status`
(`common.h`). -/
def good_frame : Int := 0

/-- Modelled from the spec: value `discard_frame` of `enum rx_frame_status`. -/
def discard_frame : Int := 1

/-- Modelled from the spec: value `dma_own` of `enum rx_frame_status`. -/
def dma_own : Int := 8

/-- Modelled from the spec: descriptor mode `STMMAC_CHAIN_MODE` of `common.h`. -/
def STMMAC_CHAIN_MODE : Int := 1

/-- Modelled from the spec: checksum engine type `STMMAC_RX_COE_TYPE1` of
`linux/stmmac.h`. -/
def STMMAC_RX_COE_TYPE1 : Int := 1

/-- The counters of `struct stmmac_extra_stats` this file updates, all
`unsigned long`. -/
structure StmmacExtraStats where
  tx_underflow : Nat := 0
  tx_carrier : Nat := 0
  tx_losscarrier : Nat := 0
  tx_vlan : Nat := 0
  tx_deferred : Nat := 0
  rx_desc : Nat := 0
  sa_filter_fail : Nat := 0
  overflow_error : Nat := 0
  ipc_csum_error : Nat := 0
  rx_collision : Nat := 0
  rx_crc : Nat := 0
  dribbling_bit : Nat := 0
  rx_length : Nat := 0
  rx_mii : Nat := 0
  vlan_tag : Nat := 0
  deriving DecidableEq, Repr

/-- The counters of `struct net_device_stats` this file updates, all
`unsigned long`. -/
structure NetDeviceStats where
  tx_fifo_errors : Nat := 0
  tx_carrier_errors : Nat := 0
  collisions : Nat := 0
  rx_length_errors : Nat := 0
  rx_crc_errors : Nat := 0
  deriving DecidableEq, Repr

/-- The counters both status functions receive: `x` and `data` (as `stats`). -/
structure Counters where
  x : StmmacExtraStats := {}
  stats : NetDeviceStats := {}
  deriving DecidableEq, Repr

/-- The error branch of `ndesc_get_tx_status`, taken when
`TDES0_ERROR_SUMMARY` is set: the counters it leaves. -/
def tx_error_counters (tdes0 : Nat) (c : Counters) : Counters :=
  let c1 :=
    if tdes0 &&& TDES0_UNDERFLOW_ERROR ≠ 0 then
      { x := { c.x with tx_underflow := ulong_add c.x.tx_underflow 1 },
        stats := { c.stats with tx_fifo_errors := ulong_add c.stats.tx_fifo_errors 1 } }
    else c
  let c2 :=
    if tdes0 &&& TDES0_NO_CARRIER ≠ 0 then
      { x := { c1.x with tx_carrier := ulong_add c1.x.tx_carrier 1 },
        stats := { c1.stats with tx_carrier_errors := ulong_add c1.stats.tx_carrier_errors 1 } }
    else c1
  let c3 :=
    if tdes0 &&& TDES0_LOSS_CARRIER ≠ 0 then
      { x := { c2.x with tx_losscarrier := ulong_add c2.x.tx_losscarrier 1 },
        stats := { c2.stats with tx_carrier_errors := ulong_add c2.stats.tx_carrier_errors 1 } }
    else c2
  if tdes0 &&& TDES0_EXCESSIVE_DEFERRAL ≠ 0 ∨ tdes0 &&& TDES0_EXCESSIVE_COLLISIONS ≠ 0 ∨
      tdes0 &&& TDES0_LATE_COLLISION ≠ 0 then
    let collisions := to_uint ((tdes0 &&& TDES0_COLLISION_COUNT_MASK) >>> 3)
    { c3 with stats := { c3.stats with collisions := ulong_add c3.stats.collisions collisions } }
  else c3

/-- Model of `ndesc_get_tx_status`: the return value and the counters it
leaves. The `ioaddr` argument is not used by the source. -/
def ndesc_get_tx_status (c : Counters) (p : DmaDesc) : Int × Counters :=
  let tdes0 := p.des0
  let r :=
    if tdes0 &&& TDES0_ERROR_SUMMARY ≠ 0 then ((-1 : Int), tx_error_counters tdes0 c)
    else ((0 : Int), c)
  let c1 :=
    if tdes0 &&& TDES0_VLAN_FRAME ≠ 0 then
      { r.2 with x := { r.2.x with tx_vlan := ulong_add r.2.x.tx_vlan 1 } }
    else r.2
  let c2 :=
    if tdes0 &&& TDES0_DEFERRED ≠ 0 then
      { c1 with x := { c1.x with tx_deferred := ulong_add c1.x.tx_deferred 1 } }
    else c1
  (r.1, c2)

/-- Model of `ndesc_get_tx_len`. -/
def ndesc_get_tx_len (p : DmaDesc) : Int := to_int (p.des1 &&& RDES1_BUFFER1_SIZE_MASK)

/-- The error branch of `ndesc_get_rx_status`, taken when
`RDES0_ERROR_SUMMARY` is set: the counters it leaves. -/
def rx_error_counters (rdes0 : Nat) (c : Counters) : Counters :=
  let c1 :=
    if rdes0 &&& RDES0_DESCRIPTOR_ERROR ≠ 0 then
      { c with x := { c.x with rx_desc := ulong_add c.x.rx_desc 1 } }
    else c
  let c2 :=
    if rdes0 &&& RDES0_SA_FILTER_FAIL ≠ 0 then
      { c1 with x := { c1.x with sa_filter_fail := ulong_add c1.x.sa_filter_fail 1 } }
    else c1
  let c3 :=
    if rdes0 &&& RDES0_OVERFLOW_ERROR ≠ 0 then
      { c2 with x := { c2.x with overflow_error := ulong_add c2.x.overflow_error 1 } }
    else c2
  let c4 :=
    if rdes0 &&& RDES0_IPC_CSUM_ERROR ≠ 0 then
      { c3 with x := { c3.x with ipc_csum_error := ulong_add c3.x.ipc_csum_error 1 } }
    else c3
  let c5 :=
    if rdes0 &&& RDES0_COLLISION ≠ 0 then
      { x := { c4.x with rx_collision := ulong_add c4.x.rx_collision 1 },
        stats := { c4.stats with collisions := ulong_add c4.stats.collisions 1 } }
    else c4
  if rdes0 &&& RDES0_CRC_ERROR ≠ 0 then
    { x := { c5.x with rx_crc := ulong_add c5.x.rx_crc 1 },
      stats := { c5.stats with rx_crc_errors := ulong_add c5.stats.rx_crc_errors 1 } }
  else c5

/-- Model of `ndesc_get_rx_status`: the return value and the counters it
leaves. `vlan_tag_used` says whether `STMMAC_VLAN_TAG_USED` is defined. -/
def ndesc_get_rx_status (vlan_tag_used : Bool) (c : Counters) (p : DmaDesc) :
    Int × Counters :=
  let rdes0 := p.des0
  if rdes0 &&& RDES0_OWN ≠ 0 then (dma_own, c)
  else if ¬ (rdes0 &&& RDES0_LAST_DESCRIPTOR ≠ 0) then
    (discard_frame,
      { c with stats := { c.stats with
          rx_length_errors := ulong_add c.stats.rx_length_errors 1 } })
  else
    let r1 :=
      if rdes0 &&& RDES0_ERROR_SUMMARY ≠ 0 then (discard_frame, rx_error_counters rdes0 c)
      else (good_frame, c)
    let c2 :=
      if rdes0 &&& RDES0_DRIBBLING ≠ 0 then
        { r1.2 with x := { r1.2.x with dribbling_bit := ulong_add r1.2.x.dribbling_bit 1 } }
      else r1.2
    let r3 :=
      if rdes0 &&& RDES0_LENGTH_ERROR ≠ 0 then
        (discard_frame, { c2 with x := { c2.x with rx_length := ulong_add c2.x.rx_length 1 } })
      else (r1.1, c2)
    let r4 :=
      if rdes0 &&& RDES0_MII_ERROR ≠ 0 then
        (discard_frame, { r3.2 with x := { r3.2.x with rx_mii := ulong_add r3.2.x.rx_mii 1 } })
      else r3
    let c5 :=
      if vlan_tag_used = true ∧ rdes0 &&& RDES0_VLAN_TAG ≠ 0 then
        { r4.2 with x := { r4.2.x with vlan_tag := ulong_add r4.2.x.vlan_tag 1 } }
      else r4.2
    (r4.1, c5)

/-- Modelled from the spec: `ndesc_tx_set_on_chain` of `descs_com.h`: it marks
the second address of the descriptor as chained, in `des1`. -/
def ndesc_tx_set_on_chain (p : DmaDesc) : DmaDesc :=
  { p with des1 := to_uint (p.des1 ||| TDES1_SECOND_ADDRESS_CHAINED) }

/-- Modelled from the spec: `ndesc_end_tx_desc_on_ring` of `descs_com.h`: it
sets `TDES1_END_RING` in `des1` when `end` is non-zero and clears it
otherwise. -/
def ndesc_end_tx_desc_on_ring (p : DmaDesc) (end_ : Int) : DmaDesc :=
  if end_ ≠ 0 then { p with des1 := to_uint (p.des1 ||| TDES1_END_RING) }
  else { p with des1 := to_uint (p.des1 &&& (18446744073709551615 - TDES1_END_RING)) }

/-- Model of `ndesc_init_tx_desc`; `~TDES0_OWN` is the complement of an
`unsigned long`. -/
def ndesc_init_tx_desc (p : DmaDesc) (mode end_ : Int) : DmaDesc :=
  let p1 := { p with des0 := to_uint (p.des0 &&& (18446744073709551615 - TDES0_OWN)) }
  if mode = STMMAC_CHAIN_MODE then ndesc_tx_set_on_chain p1
  else ndesc_end_tx_desc_on_ring p1 end_

/-- Model of `ndesc_get_tx_owner`. -/
def ndesc_get_tx_owner (p : DmaDesc) : Int := to_int ((p.des0 &&& TDES0_OWN) >>> 31)

/-- Model of `ndesc_set_tx_owner`. -/
def ndesc_set_tx_owner (p : DmaDesc) : DmaDesc :=
  { p with des0 := to_uint (p.des0 ||| TDES0_OWN) }

/-- Model of `ndesc_get_tx_ls`. -/
def ndesc_get_tx_ls (p : DmaDesc) : Int := to_int ((p.des1 &&& TDES1_LAST_SEGMENT) >>> 30)

/-- Model of `ndesc_release_tx_desc`: `memset` clears the first two words (the
offset of `des2` is 8). -/
def ndesc_release_tx_desc (p : DmaDesc) (mode : Int) : DmaDesc :=
  let ter := to_int ((p.des1 &&& TDES1_END_RING) >>> 25)
  let p1 := { p with des0 := 0, des1 := 0 }
  if mode = STMMAC_CHAIN_MODE then ndesc_tx_set_on_chain p1
  else ndesc_end_tx_desc_on_ring p1 ter

/-- Model of `ndesc_get_rx_frame_len`: the subtraction is made on `unsigned
long` values and the result is returned as an `int`. -/
def ndesc_get_rx_frame_len (p : DmaDesc) (rx_coe_type : Int) : Int :=
  let csum : Nat := if rx_coe_type = STMMAC_RX_COE_TYPE1 then 2 else 0
  to_int ((((p.des0 &&& RDES0_FRAME_LEN_MASK) >>> RDES0_FRAME_LEN_SHIFT) +
    18446744073709551616 - csum) % 18446744073709551616)

/-- Model of `ndesc_get_timestamp`: `u64` arithmetic; `ats` is not used by the
source. -/
def ndesc_get_timestamp (desc : DmaDesc) (_ats : Nat) : Nat :=
  let ns := desc.des2 % 18446744073709551616
  (ns + (desc.des3 * 1000000000) % 18446744073709551616) % 18446744073709551616

/-- The words of a descriptor have the values of an `unsigned int`. -/
def DmaDesc.is_uint (p : DmaDesc) : Prop :=
  p.des0 < 4294967296 ∧ p.des1 < 4294967296 ∧ p.des2 < 4294967296 ∧ p.des3 < 4294967296

instance (p : DmaDesc) : Decidable p.is_uint := by
  unfold DmaDesc.is_uint; exact inferInstance

end NormDesc

/-!
# xHCI debug code: the context dumps

A shallow embedding of the context dumps of `drivers/usb/host/xhci-dbg.c`.
A dump is the list of the lines it prints for the fields of a context, in
the order of printing; the header lines, which print no address, are left
out. A pointer into the buffer `ctx->bytes` of a container context is its
distance in bytes from the start of the buffer. `dma_addr_t` is taken to
have 64 bits (the addresses are printed with `%08llx`).
-/

namespace XhciDbg

/-- A sum of type `dma_addr_t`, as in `dma += field_size`. -/
def dma_add (dma n : Nat) : Nat := (dma + n) % 18446744073709551616

/-- One line printed for a field: the pointer printed with `%p` (`ptr`), the
DMA address printed with `%08llx`, the size in bytes of the value printed (4
for `%#08x`, 8 for `%#08llx`), the value, and the label with its index if it
has one. -/
structure DumpLine where
  ptr : Nat
  dma : Nat
  width : Nat
  value : Nat
  name : String
  index : Option Nat
  deriving DecidableEq, Repr

/-- Modelled from the spec: `struct xhci_container_ctx` of `xhci.h`, which is not
among the sources: the type of the context, the DMA address of its buffer
`bytes`, and the content of the buffer, given by the 32-bit and the 64-bit
object found at a distance from its start. -/
structure XhciContainerCtx where
  type : Nat
  dma : Nat
  read32 : Nat → Nat
  read64 : Nat → Nat

/-- Modelled from the spec: the constant `XHCI_CTX_TYPE_DEVICE` of `xhci.h`. -/
def XHCI_CTX_TYPE_DEVICE : Nat := 1

/-- Modelled from the spec: the constant `XHCI_CTX_TYPE_INPUT` of `xhci.h`. -/
def XHCI_CTX_TYPE_INPUT : Nat := 2

/-- Modelled from the spec: the macro `HCC_64BYTE_CONTEXT(p)` of `xhci.h`,
`(p) & (1 << 2)`. -/
def HCC_64BYTE_CONTEXT (p : Nat) : Nat := p &&& 4

/-- Modelled from the spec: the macro `CTX_SIZE(_hcc)` of `xhci.h`. -/
def CTX_SIZE (hcc_params : Nat) : Nat := if HCC_64BYTE_CONTEXT hcc_params ≠ 0 then 64 else 32

/-- Modelled from the spec: `xhci_get_slot_ctx` of `xhci-mem.c`, not among the
sources: the slot context starts the buffer of a device context and follows
the input control context in an input context. -/
def xhci_get_slot_ctx (hcc_params : Nat) (ctx : XhciContainerCtx) : Nat :=
  if ctx.type = XHCI_CTX_TYPE_DEVICE then 0 else CTX_SIZE hcc_params

/-- Modelled from the spec: `xhci_get_ep_ctx` of `xhci-mem.c`: the endpoint
contexts follow the slot context. -/
def xhci_get_ep_ctx (hcc_params : Nat) (ctx : XhciContainerCtx) (ep_index : Nat) : Nat :=
  (if ctx.type = XHCI_CTX_TYPE_INPUT then ep_index + 2 else ep_index + 1) * CTX_SIZE hcc_params

/-- Modelled from the spec: `xhci_get_input_control_ctx` of `xhci-mem.c`; `none`
is `NULL`. -/
def xhci_get_input_control_ctx (ctx : XhciContainerCtx) : Option Nat :=
  if ctx.type ≠ XHCI_CTX_TYPE_INPUT then none else some 0

/-- The line printed for a 32-bit field found at `ptr`. -/
def field32 (ctx : XhciContainerCtx) (ptr dma : Nat) (name : String) (index : Option Nat) :
    DumpLine :=
  { ptr := ptr, dma := dma, width := 4, value := ctx.read32 ptr, name := name, index := index }

/-- The line printed for a 64-bit field found at `ptr`. -/
def field64 (ctx : XhciContainerCtx) (ptr dma : Nat) (name : String) (index : Option Nat) :
    DumpLine :=
  { ptr := ptr, dma := dma, width := 8, value := ctx.read64 ptr, name := name, index := index }

/-- The loop of `dbg_rsvd64`, with the number of iterations left, `i` and
`dma`; `ctx` is the pointer passed, a pointer to `u64`, so that `&ctx[4 + i]`
lies `8 * (4 + i)` bytes after it. -/
def dbg_rsvd64_loop (c : XhciContainerCtx) (ctx : Nat) : Nat → Nat → Nat → List DumpLine
  | 0, _, _ => []
  | n + 1, i, dma =>
    field64 c (ctx + 8 * (4 + i)) dma "rsvd64" (some i) ::
      dbg_rsvd64_loop c ctx n (i + 1) (dma_add dma 8)

/-- Model of `dbg_rsvd64`. -/
def dbg_rsvd64 (c : XhciContainerCtx) (ctx dma : Nat) : List DumpLine :=
  dbg_rsvd64_loop c ctx 4 0 dma

/-- The loops over a reserved array of 32-bit fields that starts at `base`
(`for (i = 0; i < n; ++i)`, one line and `dma += field_size` per element): the
lines and the value of `dma` after the loop. The three dumps each have one
such loop. -/
def dbg_reserved_loop (c : XhciContainerCtx) (name : String) (base field_size : Nat) :
    Nat → Nat → Nat → List DumpLine × Nat
  | 0, _, dma => ([], dma)
  | n + 1, i, dma =>
    (field32 c (base + 4 * i) dma name (some i) ::
        (dbg_reserved_loop c name base field_size n (i + 1) (dma_add dma field_size)).1,
      (dbg_reserved_loop c name base field_size n (i + 1) (dma_add dma field_size)).2)

/-- Model of `xhci_dbg_slot_ctx`. The fields of `struct xhci_slot_ctx` lie at
0 (`dev_info`), 4 (`dev_info2`), 8 (`tt_info`), 12 (`dev_state`) and 16
(`reserved[4]`), all of 32 bits (layout of `xhci.h`). -/
def xhci_dbg_slot_ctx (hcc_params : Nat) (ctx : XhciContainerCtx) : List DumpLine :=
  let field_size := 32 / 8
  let slot_ctx := xhci_get_slot_ctx hcc_params ctx
  let dma0 := dma_add ctx.dma slot_ctx
  let csz := HCC_64BYTE_CONTEXT hcc_params
  let dma1 := dma_add dma0 field_size
  let dma2 := dma_add dma1 field_size
  let dma3 := dma_add dma2 field_size
  let dma4 := dma_add dma3 field_size
  let r := dbg_reserved_loop ctx "rsvd" (slot_ctx + 16) field_size 4 0 dma4
  [field32 ctx slot_ctx dma0 "dev_info" none,
   field32 ctx (slot_ctx + 4) dma1 "dev_info2" none,
   field32 ctx (slot_ctx + 8) dma2 "tt_info" none,
   field32 ctx (slot_ctx + 12) dma3 "dev_state" none] ++ r.1 ++
    (if csz ≠ 0 then dbg_rsvd64 ctx slot_ctx r.2 else [])

/-- The body of the loop of `xhci_dbg_ep_ctx` for the endpoint index `i`. The
fields of `struct xhci_ep_ctx` lie at 0 (`ep_info`), 4 (`ep_info2`), 8 (`deq`,
of 64 bits), 16 (`tx_info`) and 20 (`reserved[3]`) (layout of `xhci.h`). -/
def dbg_one_ep_ctx (hcc_params : Nat) (ctx : XhciContainerCtx) (i : Nat) : List DumpLine :=
  let field_size := 32 / 8
  let csz := HCC_64BYTE_CONTEXT hcc_params
  let ep_ctx := xhci_get_ep_ctx hcc_params ctx i
  let dma0 := dma_add ctx.dma ep_ctx
  let dma1 := dma_add dma0 field_size
  let dma2 := dma_add dma1 field_size
  let dma3 := dma_add dma2 (2 * field_size)
  let dma4 := dma_add dma3 field_size
  let r := dbg_reserved_loop ctx "rsvd" (ep_ctx + 20) field_size 3 0 dma4
  [field32 ctx ep_ctx dma0 "ep_info" none,
   field32 ctx (ep_ctx + 4) dma1 "ep_info2" none,
   field64 ctx (ep_ctx + 8) dma2 "deq" none,
   field32 ctx (ep_ctx + 16) dma3 "tx_info" none] ++ r.1 ++
    (if csz ≠ 0 then dbg_rsvd64 ctx ep_ctx r.2 else [])

/-- The loop `for (i = 0; i < last_ep_ctx; ++i)` of `xhci_dbg_ep_ctx`, with
the number of iterations left and `i`. -/
def dbg_ep_ctx_loop (hcc_params : Nat) (ctx : XhciContainerCtx) : Nat → Nat → List DumpLine
  | 0, _ => []
  | n + 1, i => dbg_one_ep_ctx hcc_params ctx i ++ dbg_ep_ctx_loop hcc_params ctx n (i + 1)

/-- Model of `xhci_dbg_ep_ctx`; `last_ep` is an `unsigned int`. -/
def xhci_dbg_ep_ctx (hcc_params : Nat) (ctx : XhciContainerCtx) (last_ep : Nat) :
    List DumpLine :=
  dbg_ep_ctx_loop hcc_params ctx (if last_ep < 31 then last_ep + 1 else 31) 0

/-- The part of `xhci_dbg_ctx` that dumps the input control context found at
`ctrl_ctx`; `dma` starts as `ctx->dma`. The fields of
`struct xhci_input_control_ctx` lie at 0 (`drop_flags`), 4 (`add_flags`) and 8
(`rsvd2[6]`) (layout of `xhci.h`). -/
def dbg_input_control_ctx (hcc_params : Nat) (ctx : XhciContainerCtx) (ctrl_ctx : Nat) :
    List DumpLine :=
  let field_size := 32 / 8
  let dma0 := ctx.dma
  let csz := HCC_64BYTE_CONTEXT hcc_params
  let dma1 := dma_add dma0 field_size
  let dma2 := dma_add dma1 field_size
  let r := dbg_reserved_loop ctx "rsvd2" (ctrl_ctx + 8) field_size 6 0 dma2
  [field32 ctx ctrl_ctx dma0 "drop flags" none,
   field32 ctx (ctrl_ctx + 4) dma1 "add flags" none] ++ r.1 ++
    (if csz ≠ 0 then dbg_rsvd64 ctx ctrl_ctx r.2 else [])

/-- Model of `xhci_dbg_ctx`. For an input context whose control context cannot
be found only a warning is printed. -/
def xhci_dbg_ctx (hcc_params : Nat) (ctx : XhciContainerCtx) (last_ep : Nat) :
    List DumpLine :=
  if ctx.type = XHCI_CTX_TYPE_INPUT then
    match xhci_get_input_control_ctx ctx with
    | none => []
    | some ctrl_ctx =>
      dbg_input_control_ctx hcc_params ctx ctrl_ctx ++ xhci_dbg_slot_ctx hcc_params ctx ++
        xhci_dbg_ep_ctx hcc_params ctx last_ep
  else xhci_dbg_slot_ctx hcc_params ctx ++ xhci_dbg_ep_ctx hcc_params ctx last_ep

/-- What a line shows of a field: the pointer, the DMA address and the size. -/
def DumpLine.place (l : DumpLine) : Nat × Nat × Nat := (l.ptr, l.dma, l.width)

/-- The fields of a slot context and of an input control context: eight
32-bit fields, given by offset and size in bytes. -/
def word_fields : List (Nat × Nat) :=
  [(0, 4), (4, 4), (8, 4), (12, 4), (16, 4), (20, 4), (24, 4), (28, 4)]

/-- The fields of an endpoint context: `deq` at offset 8 has 8 bytes. -/
def ep_fields : List (Nat × Nat) :=
  [(0, 4), (4, 4), (8, 8), (16, 4), (20, 4), (24, 4), (28, 4)]

/-- The last 32 bytes of a 64-byte context as four 64-bit words. -/
def rsvd64_fields : List (Nat × Nat) := [(32, 8), (40, 8), (48, 8), (56, 8)]

/-- The places a dump is to show for a context that starts at `ptr`, with DMA
address `dma`: for each field, the start plus its offset, on both sides. -/
def field_places (ptr dma : Nat) (fields : List (Nat × Nat)) : List (Nat × Nat × Nat) :=
  fields.map (fun f => (ptr + f.1, dma_add dma f.1, f.2))

/-- The fields of a context as a dump is to show them: those of the first 32
bytes, followed for a 64-byte context by the four 64-bit words. -/
def context_fields (hcc_params : Nat) (fields : List (Nat × Nat)) : List (Nat × Nat) :=
  fields ++ (if HCC_64BYTE_CONTEXT hcc_params ≠ 0 then rsvd64_fields else [])

/-- Every byte offset below `size` lies in exactly one of the fields. -/
def fields_cover (fields : List (Nat × Nat)) (size : Nat) : Prop :=
  ∀ b, b < size → fields.countP (fun f => decide (f.1 ≤ b ∧ b < f.1 + f.2)) = 1

instance (fields : List (Nat × Nat)) (size : Nat) : Decidable (fields_cover fields size) := by
  unfold fields_cover; exact inferInstance

/-- An input context with 64-byte contexts whose buffer has the DMA address
0x1000 and holds its own offsets. -/
def sample_ctx : XhciContainerCtx :=
  { type := XHCI_CTX_TYPE_INPUT, dma := 4096, read32 := fun p => p, read64 := fun p => p }

end XhciDbg

namespace SystemMonitor

/-! ## Lemmas on the bit operations -/

theorem set_mask_testBit :
    ∀ off < 32, ∀ i < 32, (set_mask off).testBit i = decide (i = off) := by
  decide

theorem clear_mask_testBit :
    ∀ off < 32, ∀ i < 32, (clear_mask off).testBit i = decide (i ≠ off) := by
  decide

theorem fls_aux_spec (x : Nat) : ∀ k,
    (fls_aux k x = 0 ∧ ∀ j < k, x.testBit j = false) ∨
    (∃ m, fls_aux k x = m + 1 ∧ m < k ∧ x.testBit m = true ∧
      ∀ j, m < j → j < k → x.testBit j = false) := by
  intro k
  induction k with
  | zero => left; exact ⟨rfl, fun j hj => absurd hj (Nat.not_lt_zero j)⟩
  | succ k ih =>
    by_cases hk : x.testBit k = true
    · right
      refine ⟨k, by simp [fls_aux, hk], Nat.lt_succ_self k, hk, ?_⟩
      intro j h1 h2; omega
    · have hk0 : x.testBit k = false := by simpa using hk
      rcases ih with ⟨h0, hall⟩ | ⟨m, hm, hlt, hbit, hall⟩
      · left
        refine ⟨by simp [fls_aux, hk0, h0], ?_⟩
        intro j hj
        rcases Nat.lt_succ_iff_lt_or_eq.mp hj with h | h
        · exact hall j h
        · rw [h]; exact hk0
      · right
        refine ⟨m, by simp [fls_aux, hk0, hm], Nat.lt_succ_of_lt hlt, hbit, ?_⟩
        intro j h1 h2
        rcases Nat.lt_succ_iff_lt_or_eq.mp h2 with h | h
        · exact hall j h1 h
        · rw [h]; exact hk0

/-- The offset computed by one loop iteration is the highest set bit. -/
theorem offset_spec (k status : Nat) (hk : k ≤ 32)
    (hhigh : ∀ j, k ≤ j → status.testBit j = false) (hne : status ≠ 0) :
    ∃ m, status_offset status = m ∧ m < k ∧
      status.testBit m = true ∧ ∀ j, m < j → status.testBit j = false := by
  have hlow : ∀ j, (ulong_to_uint status).testBit j = (decide (j < 32) && status.testBit j) := by
    intro j
    have : ulong_to_uint status = status % 2 ^ 32 := rfl
    rw [this, Nat.testBit_mod_two_pow]
  rcases fls_aux_spec (ulong_to_uint status) 32 with ⟨_, hall⟩ | ⟨m, hm, hlt, hbit, hall⟩
  · exfalso
    apply hne
    apply Nat.eq_of_testBit_eq
    intro j
    rw [Nat.zero_testBit]
    by_cases hj : j < 32
    · have := hall j hj
      rw [hlow] at this
      simpa [hj] using this
    · exact hhigh j (by omega)
  · rw [hlow] at hbit
    have hm32 : status.testBit m = true := by simpa [hlt] using hbit
    have hmk : m < k := by
      by_contra hcon
      have := hhigh m (by omega)
      rw [this] at hm32
      exact Bool.false_ne_true hm32
    refine ⟨m, ?_, hmk, hm32, ?_⟩
    · unfold status_offset fls; rw [hm]; omega
    · intro j hj
      by_cases hj32 : j < 32
      · have := hall j hj hj32
        rw [hlow] at this
        simpa [hj32] using this
      · exact hhigh j (by omega)

/-- Bits of the loop variable after `status &= ~(1 << m)`. -/
theorem status_step_testBit (status m : Nat) (hm : m < 32)
    (hhigh : ∀ j, m < j → status.testBit j = false) (j : Nat) :
    (status &&& clear_mask m).testBit j = (status.testBit j && decide (j ≠ m)) := by
  rw [Nat.testBit_and]
  by_cases hj : j < 32
  · rw [clear_mask_testBit m hm j hj]
  · have h1 : status.testBit j = false := hhigh j (by omega)
    have h2 : j ≠ m := by omega
    simp [h1, h2]

/-! ## Effect of the two status loops -/

theorem set_status_bit_ref_count (m : Nat) (st : SysState) (i : Nat) :
    (set_status_bit m st).ref_count i =
      if i = m then st.ref_count i + 1 else st.ref_count i := by
  unfold set_status_bit
  by_cases h : st.ref_count m = 0 <;> by_cases hi : i = m <;>
    simp [h, hi, Function.update]

theorem set_status_bit_testBit (m : Nat) (hm : m < 32) (st : SysState) (i : Nat)
    (hi : i < 32) :
    (set_status_bit m st).system_status.testBit i =
      (st.system_status.testBit i || (decide (i = m) && decide (st.ref_count i = 0))) := by
  unfold set_status_bit
  by_cases h : st.ref_count m = 0
  · have hc := set_mask_testBit m hm i hi
    by_cases him : i = m
    · subst him
      simp [h, Nat.testBit_or, hc]
    · simp [h, him, Nat.testBit_or, hc]
  · by_cases him : i = m
    · simp [h, him]
    · simp [h, him]

theorem set_status_bit_frame (m : Nat) (st : SysState) :
    (set_status_bit m st).video_info_list = st.video_info_list ∧
      (set_status_bit m st).notified = st.notified := by
  unfold set_status_bit
  by_cases h : st.ref_count m = 0 <;> simp [h]

theorem clear_status_bit_ref_count (m : Nat) (st : SysState) (i : Nat) :
    (clear_status_bit m st).ref_count i =
      if i = m then st.ref_count i - 1 else st.ref_count i := by
  unfold clear_status_bit
  by_cases h : st.ref_count m = 0
  · by_cases hi : i = m
    · simp [h, hi]
    · simp [h, hi]
  · by_cases h1 : st.ref_count m = 1 <;> by_cases hi : i = m <;>
      simp [h, h1, hi, Function.update]

theorem clear_status_bit_testBit (m : Nat) (hm : m < 32) (st : SysState) (i : Nat)
    (hi : i < 32) :
    (clear_status_bit m st).system_status.testBit i =
      (st.system_status.testBit i && !(decide (i = m) && decide (st.ref_count i = 1))) := by
  unfold clear_status_bit
  by_cases h : st.ref_count m = 0
  · by_cases him : i = m
    · simp [h, him]
    · simp [h, him]
  · by_cases h1 : st.ref_count m = 1
    · have hc := clear_mask_testBit m hm i hi
      by_cases him : i = m
      · subst him
        simp [h1, Nat.testBit_and, hc]
      · simp [h1, him, Nat.testBit_and, hc]
    · by_cases him : i = m
      · simp [h, h1, him]
      · simp [h, h1, him]

theorem clear_status_bit_frame (m : Nat) (st : SysState) :
    (clear_status_bit m st).video_info_list = st.video_info_list ∧
      (clear_status_bit m st).notified = st.notified := by
  unfold clear_status_bit
  by_cases h : st.ref_count m = 0
  · simp [h]
  · by_cases h1 : st.ref_count m = 1 <;> simp [h, h1]

theorem no_bits_eq_zero (status : Nat) (h : ∀ j, status.testBit j = false) : status = 0 :=
  Nat.eq_of_testBit_eq (fun j => by rw [h j, Nat.zero_testBit])

theorem set_status_loop_spec : ∀ (fuel status : Nat) (st : SysState), fuel ≤ 32 →
    (∀ j, fuel ≤ j → status.testBit j = false) →
    ∃ st', set_status_loop fuel status st = some st' ∧
      (∀ i, st'.ref_count i =
        if status.testBit i = true then st.ref_count i + 1 else st.ref_count i) ∧
      (∀ i, i < 32 → st'.system_status.testBit i = (st.system_status.testBit i || (status.testBit i && decide (st.ref_count i = 0)))) ∧
      st'.video_info_list = st.video_info_list ∧ st'.notified = st.notified := by
  intro fuel
  induction fuel with
  | zero =>
    intro status st _ hhigh
    have h0 : status = 0 := no_bits_eq_zero status (fun j => hhigh j (Nat.zero_le j))
    subst h0
    exact ⟨st, by simp [set_status_loop], by simp, by simp, rfl, rfl⟩
  | succ fuel ih =>
    intro status st hfuel hhigh
    by_cases h0 : status = 0
    · subst h0
      exact ⟨st, by simp [set_status_loop], by simp, by simp, rfl, rfl⟩
    · obtain ⟨m, hoff, hmlt, hbit, hall⟩ := offset_spec (fuel + 1) status hfuel hhigh h0
      have hm32 : m < 32 := by omega
      have hstep := status_step_testBit status m hm32 hall
      have hhigh1 : ∀ j, fuel ≤ j → (status &&& clear_mask m).testBit j = false := by
        intro j hj
        rw [hstep]
        by_cases hjm : j = m
        · simp [hjm]
        · rw [hall j (by omega)]; rfl
      obtain ⟨st', hrun, hrc, hss, hv, hn⟩ :=
        ih (status &&& clear_mask m) (set_status_bit m st) (by omega) hhigh1
      refine ⟨st', ?_, ?_, ?_, ?_, ?_⟩
      · simp only [set_status_loop, if_neg h0, hoff, if_pos hm32]; exact hrun
      · intro i
        rw [hrc i, hstep i, set_status_bit_ref_count]
        by_cases him : i = m
        · subst him; simp [hbit]
        · simp [him]
      · intro i hi
        rw [hss i hi, hstep i, set_status_bit_testBit m hm32 st i hi,
          set_status_bit_ref_count]
        by_cases him : i = m
        · subst him; simp [hbit]
        · simp [him]
      · rw [hv]; exact (set_status_bit_frame m st).1
      · rw [hn]; exact (set_status_bit_frame m st).2

theorem clear_status_loop_spec : ∀ (fuel status : Nat) (st : SysState), fuel ≤ 32 →
    (∀ j, fuel ≤ j → status.testBit j = false) →
    ∃ st', clear_status_loop fuel status st = some st' ∧
      (∀ i, st'.ref_count i =
        if status.testBit i = true then st.ref_count i - 1 else st.ref_count i) ∧
      (∀ i, i < 32 → st'.system_status.testBit i = (st.system_status.testBit i && !(status.testBit i && decide (st.ref_count i = 1)))) ∧
      st'.video_info_list = st.video_info_list ∧ st'.notified = st.notified := by
  intro fuel
  induction fuel with
  | zero =>
    intro status st _ hhigh
    have h0 : status = 0 := no_bits_eq_zero status (fun j => hhigh j (Nat.zero_le j))
    subst h0
    exact ⟨st, by simp [clear_status_loop], by simp, by simp, rfl, rfl⟩
  | succ fuel ih =>
    intro status st hfuel hhigh
    by_cases h0 : status = 0
    · subst h0
      exact ⟨st, by simp [clear_status_loop], by simp, by simp, rfl, rfl⟩
    · obtain ⟨m, hoff, hmlt, hbit, hall⟩ := offset_spec (fuel + 1) status hfuel hhigh h0
      have hm32 : m < 32 := by omega
      have hstep := status_step_testBit status m hm32 hall
      have hhigh1 : ∀ j, fuel ≤ j → (status &&& clear_mask m).testBit j = false := by
        intro j hj
        rw [hstep]
        by_cases hjm : j = m
        · simp [hjm]
        · rw [hall j (by omega)]; rfl
      obtain ⟨st', hrun, hrc, hss, hv, hn⟩ :=
        ih (status &&& clear_mask m) (clear_status_bit m st) (by omega) hhigh1
      refine ⟨st', ?_, ?_, ?_, ?_, ?_⟩
      · simp only [clear_status_loop, if_neg h0, hoff, if_pos hm32]; exact hrun
      · intro i
        rw [hrc i, hstep i, clear_status_bit_ref_count]
        by_cases him : i = m
        · subst him; simp [hbit]
        · simp [him]
      · intro i hi
        rw [hss i hi, hstep i, clear_status_bit_testBit m hm32 st i hi,
          clear_status_bit_ref_count]
        by_cases him : i = m
        · subst him; simp [hbit]
        · simp [him]
      · rw [hv]; exact (clear_status_bit_frame m st).1
      · rw [hn]; exact (clear_status_bit_frame m st).2

theorem testBit_high_of_lt (status : Nat) (h : status < 4294967296) :
    ∀ j, 32 ≤ j → status.testBit j = false := by
  intro j hj
  apply Nat.testBit_lt_two_pow
  calc status < 2 ^ 32 := h
    _ ≤ 2 ^ j := Nat.pow_le_pow_right (by norm_num) hj

theorem notify_if_changed_fields (old : Nat) (st : SysState) :
    (notify_if_changed old st).system_status = st.system_status ∧
      (notify_if_changed old st).ref_count = st.ref_count ∧
      (notify_if_changed old st).video_info_list = st.video_info_list := by
  unfold notify_if_changed
  by_cases h : old ≠ st.system_status <;> simp [h]

/-- Effect of `rockchip_set_system_status` for a 32-bit mask: it returns, every
counter selected by the mask grows by one, and a selected bit whose counter
was zero is raised. -/
theorem rockchip_set_system_status_spec (status : Nat) (st : SysState)
    (h : status < 4294967296) :
    ∃ st', rockchip_set_system_status status st = some st' ∧
      (∀ i, st'.ref_count i =
        if status.testBit i = true then st.ref_count i + 1 else st.ref_count i) ∧
      (∀ i, i < 32 → st'.system_status.testBit i =
        (st.system_status.testBit i || (status.testBit i && decide (st.ref_count i = 0)))) ∧
      st'.video_info_list = st.video_info_list := by
  obtain ⟨st1, hrun, hrc, hss, hv, _⟩ :=
    set_status_loop_spec 32 status st (Nat.le_refl 32) (testBit_high_of_lt status h)
  obtain ⟨f1, f2, f3⟩ := notify_if_changed_fields st.system_status st1
  refine ⟨notify_if_changed st.system_status st1, ?_, ?_, ?_, ?_⟩
  · simp [rockchip_set_system_status, hrun]
  · intro i; rw [f2]; exact hrc i
  · intro i hi; rw [f1]; exact hss i hi
  · rw [f3]; exact hv

/-- Effect of `rockchip_clear_system_status` for a 32-bit mask: it returns, every
selected non-zero counter shrinks by one, and a selected bit whose counter was
one is dropped. -/
theorem rockchip_clear_system_status_spec (status : Nat) (st : SysState)
    (h : status < 4294967296) :
    ∃ st', rockchip_clear_system_status status st = some st' ∧
      (∀ i, st'.ref_count i =
        if status.testBit i = true then st.ref_count i - 1 else st.ref_count i) ∧
      (∀ i, i < 32 → st'.system_status.testBit i =
        (st.system_status.testBit i && !(status.testBit i && decide (st.ref_count i = 1)))) ∧
      st'.video_info_list = st.video_info_list := by
  obtain ⟨st1, hrun, hrc, hss, hv, _⟩ :=
    clear_status_loop_spec 32 status st (Nat.le_refl 32) (testBit_high_of_lt status h)
  obtain ⟨f1, f2, f3⟩ := notify_if_changed_fields st.system_status st1
  refine ⟨notify_if_changed st.system_status st1, ?_, ?_, ?_, ?_⟩
  · simp [rockchip_clear_system_status, hrun]
  · intro i; rw [f2]; exact hrc i
  · intro i hi; rw [f1]; exact hss i hi
  · rw [f3]; exact hv

theorem StatusInv_init : StatusInv SysState.init := by
  intro i _
  simp [SysState.init]

theorem StatusInv_set (status : Nat) (st st' : SysState) (h : status < 4294967296)
    (hinv : StatusInv st) (hrun : rockchip_set_system_status status st = some st') :
    StatusInv st' := by
  obtain ⟨st1, hrun1, hrc, hss, _⟩ := rockchip_set_system_status_spec status st h
  rw [hrun] at hrun1
  cases hrun1
  intro i hi
  have hI := hinv i hi
  rw [hss i hi, hrc i]
  by_cases hb : status.testBit i = true
  · by_cases h0 : st.ref_count i = 0
    · simp [hb, h0]
    · have := hI.mpr (by omega)
      simp [hb, h0, this]
  · have hb0 : status.testBit i = false := by simpa using hb
    simp [hb0, hI]

theorem StatusInv_clear (status : Nat) (st st' : SysState) (h : status < 4294967296)
    (hinv : StatusInv st) (hrun : rockchip_clear_system_status status st = some st') :
    StatusInv st' := by
  obtain ⟨st1, hrun1, hrc, hss, _⟩ := rockchip_clear_system_status_spec status st h
  rw [hrun] at hrun1
  cases hrun1
  intro i hi
  have hI := hinv i hi
  rw [hss i hi, hrc i]
  by_cases hb : status.testBit i = true
  · by_cases h1 : st.ref_count i = 1
    · simp [hb, h1]
    · simp only [hb, if_true, Bool.true_and, h1, decide_False, Bool.not_false, Bool.and_true, hI]
      omega
  · have hb0 : status.testBit i = false := by simpa using hb
    simp [hb0, hI]

theorem run_status_calls_inv : ∀ (calls : List StatusCall) (st : SysState),
    StatusInv st → (∀ c ∈ calls, c.status < 4294967296) →
    ∃ st', run_status_calls calls st = some st' ∧ StatusInv st' := by
  intro calls
  induction calls with
  | nil => intro st hinv _; exact ⟨st, rfl, hinv⟩
  | cons c cs ih =>
    intro st hinv hcalls
    have hc : c.status < 4294967296 := hcalls c (List.mem_cons_self c cs)
    have hcs : ∀ d ∈ cs, d.status < 4294967296 :=
      fun d hd => hcalls d (List.mem_cons_of_mem c hd)
    cases c with
    | set s =>
      obtain ⟨st1, hrun1, _⟩ := rockchip_set_system_status_spec s st hc
      obtain ⟨st2, h2, hinv2⟩ := ih st1 (StatusInv_set s st st1 hc hinv hrun1) hcs
      exact ⟨st2, by simp [run_status_calls, StatusCall.apply, hrun1, h2], hinv2⟩
    | clear s =>
      obtain ⟨st1, hrun1, _⟩ := rockchip_clear_system_status_spec s st hc
      obtain ⟨st2, h2, hinv2⟩ := ih st1 (StatusInv_clear s st st1 hc hinv hrun1) hcs
      exact ⟨st2, by simp [run_status_calls, StatusCall.apply, hrun1, h2], hinv2⟩

/-! ## Claims on the status bits -/

/-- C1: every sequence of `rockchip_set_system_status` and
`rockchip_clear_system_status` calls with masks below 2^32, run from the
initial state, returns, and in the state it reaches bit `i` of
`system_status` is set if and only if `ref_count[i] > 0`, for every `i` in
`0..31`. -/
theorem status_bit_set_iff_ref_count_pos (calls : List StatusCall)
    (hcalls : ∀ c ∈ calls, c.status < 4294967296) :
    ∃ st, run_status_calls calls SysState.init = some st ∧
      ∀ i, i < 32 → (st.system_status.testBit i = true ↔ 0 < st.ref_count i) :=
  run_status_calls_inv calls SysState.init StatusInv_init hcalls

/-- Witness of C1 on the calls set(0x30), clear(0x10), set(0x80000001). -/
theorem status_bit_set_iff_ref_count_pos_witness :
    (∀ c ∈ [StatusCall.set 48, StatusCall.clear 16, StatusCall.set 2147483649],
        c.status < 4294967296) ∧
    ∃ st, run_status_calls
        [StatusCall.set 48, StatusCall.clear 16, StatusCall.set 2147483649]
        SysState.init = some st ∧
      ∀ i, i < 32 → (st.system_status.testBit i = true ↔ 0 < st.ref_count i) :=
  ⟨by decide, status_bit_set_iff_ref_count_pos _ (by decide)⟩

theorem wrap_int_of_is_int (x : Int) (h : is_int x) : wrap_int x = x := by
  unfold is_int INT_MIN INT_MAX at h
  unfold wrap_int
  omega

theorem same_thresholds_refl (a : MonitorDevInfo) : same_thresholds a a :=
  ⟨rfl, rfl, rfl, rfl⟩

theorem same_thresholds_trans {a b c : MonitorDevInfo} (h1 : same_thresholds a b)
    (h2 : same_thresholds b c) : same_thresholds a c :=
  ⟨h1.1.trans h2.1, h1.2.1.trans h2.2.1, h1.2.2.1.trans h2.2.2.1, h1.2.2.2.trans h2.2.2.2⟩

theorem call_adjust_frame (cb : Option AdjustCallback) (info : MonitorDevInfo) (flag : Bool) :
    (call_adjust cb info flag).1.is_low_temp = info.is_low_temp ∧
      (call_adjust cb info flag).1.is_high_temp = info.is_high_temp ∧
      same_thresholds (call_adjust cb info flag).1 info := by
  unfold call_adjust same_thresholds
  cases cb <;> simp

theorem call_adjust_ret (cb : Option AdjustCallback) (info : MonitorDevInfo) (flag : Bool)
    (h : ∀ f, cb = some f → ∀ i b, (f i b).2 = 0) :
    (call_adjust cb info flag).2 = 0 := by
  unfold call_adjust
  cases cb with
  | none => rfl
  | some f => exact h f rfl info flag

/-- `rockchip_low_temp_adjust` never writes `is_high_temp` or a threshold. -/
theorem rockchip_low_temp_adjust_frame (devp : MonitorDevProfile) (info : MonitorDevInfo)
    (b : Bool) :
    (rockchip_low_temp_adjust devp info b).is_high_temp = info.is_high_temp ∧
      same_thresholds (rockchip_low_temp_adjust devp info b) info := by
  obtain ⟨_, h2, h3⟩ := call_adjust_frame devp.low_temp_adjust info b
  unfold rockchip_low_temp_adjust
  unfold same_thresholds at *
  by_cases hr : (call_adjust devp.low_temp_adjust info b).2 = 0 <;> simp [hr, h2, h3]

/-- `rockchip_high_temp_adjust` never writes `is_low_temp` or a threshold. -/
theorem rockchip_high_temp_adjust_frame (devp : MonitorDevProfile) (info : MonitorDevInfo)
    (b : Bool) :
    (rockchip_high_temp_adjust devp info b).is_low_temp = info.is_low_temp ∧
      same_thresholds (rockchip_high_temp_adjust devp info b) info := by
  obtain ⟨h1, _, h3⟩ := call_adjust_frame devp.high_temp_adjust info b
  unfold rockchip_high_temp_adjust
  unfold same_thresholds at *
  by_cases hr : (call_adjust devp.high_temp_adjust info b).2 = 0 <;> simp [hr, h1, h3]

theorem rockchip_low_temp_adjust_flag (devp : MonitorDevProfile) (info : MonitorDevInfo)
    (b : Bool) (h : callbacks_return_zero devp) :
    (rockchip_low_temp_adjust devp info b).is_low_temp = b := by
  unfold rockchip_low_temp_adjust
  simp [call_adjust_ret devp.low_temp_adjust info b h.1]

theorem rockchip_high_temp_adjust_flag (devp : MonitorDevProfile) (info : MonitorDevInfo)
    (b : Bool) (h : callbacks_return_zero devp) :
    (rockchip_high_temp_adjust devp info b).is_high_temp = b := by
  unfold rockchip_high_temp_adjust
  simp [call_adjust_ret devp.high_temp_adjust info b h.2]

/-- The pair "clear the other flag if set, then raise this flag if clear",
low-temperature form, with callbacks that return 0. -/
theorem enter_low_flags (devp : MonitorDevProfile) (info : MonitorDevInfo)
    (h : callbacks_return_zero devp) :
    let a := if info.is_high_temp then rockchip_high_temp_adjust devp info false else info
    let r := if !a.is_low_temp then rockchip_low_temp_adjust devp a true else a
    r.is_low_temp = true ∧ r.is_high_temp = false ∧ same_thresholds r info := by
  intro a r
  have ha : a.is_high_temp = false ∧ a.is_low_temp = info.is_low_temp ∧ same_thresholds a info := by
    by_cases hh : info.is_high_temp = true
    · have e : a = rockchip_high_temp_adjust devp info false := by simp [a, hh]
      rw [e]
      exact ⟨rockchip_high_temp_adjust_flag devp info false h,
        (rockchip_high_temp_adjust_frame devp info false).1,
        (rockchip_high_temp_adjust_frame devp info false).2⟩
    · have e : a = info := by simp [a, hh]
      rw [e]
      exact ⟨by simpa using hh, rfl, ⟨rfl, rfl, rfl, rfl⟩⟩
  by_cases hl : a.is_low_temp = true
  · have e : r = a := by simp [r, hl]
    rw [e]
    exact ⟨hl, ha.1, ha.2.2⟩
  · have e : r = rockchip_low_temp_adjust devp a true := by simp [r, hl]
    rw [e]
    obtain ⟨f1, f2⟩ := rockchip_low_temp_adjust_frame devp a true
    exact ⟨rockchip_low_temp_adjust_flag devp a true h, by rw [f1]; exact ha.1,
      same_thresholds_trans f2 ha.2.2⟩

/-- The pair "clear the other flag if set, then raise this flag if clear",
high-temperature form, with callbacks that return 0. -/
theorem enter_high_flags (devp : MonitorDevProfile) (info : MonitorDevInfo)
    (h : callbacks_return_zero devp) :
    let a := if info.is_low_temp then rockchip_low_temp_adjust devp info false else info
    let r := if !a.is_high_temp then rockchip_high_temp_adjust devp a true else a
    r.is_high_temp = true ∧ r.is_low_temp = false ∧ same_thresholds r info := by
  intro a r
  have ha : a.is_low_temp = false ∧ a.is_high_temp = info.is_high_temp ∧ same_thresholds a info := by
    by_cases hh : info.is_low_temp = true
    · have e : a = rockchip_low_temp_adjust devp info false := by simp [a, hh]
      rw [e]
      exact ⟨rockchip_low_temp_adjust_flag devp info false h,
        (rockchip_low_temp_adjust_frame devp info false).1,
        (rockchip_low_temp_adjust_frame devp info false).2⟩
    · have e : a = info := by simp [a, hh]
      rw [e]
      exact ⟨by simpa using hh, rfl, same_thresholds_refl info⟩
  by_cases hl : a.is_high_temp = true
  · have e : r = a := by simp [r, hl]
    rw [e]
    exact ⟨hl, ha.1, ha.2.2⟩
  · have e : r = rockchip_high_temp_adjust devp a true := by simp [r, hl]
    rw [e]
    obtain ⟨f1, f2⟩ := rockchip_high_temp_adjust_frame devp a true
    exact ⟨rockchip_high_temp_adjust_flag devp a true h, by rw [f1]; exact ha.1,
      same_thresholds_trans f2 ha.2.2⟩

/-- Leaving the low-temperature state: `if (is_low_temp) low_temp_adjust(false)`. -/
theorem leave_low_flags (devp : MonitorDevProfile) (info : MonitorDevInfo)
    (h : callbacks_return_zero devp) :
    let r := if info.is_low_temp then rockchip_low_temp_adjust devp info false else info
    r.is_low_temp = false ∧ r.is_high_temp = info.is_high_temp ∧ same_thresholds r info := by
  intro r
  by_cases hh : info.is_low_temp = true
  · have e : r = rockchip_low_temp_adjust devp info false := by simp [r, hh]
    rw [e]
    exact ⟨rockchip_low_temp_adjust_flag devp info false h,
      (rockchip_low_temp_adjust_frame devp info false).1,
      (rockchip_low_temp_adjust_frame devp info false).2⟩
  · have e : r = info := by simp [r, hh]
    rw [e]
    exact ⟨by simpa using hh, rfl, same_thresholds_refl info⟩

/-- Leaving the high-temperature state: `if (is_high_temp) high_temp_adjust(false)`. -/
theorem leave_high_flags (devp : MonitorDevProfile) (info : MonitorDevInfo)
    (h : callbacks_return_zero devp) :
    let r := if info.is_high_temp then rockchip_high_temp_adjust devp info false else info
    r.is_high_temp = false ∧ r.is_low_temp = info.is_low_temp ∧ same_thresholds r info := by
  intro r
  by_cases hh : info.is_high_temp = true
  · have e : r = rockchip_high_temp_adjust devp info false := by simp [r, hh]
    rw [e]
    exact ⟨rockchip_high_temp_adjust_flag devp info false h,
      (rockchip_high_temp_adjust_frame devp info false).1,
      (rockchip_high_temp_adjust_frame devp info false).2⟩
  · have e : r = info := by simp [r, hh]
    rw [e]
    exact ⟨by simpa using hh, rfl, same_thresholds_refl info⟩

/-- The low-temperature side with callbacks that return 0: the flags it leaves. -/
theorem wide_temp_adjust_low_flags (devp : MonitorDevProfile) (info : MonitorDevInfo)
    (temp : Int) (h : callbacks_return_zero devp) :
    same_thresholds (wide_temp_adjust_low devp info temp) info ∧
    (temp < info.low_temp →
      (wide_temp_adjust_low devp info temp).is_low_temp = true ∧
      (wide_temp_adjust_low devp info temp).is_high_temp = false) ∧
    (¬ temp < info.low_temp → temp > wrap_int (info.low_temp + info.temp_hysteresis) →
      (wide_temp_adjust_low devp info temp).is_low_temp = false ∧
      (wide_temp_adjust_low devp info temp).is_high_temp = info.is_high_temp) ∧
    (¬ temp < info.low_temp → ¬ temp > wrap_int (info.low_temp + info.temp_hysteresis) →
      wide_temp_adjust_low devp info temp = info) := by
  unfold wide_temp_adjust_low
  by_cases h1 : temp < info.low_temp
  · obtain ⟨e1, e2, e3⟩ := enter_low_flags devp info h
    rw [if_pos h1]
    exact ⟨e3, fun _ => ⟨e1, e2⟩, fun hn => absurd h1 hn, fun hn => absurd h1 hn⟩
  · by_cases h2 : temp > wrap_int (info.low_temp + info.temp_hysteresis)
    · obtain ⟨e1, e2, e3⟩ := leave_low_flags devp info h
      rw [if_neg h1, if_pos h2]
      exact ⟨e3, fun hp => absurd hp h1, fun _ _ => ⟨e1, e2⟩, fun _ hn => absurd h2 hn⟩
    · rw [if_neg h1, if_neg h2]
      exact ⟨same_thresholds_refl info, fun hp => absurd hp h1,
        fun _ hp => absurd hp h2, fun _ _ => rfl⟩

/-- The high-temperature side with callbacks that return 0: the flags it leaves. -/
theorem wide_temp_adjust_high_flags (devp : MonitorDevProfile) (info : MonitorDevInfo)
    (temp : Int) (h : callbacks_return_zero devp) :
    same_thresholds (wide_temp_adjust_high devp info temp) info ∧
    (temp > info.high_temp →
      (wide_temp_adjust_high devp info temp).is_high_temp = true ∧
      (wide_temp_adjust_high devp info temp).is_low_temp = false) ∧
    (¬ temp > info.high_temp → temp < wrap_int (info.high_temp - info.temp_hysteresis) →
      (wide_temp_adjust_high devp info temp).is_high_temp = false ∧
      (wide_temp_adjust_high devp info temp).is_low_temp = info.is_low_temp) ∧
    (¬ temp > info.high_temp → ¬ temp < wrap_int (info.high_temp - info.temp_hysteresis) →
      wide_temp_adjust_high devp info temp = info) := by
  unfold wide_temp_adjust_high
  by_cases h1 : temp > info.high_temp
  · obtain ⟨e1, e2, e3⟩ := enter_high_flags devp info h
    rw [if_pos h1]
    exact ⟨e3, fun _ => ⟨e1, e2⟩, fun hn => absurd h1 hn, fun hn => absurd h1 hn⟩
  · by_cases h2 : temp < wrap_int (info.high_temp - info.temp_hysteresis)
    · obtain ⟨e1, e2, e3⟩ := leave_high_flags devp info h
      rw [if_neg h1, if_pos h2]
      exact ⟨e3, fun hp => absurd hp h1, fun _ _ => ⟨e1, e2⟩, fun _ hn => absurd h2 hn⟩
    · rw [if_neg h1, if_neg h2]
      exact ⟨same_thresholds_refl info, fun hp => absurd hp h1,
        fun _ hp => absurd hp h2, fun _ _ => rfl⟩

theorem callbacks_return_zero_plain : callbacks_return_zero plain_profile :=
  ⟨fun _ hf => by simp [plain_profile] at hf, fun _ hf => by simp [plain_profile] at hf⟩

/-- The low-temperature side never writes `is_high_temp` when `temp` is not
below `low_temp`, whatever the callbacks do. -/
theorem wide_temp_adjust_low_keeps_high (devp : MonitorDevProfile) (info : MonitorDevInfo)
    (temp : Int) (h1 : ¬ temp < info.low_temp) :
    (wide_temp_adjust_low devp info temp).is_high_temp = info.is_high_temp ∧
      same_thresholds (wide_temp_adjust_low devp info temp) info := by
  unfold wide_temp_adjust_low
  rw [if_neg h1]
  by_cases h2 : temp > wrap_int (info.low_temp + info.temp_hysteresis)
  · rw [if_pos h2]
    by_cases hl : info.is_low_temp = true
    · rw [if_pos hl]; exact rockchip_low_temp_adjust_frame devp info false
    · rw [if_neg hl]; exact ⟨rfl, same_thresholds_refl info⟩
  · rw [if_neg h2]; exact ⟨rfl, same_thresholds_refl info⟩

/-- The high-temperature side never writes `is_low_temp` when `temp` is not
above `high_temp`, whatever the callbacks do. -/
theorem wide_temp_adjust_high_keeps_low (devp : MonitorDevProfile) (info : MonitorDevInfo)
    (temp : Int) (h1 : ¬ temp > info.high_temp) :
    (wide_temp_adjust_high devp info temp).is_low_temp = info.is_low_temp := by
  unfold wide_temp_adjust_high
  rw [if_neg h1]
  by_cases h2 : temp < wrap_int (info.high_temp - info.temp_hysteresis)
  · rw [if_pos h2]
    by_cases hl : info.is_high_temp = true
    · rw [if_pos hl]; exact (rockchip_high_temp_adjust_frame devp info false).1
    · rw [if_neg hl]
  · rw [if_neg h2]

/-- C3: for a device whose adjust callbacks are absent or return 0 and whose
thresholds satisfy `temp_hysteresis >= 0` and
`low_temp + temp_hysteresis <= high_temp` (the thresholds being `int`s), after
`rockchip_system_monitor_wide_temp_adjust(info, temp)` a temperature below
`low_temp` leaves `is_low_temp` set and `is_high_temp` clear, and a temperature
above `high_temp` leaves `is_high_temp` set and `is_low_temp` clear, whatever
the flags were before. -/
theorem wide_temp_adjust_outside_thresholds (devp : MonitorDevProfile)
    (info : MonitorDevInfo) (temp : Int) (hcb : callbacks_return_zero devp)
    (hlow : is_int info.low_temp) (hhigh : is_int info.high_temp)
    (hpos : 0 ≤ info.temp_hysteresis)
    (hband : info.low_temp + info.temp_hysteresis ≤ info.high_temp) :
    (temp < info.low_temp →
      (rockchip_system_monitor_wide_temp_adjust devp info temp).is_low_temp = true ∧
      (rockchip_system_monitor_wide_temp_adjust devp info temp).is_high_temp = false) ∧
    (temp > info.high_temp →
      (rockchip_system_monitor_wide_temp_adjust devp info temp).is_high_temp = true ∧
      (rockchip_system_monitor_wide_temp_adjust devp info temp).is_low_temp = false) := by
  have hw1 : wrap_int (info.low_temp + info.temp_hysteresis) =
      info.low_temp + info.temp_hysteresis := by
    apply wrap_int_of_is_int
    unfold is_int at *
    omega
  have hw2 : wrap_int (info.high_temp - info.temp_hysteresis) =
      info.high_temp - info.temp_hysteresis := by
    apply wrap_int_of_is_int
    unfold is_int at *
    omega
  obtain ⟨ls, l1, l2, _⟩ := wide_temp_adjust_low_flags devp info temp hcb
  obtain ⟨_, g1, g2, g3⟩ :=
    wide_temp_adjust_high_flags devp (wide_temp_adjust_low devp info temp) temp hcb
  obtain ⟨s1, s2, s3, _⟩ := ls
  rw [s2, s3, hw2] at g2 g3
  rw [s2] at g1
  rw [hw1] at l2
  unfold rockchip_system_monitor_wide_temp_adjust
  constructor
  · intro ht
    obtain ⟨a1, a2⟩ := l1 ht
    have hn : ¬ temp > info.high_temp := by omega
    by_cases hc : temp < info.high_temp - info.temp_hysteresis
    · obtain ⟨b1, b2⟩ := g2 hn hc
      exact ⟨by rw [b2]; exact a1, b1⟩
    · rw [g3 hn hc]
      exact ⟨a1, a2⟩
  · intro ht
    obtain ⟨b1, b2⟩ := g1 ht
    exact ⟨b1, b2⟩

/-- Witness of C3: the sample device at -1000 and at 90000 millidegrees. -/
theorem wide_temp_adjust_outside_thresholds_witness :
    callbacks_return_zero plain_profile ∧ is_int sample_info.low_temp ∧
    is_int sample_info.high_temp ∧ 0 ≤ sample_info.temp_hysteresis ∧
    sample_info.low_temp + sample_info.temp_hysteresis ≤ sample_info.high_temp ∧
    ((-1000 : Int) < sample_info.low_temp →
      (rockchip_system_monitor_wide_temp_adjust plain_profile sample_info (-1000)).is_low_temp
        = true ∧
      (rockchip_system_monitor_wide_temp_adjust plain_profile sample_info (-1000)).is_high_temp
        = false) :=
  ⟨callbacks_return_zero_plain, by decide, by decide, by decide, by decide,
    (wide_temp_adjust_outside_thresholds plain_profile sample_info (-1000)
      callbacks_return_zero_plain (by decide) (by decide) (by decide) (by decide)).1⟩

/-- C4: with `temp_hysteresis >= 0` and `low_temp + temp_hysteresis <= high_temp`
(the thresholds being `int`s), a call of `rockchip_system_monitor_wide_temp_adjust` with
`low_temp <= temp <= low_temp + temp_hysteresis` leaves `is_low_temp` as it
was, and a call with `high_temp - temp_hysteresis <= temp <= high_temp` leaves
`is_high_temp` as it was (for any callbacks). -/
theorem wide_temp_adjust_hysteresis_band (devp : MonitorDevProfile)
    (info : MonitorDevInfo) (temp : Int)
    (hlow : is_int info.low_temp) (hhigh : is_int info.high_temp)
    (hpos : 0 ≤ info.temp_hysteresis)
    (hband : info.low_temp + info.temp_hysteresis ≤ info.high_temp) :
    (info.low_temp ≤ temp → temp ≤ info.low_temp + info.temp_hysteresis →
      (rockchip_system_monitor_wide_temp_adjust devp info temp).is_low_temp
        = info.is_low_temp) ∧
    (info.high_temp - info.temp_hysteresis ≤ temp → temp ≤ info.high_temp →
      (rockchip_system_monitor_wide_temp_adjust devp info temp).is_high_temp
        = info.is_high_temp) := by
  have hw1 : wrap_int (info.low_temp + info.temp_hysteresis) =
      info.low_temp + info.temp_hysteresis := by
    apply wrap_int_of_is_int
    unfold is_int at *
    omega
  have hw2 : wrap_int (info.high_temp - info.temp_hysteresis) =
      info.high_temp - info.temp_hysteresis := by
    apply wrap_int_of_is_int
    unfold is_int at *
    omega
  unfold rockchip_system_monitor_wide_temp_adjust
  constructor
  · intro h1 h2
    have e : wide_temp_adjust_low devp info temp = info := by
      unfold wide_temp_adjust_low
      rw [if_neg (by omega), if_neg (by rw [hw1]; omega)]
    rw [e]
    exact wide_temp_adjust_high_keeps_low devp info temp (by omega)
  · intro h1 h2
    obtain ⟨k1, s1, s2, s3, _⟩ := wide_temp_adjust_low_keeps_high devp info temp (by omega)
    have e : wide_temp_adjust_high devp (wide_temp_adjust_low devp info temp) temp =
        wide_temp_adjust_low devp info temp := by
      unfold wide_temp_adjust_high
      rw [if_neg (by rw [s2]; omega), if_neg (by rw [s2, s3, hw2]; omega)]
    rw [e]
    exact k1

/-- Witness of C4: the sample device at 3000 millidegrees, inside the lower band. -/
theorem wide_temp_adjust_hysteresis_band_witness :
    is_int sample_info.low_temp ∧ is_int sample_info.high_temp ∧
    0 ≤ sample_info.temp_hysteresis ∧
    sample_info.low_temp + sample_info.temp_hysteresis ≤ sample_info.high_temp ∧
    (sample_info.low_temp ≤ 3000 →
      3000 ≤ sample_info.low_temp + sample_info.temp_hysteresis →
      (rockchip_system_monitor_wide_temp_adjust plain_profile sample_info 3000).is_low_temp
        = sample_info.is_low_temp) :=
  ⟨by decide, by decide, by decide, by decide,
    (wide_temp_adjust_hysteresis_band plain_profile sample_info 3000
      (by decide) (by decide) (by decide) (by decide)).1⟩

theorem wide_temp_adjust_exclusive (devp : MonitorDevProfile) (info : MonitorDevInfo)
    (temp : Int) (hcb : callbacks_return_zero devp)
    (hinv : ¬ (info.is_low_temp = true ∧ info.is_high_temp = true)) :
    ¬ ((rockchip_system_monitor_wide_temp_adjust devp info temp).is_low_temp = true ∧
      (rockchip_system_monitor_wide_temp_adjust devp info temp).is_high_temp = true) := by
  obtain ⟨_, l1, l2, l3⟩ := wide_temp_adjust_low_flags devp info temp hcb
  have hmid : ¬ ((wide_temp_adjust_low devp info temp).is_low_temp = true ∧
      (wide_temp_adjust_low devp info temp).is_high_temp = true) := by
    by_cases h1 : temp < info.low_temp
    · obtain ⟨_, a2⟩ := l1 h1
      rw [a2]; simp
    · by_cases h2 : temp > wrap_int (info.low_temp + info.temp_hysteresis)
      · obtain ⟨a1, _⟩ := l2 h1 h2
        rw [a1]; simp
      · rw [l3 h1 h2]; exact hinv
  obtain ⟨_, g1, g2, g3⟩ :=
    wide_temp_adjust_high_flags devp (wide_temp_adjust_low devp info temp) temp hcb
  unfold rockchip_system_monitor_wide_temp_adjust
  by_cases h1 : temp > (wide_temp_adjust_low devp info temp).high_temp
  · obtain ⟨_, a2⟩ := g1 h1
    rw [a2]; simp
  · by_cases h2 : temp < wrap_int ((wide_temp_adjust_low devp info temp).high_temp -
        (wide_temp_adjust_low devp info temp).temp_hysteresis)
    · obtain ⟨a1, _⟩ := g2 h1 h2
      rw [a1]; simp
    · rw [g3 h1 h2]; exact hmid

theorem suspend_low_temp_adjust_exclusive (devp : MonitorDevProfile) (info : MonitorDevInfo)
    (hcb : callbacks_return_zero devp)
    (hinv : ¬ (info.is_low_temp = true ∧ info.is_high_temp = true)) :
    ¬ (((rockchip_monitor_suspend_low_temp_adjust devp (some info)).getD info).is_low_temp
        = true ∧
      ((rockchip_monitor_suspend_low_temp_adjust devp (some info)).getD info).is_high_temp
        = true) := by
  unfold rockchip_monitor_suspend_low_temp_adjust
  by_cases he : info.is_low_temp_enabled = true
  · obtain ⟨_, e2, _⟩ := enter_low_flags devp info hcb
    simp only [he, Bool.not_true, Bool.false_eq_true, if_false, Option.getD_some]
    intro hboth
    rw [e2] at hboth
    exact Bool.false_ne_true hboth.2
  · simp only [he, Bool.not_false, if_true, Option.getD_some]
    simpa using hinv

theorem run_wide_temp_calls_exclusive (devp : MonitorDevProfile)
    (hcb : callbacks_return_zero devp) (calls : List WideTempCall) :
    ∀ info : MonitorDevInfo, ¬ (info.is_low_temp = true ∧ info.is_high_temp = true) →
      ¬ ((run_wide_temp_calls devp calls info).is_low_temp = true ∧
        (run_wide_temp_calls devp calls info).is_high_temp = true) := by
  induction calls with
  | nil => intro info h; exact h
  | cons c cs ih =>
    intro info h
    unfold run_wide_temp_calls
    apply ih
    cases c with
    | adjust temp => exact wide_temp_adjust_exclusive devp info temp hcb h
    | suspend => exact suspend_low_temp_adjust_exclusive devp info hcb h

/-- C5: starting from a freshly registered device (both flags clear, any
thresholds), after any sequence of `rockchip_system_monitor_wide_temp_adjust`
calls (any temperatures) and `rockchip_monitor_suspend_low_temp_adjust` calls,
with callbacks that are absent or return 0, `is_low_temp` and `is_high_temp`
are not both set. -/
theorem low_and_high_temp_exclusive (devp : MonitorDevProfile)
    (hcb : callbacks_return_zero devp) (info : MonitorDevInfo)
    (hlow : info.is_low_temp = false) (hhigh : info.is_high_temp = false)
    (calls : List WideTempCall) :
    ¬ ((run_wide_temp_calls devp calls info).is_low_temp = true ∧
      (run_wide_temp_calls devp calls info).is_high_temp = true) :=
  run_wide_temp_calls_exclusive devp hcb calls info (by rw [hlow, hhigh]; simp)

/-- Witness of C5: a fresh device with thresholds 0 and 85000 taken through
90000, a suspend, -5000 and 90000 millidegrees. -/
theorem low_and_high_temp_exclusive_witness :
    callbacks_return_zero plain_profile ∧ fresh_info.is_low_temp = false ∧
    fresh_info.is_high_temp = false ∧
    ¬ ((run_wide_temp_calls plain_profile
          [WideTempCall.adjust 90000, WideTempCall.suspend, WideTempCall.adjust (-5000),
            WideTempCall.adjust 90000] fresh_info).is_low_temp = true ∧
      (run_wide_temp_calls plain_profile
          [WideTempCall.adjust 90000, WideTempCall.suspend, WideTempCall.adjust (-5000),
            WideTempCall.adjust 90000] fresh_info).is_high_temp = true) :=
  ⟨callbacks_return_zero_plain, rfl, rfl,
    low_and_high_temp_exclusive plain_profile callbacks_return_zero_plain fresh_info rfl rfl _⟩

/-! ## Frequency caps -/

theorem devfreq_verify_zero_max (policy : DevfreqPolicy) (limit : Nat)
    (h : limit < policy.max) :
    (devfreq_verify_within_limits policy 0 limit).max = limit := by
  unfold devfreq_verify_within_limits
  simp only [Nat.not_lt_zero, if_false]
  by_cases h1 : policy.min > limit
  · simp [h1, h]
  · simp [h1, h]

/-- C6: `system_monitor_devfreq_notifier_call` returns `NOTIFY_DONE` and leaves
the policy alone for every event other than `DEVFREQ_ADJUST`; for
`DEVFREQ_ADJUST` it returns `NOTIFY_OK`, never raises `policy->max`, leaves
`policy->max = min(old policy->max, wide_temp_limit)` when `wide_temp_limit`
is non-zero, and leaves the policy alone when `wide_temp_limit` is zero. -/
theorem devfreq_notifier_call_caps_max (info : MonitorDevInfo) (event : Nat)
    (policy : DevfreqPolicy) :
    (event ≠ DEVFREQ_ADJUST →
      system_monitor_devfreq_notifier_call info event policy = (NOTIFY_DONE, policy)) ∧
    (event = DEVFREQ_ADJUST →
      (system_monitor_devfreq_notifier_call info event policy).1 = NOTIFY_OK ∧
      (system_monitor_devfreq_notifier_call info event policy).2.max ≤ policy.max ∧
      (info.wide_temp_limit ≠ 0 →
        (system_monitor_devfreq_notifier_call info event policy).2.max =
          Nat.min policy.max info.wide_temp_limit) ∧
      (info.wide_temp_limit = 0 →
        (system_monitor_devfreq_notifier_call info event policy).2 = policy)) := by
  unfold system_monitor_devfreq_notifier_call
  constructor
  · intro he
    rw [if_pos he]
  · intro he
    rw [if_neg (by simp [he])]
    by_cases hc : info.wide_temp_limit ≠ 0 ∧ info.wide_temp_limit < policy.max
    · rw [if_pos hc]
      have hm := devfreq_verify_zero_max policy info.wide_temp_limit hc.2
      refine ⟨rfl, ?_, ?_, ?_⟩
      · show (devfreq_verify_within_limits policy 0 info.wide_temp_limit).max ≤ policy.max
        rw [hm]; exact Nat.le_of_lt hc.2
      · intro _
        show (devfreq_verify_within_limits policy 0 info.wide_temp_limit).max = _
        rw [hm]; exact (Nat.min_eq_right (Nat.le_of_lt hc.2)).symm
      · intro h0; exact absurd h0 hc.1
    · rw [if_neg hc]
      refine ⟨rfl, Nat.le_refl _, ?_, fun _ => rfl⟩
      intro hne
      have : policy.max ≤ info.wide_temp_limit := by
        by_contra hcon
        exact hc ⟨hne, by omega⟩
      exact (Nat.min_eq_left this).symm

theorem cpufreq_verify_zero (policy : CpufreqPolicy) (limit : Nat)
    (h : limit < policy.max) :
    (cpufreq_verify_within_limits policy 0 limit).max = limit ∧
      (cpufreq_verify_within_limits policy 0 limit).cpu = policy.cpu := by
  unfold cpufreq_verify_within_limits
  simp only [Nat.not_lt_zero, if_false]
  by_cases h1 : policy.min > limit
  · simp [h1, h]
  · simp [h1, h]

/-- One step of the device loop: a device that bears on the policy lowers
`policy->max` to its truncated limit, any other device changes nothing. -/
theorem cpufreq_policy_adjust_one_max (cpu : Nat) (policy : CpufreqPolicy) (d : MonitorDev) :
    (cpufreq_policy_adjust_one cpu policy d).max =
      if bears_on_cpu cpu d = true
      then Nat.min policy.max (ulong_to_uint (d.info.wide_temp_limit / 1000))
      else policy.max := by
  unfold cpufreq_policy_adjust_one bears_on_cpu
  by_cases h1 : d.devp.type = MonitorDevType.MONITOR_TPYE_CPU
  · by_cases h2 : d.devp.allowed_cpus cpu = true
    · by_cases h3 : d.info.wide_temp_limit = 0
      · simp [h1, h2, h3]
      · by_cases h4 : ulong_to_uint (d.info.wide_temp_limit / 1000) < policy.max
        · obtain ⟨v1, _⟩ := cpufreq_verify_zero policy _ h4
          have hmin : Nat.min policy.max (ulong_to_uint (d.info.wide_temp_limit / 1000)) =
              ulong_to_uint (d.info.wide_temp_limit / 1000) :=
            Nat.min_eq_right (Nat.le_of_lt h4)
          rw [hmin]
          simp [h1, h2, h3, h4, v1]
        · have hmin : Nat.min policy.max (ulong_to_uint (d.info.wide_temp_limit / 1000)) =
              policy.max :=
            Nat.min_eq_left (Nat.le_of_not_lt h4)
          rw [hmin]
          simp [h1, h2, h3, h4]
    · simp [h1, h2]
  · simp [h1]

/-- A device of another type, one that does not cover the cpu, or one with a
zero `wide_temp_limit` leaves the policy as it is. -/
theorem cpufreq_policy_adjust_one_skip (cpu : Nat) (policy : CpufreqPolicy) (d : MonitorDev)
    (h : bears_on_cpu cpu d = false) : cpufreq_policy_adjust_one cpu policy d = policy := by
  unfold cpufreq_policy_adjust_one
  unfold bears_on_cpu at h
  by_cases h1 : d.devp.type = MonitorDevType.MONITOR_TPYE_CPU
  · by_cases h2 : d.devp.allowed_cpus cpu = true
    · by_cases h3 : d.info.wide_temp_limit = 0
      · simp [h1, h2, h3]
      · simp [h1, h2, h3] at h
    · simp [h1, h2]
  · simp [h1]

theorem cpufreq_policy_fold_max (cpu : Nat) : ∀ (devs : List MonitorDev)
    (policy : CpufreqPolicy),
    (devs.foldl (cpufreq_policy_adjust_one cpu) policy).max =
      min_with policy.max
        ((capping_devices devs cpu).map
          (fun d => ulong_to_uint (d.info.wide_temp_limit / 1000))) := by
  intro devs
  induction devs with
  | nil => intro policy; rfl
  | cons d ds ih =>
    intro policy
    rw [List.foldl_cons, ih, cpufreq_policy_adjust_one_max]
    unfold capping_devices min_with
    by_cases hc : bears_on_cpu cpu d = true
    · rw [if_pos hc, List.filter_cons_of_pos hc, List.map_cons, List.foldl_cons]
    · rw [if_neg hc, List.filter_cons_of_neg hc]

/-- C7 as amended: `rockchip_monitor_cpufreq_policy_notifier` always returns
`NOTIFY_OK`; for an event other than `CPUFREQ_ADJUST` the policy is unchanged;
on `CPUFREQ_ADJUST` for a policy of cpu `c` the resulting `policy->max` is the
minimum of the old `policy->max` and of `wide_temp_limit / 1000` reduced
modulo 2^32 (the `unsigned int` `target_freq`) over the devices of type
`MONITOR_TPYE_CPU` whose `allowed_cpus` contains `c` and whose
`wide_temp_limit` is non-zero; a device of another type, one that does not
cover `c` or one with a zero `wide_temp_limit` leaves the policy as it is. -/
theorem cpufreq_policy_notifier_caps_max (monitor_dev_list : List MonitorDev)
    (event : Nat) (policy : CpufreqPolicy) :
    (rockchip_monitor_cpufreq_policy_notifier monitor_dev_list event policy).1 = NOTIFY_OK ∧
    (event ≠ CPUFREQ_ADJUST →
      (rockchip_monitor_cpufreq_policy_notifier monitor_dev_list event policy).2 = policy) ∧
    (event = CPUFREQ_ADJUST →
      (rockchip_monitor_cpufreq_policy_notifier monitor_dev_list event policy).2.max =
        truncated_cpufreq_max monitor_dev_list policy) ∧
    (∀ d : MonitorDev, bears_on_cpu policy.cpu d = false →
      cpufreq_policy_adjust_one policy.cpu policy d = policy) := by
  unfold rockchip_monitor_cpufreq_policy_notifier
  refine ⟨?_, ?_, ?_, ?_⟩
  · by_cases he : event ≠ CPUFREQ_ADJUST
    · rw [if_pos he]
    · rw [if_neg he]
  · intro he
    rw [if_pos he]
  · intro he
    rw [if_neg (by simp [he])]
    exact cpufreq_policy_fold_max policy.cpu monitor_dev_list policy
  · intro d hd
    exact cpufreq_policy_adjust_one_skip policy.cpu policy d hd

/-- C7 as stated fails: for a cpu device with `wide_temp_limit` 4294967297000
and a policy with `max = 5`, the code leaves `policy->max = 1` (the quotient
2^32 + 1 reduced to `unsigned int`), where the minimum of 5 and
`wide_temp_limit / 1000` is 5. -/
theorem cpufreq_policy_notifier_truncates :
    (rockchip_monitor_cpufreq_policy_notifier [wide_limit_device] CPUFREQ_ADJUST
        { cpu := 0, min := 0, max := 5 }).2.max = 1 ∧
    spec_cpufreq_max [wide_limit_device] { cpu := 0, min := 0, max := 5 } = 5 := by
  decide

/-! ## Low-temperature voltage lookup -/

theorem low_temp_volt_scan_spec (_rate : Nat) : ∀ (table : List VoltAdjust) (ret delta : Int),
    (∃ row ∈ table, row.volt = INT_MAX) →
    low_temp_volt_scan _rate table (ret, delta) =
      some (match (matching_rows table _rate).getLast? with
        | none => (ret, delta)
        | some row => (0, row.volt)) := by
  intro table
  induction table with
  | nil => intro ret delta h; obtain ⟨row, hmem, _⟩ := h; cases hmem
  | cons row rest ih =>
    intro ret delta h
    by_cases hs : row.volt = INT_MAX
    · simp [low_temp_volt_scan, matching_rows, rows_before_sentinel, hs]
    · have hrest : ∃ r ∈ rest, r.volt = INT_MAX := by
        obtain ⟨r, hmem, hr⟩ := h
        rcases List.mem_cons.mp hmem with e | e
        · rw [e] at hr; exact absurd hr hs
        · exact ⟨r, e, hr⟩
      have htake : rows_before_sentinel (row :: rest) = row :: rows_before_sentinel rest := by
        simp [rows_before_sentinel, hs]
      by_cases hm : row.min ≤ _rate ∧ _rate ≤ row.max
      · have hmatch : matching_rows (row :: rest) _rate = row :: matching_rows rest _rate := by
          unfold matching_rows
          rw [htake]
          simp [hm]
        have hcond : _rate ≥ row.min ∧ _rate ≤ row.max := hm
        rw [hmatch, List.getLast?_cons]
        simp only [low_temp_volt_scan, if_neg hs, if_pos hcond]
        rw [ih 0 row.volt hrest]
        cases (matching_rows rest _rate).getLast? <;> rfl
      · have hmatch : matching_rows (row :: rest) _rate = matching_rows rest _rate := by
          unfold matching_rows
          rw [htake]
          simp [hm]
        have hcond : ¬ (_rate ≥ row.min ∧ _rate ≤ row.max) := hm
        rw [hmatch]
        simp only [low_temp_volt_scan, if_neg hs, if_neg hcond]
        exact ih ret delta hrest

/-- Every table `rockchip_get_adjust_volt_table` stores ends with the
terminating row. -/
theorem get_adjust_volt_table_has_sentinel (prop : Option (Option (List Nat)))
    (table : List VoltAdjust) (h : (rockchip_get_adjust_volt_table prop).2 = some table) :
    ∃ row ∈ table, row.volt = INT_MAX := by
  unfold rockchip_get_adjust_volt_table at h
  cases prop with
  | none => simp at h
  | some v =>
    cases v with
    | none => simp at h
    | some cells =>
      by_cases hc : cells.length % 3 ≠ 0
      · simp [hc] at h
      · simp only [hc, if_false, Option.some.injEq] at h
        rw [← h]
        exact ⟨{ min := 0, max := 0, volt := INT_MAX }, by simp, rfl⟩

/-- C8 as amended: `rockchip_get_low_temp_volt(info, rate, &delta)` returns
`-EINVAL` and leaves `delta` untouched when the adjust table is absent or when
no row before the terminating row (the first with `volt == INT_MAX`) satisfies
`min <= r <= max`, where `r` is `rate / 1000000` reduced modulo 2^32 (the
`unsigned int` `_rate`); otherwise it returns 0 and stores the `volt` of the
last such row. -/
theorem get_low_temp_volt_last_match (info : MonitorDevInfo) (rate : Nat) (delta : Int) :
    (info.low_temp_adjust_table = none →
      rockchip_get_low_temp_volt info rate delta = some (-EINVAL, delta)) ∧
    (∀ table, info.low_temp_adjust_table = some table →
      (∃ row ∈ table, row.volt = INT_MAX) →
      rockchip_get_low_temp_volt info rate delta =
        some (spec_low_temp_volt table (ulong_to_uint (rate / 1000000)) delta)) := by
  unfold rockchip_get_low_temp_volt
  constructor
  · intro h; rw [h]
  · intro table h hs
    rw [h]
    exact low_temp_volt_scan_spec _ table (-EINVAL) delta hs

/-- C8 as stated fails: for `rate = 4294967301000000` the quotient
`rate / 1000000` is 2^32 + 5, outside the only row 0..10, yet the code finds
the row (its `_rate` is 5), returns 0 and stores 25000. -/
theorem get_low_temp_volt_truncates :
    rockchip_get_low_temp_volt one_row_info 4294967301000000 0 = some (0, 25000) ∧
    spec_low_temp_volt [{ min := 0, max := 10, volt := 25000 },
        { min := 0, max := 0, volt := INT_MAX }] (4294967301000000 / 1000000) 0
      = (-EINVAL, 0) := by
  decide

/-! ## Messages written to the status attribute -/

/-- C9: `rockchip_update_system_status(buf)` dispatches on the first character:
`l` acts as `rockchip_set_system_status(SYS_STATUS_LOW_POWER)`, `L` as
`rockchip_clear_system_status(SYS_STATUS_LOW_POWER)`, `p` as
`rockchip_set_system_status(SYS_STATUS_PERFORMANCE)`, `n` as
`rockchip_clear_system_status(SYS_STATUS_PERFORMANCE)`; a `NULL` buffer, or a
buffer whose first character is none of `0`, `1`, `L`, `l`, `p`, `n`, leaves
the whole state (status word, counters, video list) as it was. -/
theorem update_system_status_dispatch (K : SysStatusBits) (rest : List Char)
    (st : SysState) :
    rockchip_update_system_status K (some ('l' :: rest)) st =
      rockchip_set_system_status K.SYS_STATUS_LOW_POWER st ∧
    rockchip_update_system_status K (some ('L' :: rest)) st =
      rockchip_clear_system_status K.SYS_STATUS_LOW_POWER st ∧
    rockchip_update_system_status K (some ('p' :: rest)) st =
      rockchip_set_system_status K.SYS_STATUS_PERFORMANCE st ∧
    rockchip_update_system_status K (some ('n' :: rest)) st =
      rockchip_clear_system_status K.SYS_STATUS_PERFORMANCE st ∧
    rockchip_update_system_status K none st = some st ∧
    (∀ buf : List Char,
      (∀ c, buf.head? = some c →
        c ≠ '0' ∧ c ≠ '1' ∧ c ≠ 'L' ∧ c ≠ 'l' ∧ c ≠ 'p' ∧ c ≠ 'n') →
      rockchip_update_system_status K (some buf) st = some st) := by
  refine ⟨?_, ?_, ?_, ?_, rfl, ?_⟩
  · simp [rockchip_update_system_status]
  · simp [rockchip_update_system_status]
  · simp [rockchip_update_system_status]
  · simp [rockchip_update_system_status]
  · intro buf h
    cases buf with
    | nil => rfl
    | cons c t =>
      obtain ⟨h0, h1, h2, h3, h4, h5⟩ := h c rfl
      simp [rockchip_update_system_status, h0, h1, h2, h3, h4, h5]

/-- C10 fails on the code: from the initial state, two messages registering a
1920x1080 video followed by the two matching messages removing them leave the
video list empty, yet bit 5 (`SYS_STATUS_VIDEO_1080P`) is still set in
`system_status` and its counter is 2: the removal of the first video, with the
list still non-empty, increments the counter once more, and the single
`rockchip_clear_system_status(SYS_STATUS_VIDEO)` of the last removal takes
only one reference away. -/
theorem video_flag_left_set_after_two_videos :
    (run_status_messages status_bits
        [set_1080p_message, set_1080p_message, clear_1080p_message, clear_1080p_message]
        SysState.init).map
      (fun st => (st.video_info_list, st.system_status &&& status_bits.SYS_STATUS_VIDEO,
        st.ref_count 5)) = some ([], 32, 2) := by
  decide

/-- With a single video the flag is cleared: one message registering a
1920x1080 video and the matching message removing it leave no video bit set
and the counter of bit 5 at zero. -/
theorem video_flag_cleared_after_one_video :
    (run_status_messages status_bits [set_1080p_message, clear_1080p_message]
        SysState.init).map
      (fun st => (st.video_info_list, st.system_status &&& status_bits.SYS_STATUS_VIDEO,
        st.ref_count 5)) = some ([], 0, 0) := by
  decide

/-! ## Video status -/

theorem video_maxima_cons (x : VideoInfo) (xs : List VideoInfo) (a b : Nat) :
    video_maxima (x :: xs) (a, b) =
      video_maxima xs
        (if (x.width * x.height) % 4294967296 > a then (x.width * x.height) % 4294967296
          else a,
         if x.streamBitrate > b then x.streamBitrate else b) := rfl

theorem video_maxima_bounds : ∀ (l : List VideoInfo) (a b : Nat),
    (a ≤ (video_maxima l (a, b)).1 ∧
      (∀ v ∈ l, (v.width * v.height) % 4294967296 ≤ (video_maxima l (a, b)).1) ∧
      ((video_maxima l (a, b)).1 = a ∨
        ∃ v ∈ l, (v.width * v.height) % 4294967296 = (video_maxima l (a, b)).1)) ∧
    (b ≤ (video_maxima l (a, b)).2 ∧
      (∀ v ∈ l, v.streamBitrate ≤ (video_maxima l (a, b)).2) ∧
      ((video_maxima l (a, b)).2 = b ∨
        ∃ v ∈ l, v.streamBitrate = (video_maxima l (a, b)).2)) := by
  intro l
  induction l with
  | nil =>
    intro a b
    refine ⟨⟨Nat.le_refl _, ?_, Or.inl rfl⟩, ⟨Nat.le_refl _, ?_, Or.inl rfl⟩⟩
    · intro v hv; cases hv
    · intro v hv; cases hv
  | cons x xs ih =>
    intro a b
    rw [video_maxima_cons]
    obtain ⟨r, hr⟩ : ∃ r, r = (x.width * x.height) % 4294967296 := ⟨_, rfl⟩
    obtain ⟨a1, ha1⟩ : ∃ a1, a1 = (if r > a then r else a) := ⟨_, rfl⟩
    obtain ⟨b1, hb1⟩ : ∃ b1, b1 = (if x.streamBitrate > b then x.streamBitrate else b) :=
      ⟨_, rfl⟩
    rw [← hr, ← ha1, ← hb1]
    have fa : a ≤ a1 ∧ r ≤ a1 ∧ (a1 = a ∨ a1 = r) := by
      rw [ha1]; split_ifs <;> omega
    have fb : b ≤ b1 ∧ x.streamBitrate ≤ b1 ∧ (b1 = b ∨ b1 = x.streamBitrate) := by
      rw [hb1]; split_ifs <;> omega
    obtain ⟨⟨h1, h2, h3⟩, ⟨g1, g2, g3⟩⟩ := ih a1 b1
    refine ⟨⟨by omega, ?_, ?_⟩, ⟨by omega, ?_, ?_⟩⟩
    · intro v hv
      rcases List.mem_cons.mp hv with e | e
      · subst e; rw [← hr]; omega
      · exact h2 v e
    · rcases h3 with e | ⟨v, hv, e⟩
      · rcases fa.2.2 with e1 | e1
        · exact Or.inl (by omega)
        · exact Or.inr ⟨x, List.mem_cons_self x xs, by rw [← hr]; omega⟩
      · exact Or.inr ⟨v, List.mem_cons_of_mem x hv, e⟩
    · intro v hv
      rcases List.mem_cons.mp hv with e | e
      · subst e; omega
      · exact g2 v e
    · rcases g3 with e | ⟨v, hv, e⟩
      · rcases fb.2.2 with e1 | e1
        · exact Or.inl (by omega)
        · exact Or.inr ⟨x, List.mem_cons_self x xs, by omega⟩
      · exact Or.inr ⟨v, List.mem_cons_of_mem x hv, e⟩

/-- Over a non-empty list the loop of `rockchip_update_video_info` leaves the
largest resolution and the largest bit rate. -/
theorem video_maxima_largest (l : List VideoInfo) (hl : l ≠ []) :
    is_largest (fun v => (v.width * v.height) % 4294967296) l (video_maxima l (0, 0)).1 ∧
    is_largest (fun v => v.streamBitrate) l (video_maxima l (0, 0)).2 := by
  obtain ⟨⟨_, h2, h3⟩, ⟨_, g2, g3⟩⟩ := video_maxima_bounds l 0 0
  obtain ⟨x, xs, rfl⟩ := List.exists_cons_of_ne_nil hl
  refine ⟨⟨?_, h2⟩, ⟨?_, g2⟩⟩
  · rcases h3 with e | h
    · refine ⟨x, List.mem_cons_self x xs, ?_⟩
      have := h2 x (List.mem_cons_self x xs)
      show (x.width * x.height) % 4294967296 = _
      omega
    · exact h
  · rcases g3 with e | h
    · refine ⟨x, List.mem_cons_self x xs, ?_⟩
      have := g2 x (List.mem_cons_self x xs)
      show x.streamBitrate = _
      omega
    · exact h

/-- C11: with an empty video list `rockchip_update_video_info` performs exactly
`rockchip_clear_system_status(SYS_STATUS_VIDEO)`; with a non-empty list it
performs exactly one `rockchip_set_system_status` call, chosen from the
maxima over the listed videos: `SYS_STATUS_VIDEO_1080P` when the largest
`width * height` (modulo 2^32) is at most 1920*1080, otherwise
`SYS_STATUS_VIDEO_4K_10B` when the largest `streamBitrate` is 10, and
`SYS_STATUS_VIDEO_4K` in every other case. -/
theorem update_video_info_single_call (K : SysStatusBits) (st : SysState) :
    (st.video_info_list = [] →
      rockchip_update_video_info K st =
        rockchip_clear_system_status K.SYS_STATUS_VIDEO st) ∧
    (st.video_info_list ≠ [] →
      ∃ max_res max_stream_bitrate,
        is_largest (fun v => (v.width * v.height) % 4294967296) st.video_info_list max_res ∧
        is_largest (fun v => v.streamBitrate) st.video_info_list max_stream_bitrate ∧
        rockchip_update_video_info K st =
          if max_res ≤ 1920 * 1080 then
            rockchip_set_system_status K.SYS_STATUS_VIDEO_1080P st
          else if max_stream_bitrate = 10 then
            rockchip_set_system_status K.SYS_STATUS_VIDEO_4K_10B st
          else rockchip_set_system_status K.SYS_STATUS_VIDEO_4K st) := by
  constructor
  · intro h
    simp [rockchip_update_video_info, h]
  · intro h
    obtain ⟨h1, h2⟩ := video_maxima_largest st.video_info_list h
    refine ⟨_, _, h1, h2, ?_⟩
    have hne : st.video_info_list.isEmpty = false := by
      cases hl : st.video_info_list with
      | nil => exact absurd hl h
      | cons x xs => rfl
    simp [rockchip_update_video_info, hne, VIDEO_1080P_SIZE]

/-! ## Parsing of video messages -/

theorem dropWhile_ne_append (tok rest : List Char) (d : Char) (h : ∀ ch ∈ tok, ch ≠ d) :
    (tok ++ d :: rest).dropWhile (fun c => decide (c ≠ d)) = d :: rest := by
  induction tok with
  | nil => simp [List.dropWhile]
  | cons x xs ih =>
    have hx : x ≠ d := h x (List.mem_cons_self x xs)
    have := ih (fun ch hch => h ch (List.mem_cons_of_mem x hch))
    rw [List.cons_append, List.dropWhile_cons_of_pos (by simpa using hx)]
    exact this

theorem takeWhile_ne_append (tok rest : List Char) (d : Char) (h : ∀ ch ∈ tok, ch ≠ d) :
    (tok ++ d :: rest).takeWhile (fun c => decide (c ≠ d)) = tok := by
  induction tok with
  | nil => simp [List.takeWhile]
  | cons x xs ih =>
    have hx : x ≠ d := h x (List.mem_cons_self x xs)
    have := ih (fun ch hch => h ch (List.mem_cons_of_mem x hch))
    rw [List.cons_append, List.takeWhile_cons_of_pos (by simpa using hx), this]

theorem dropWhile_ne_all (s : List Char) (d : Char) (h : ∀ ch ∈ s, ch ≠ d) :
    s.dropWhile (fun c => decide (c ≠ d)) = [] := by
  induction s with
  | nil => rfl
  | cons x xs ih =>
    have hx : x ≠ d := h x (List.mem_cons_self x xs)
    have := ih (fun ch hch => h ch (List.mem_cons_of_mem x hch))
    rw [List.dropWhile_cons_of_pos (by simpa using hx)]
    exact this

/-- The call `strsep(&str, d)` on a string that holds the delimiter: the token
is what precedes its first occurrence, `str` is left after it. -/
theorem strsep_found (tok rest : List Char) (d : Char) (h : ∀ ch ∈ tok, ch ≠ d) :
    strsep (some (tok ++ d :: rest)) d = (some tok, some rest) := by
  unfold strsep
  simp only [dropWhile_ne_append tok rest d h, takeWhile_ne_append tok rest d h]

/-- The call `strsep(&str, d)` on a string without the delimiter: the token is
the whole string, `str` is left `NULL`. -/
theorem strsep_not_found (s : List Char) (d : Char) (h : ∀ ch ∈ s, ch ≠ d) :
    strsep (some s) d = (some s, none) := by
  unfold strsep
  simp only [dropWhile_ne_all s d h]

theorem isDigit_ne (ch : Char) (h : ch.isDigit = true) :
    ch ≠ '+' ∧ ch ≠ ',' ∧ ch ≠ '=' := by
  refine ⟨?_, ?_, ?_⟩ <;> (intro e; subst e; revert h; decide)

/-- On a decimal numeral whose value fits an `unsigned long`, `kstrtoul`
succeeds with that value. -/
theorem kstrtoul_numeral (ds : List Char) (h : is_numeral ds)
    (hv : digits_value ds < 18446744073709551616) :
    kstrtoul ds = some (digits_value ds) := by
  obtain ⟨hne, hall⟩ := h
  obtain ⟨c, t, rfl⟩ := List.exists_cons_of_ne_nil hne
  have hc : c ≠ '+' := (isDigit_ne c (hall c (List.mem_cons_self c t))).1
  have htake : (c :: t).takeWhile Char.isDigit = c :: t :=
    List.takeWhile_eq_self_iff.mpr hall
  have hdrop : (c :: t).dropWhile Char.isDigit = [] :=
    List.dropWhile_eq_nil_iff.mpr hall
  unfold kstrtoul
  simp only [if_neg hc, htake, hdrop]
  simp [Nat.not_le.mpr hv]

/-- A field `name=digits,` in front of `rest`: `rockchip_get_video_param` returns
the value of the numeral and leaves `str` at `rest`. -/
theorem get_video_param_field (pre ds rest : List Char) (hpre : ∀ ch ∈ pre, ch ≠ '=')
    (hds : is_numeral ds) (hv : digits_value ds < 18446744073709551616) :
    rockchip_get_video_param (some (pre ++ '=' :: (ds ++ ',' :: rest))) =
      (digits_value ds, some rest) := by
  have hcomma : ∀ ch ∈ ds, ch ≠ ',' := fun ch hch => (isDigit_ne ch (hds.2 ch hch)).2.1
  unfold rockchip_get_video_param
  rw [strsep_found pre _ '=' hpre]
  simp only [strsep_found ds rest ',' hcomma, kstrtoul_numeral ds hds hv]

/-- The last field `name=digits`: `rockchip_get_video_param` returns the value of
the numeral and leaves `str` `NULL`. -/
theorem get_video_param_last (pre ds : List Char) (hpre : ∀ ch ∈ pre, ch ≠ '=')
    (hds : is_numeral ds) (hv : digits_value ds < 18446744073709551616) :
    rockchip_get_video_param (some (pre ++ '=' :: ds)) = (digits_value ds, none) := by
  have hcomma : ∀ ch ∈ ds, ch ≠ ',' := fun ch hch => (isDigit_ne ch (hds.2 ch hch)).2.1
  unfold rockchip_get_video_param
  rw [strsep_found pre _ '=' hpre]
  simp only [strsep_not_found ds ',' hcomma, kstrtoul_numeral ds hds hv]

theorem count_separators_append (a b : List Char) :
    count_separators (a ++ b) = count_separators a + count_separators b := by
  induction a with
  | nil => simp [count_separators]
  | cons x xs ih =>
    by_cases hx : x = ','
    · simp [count_separators, hx, ih]; omega
    · simp [count_separators, hx, ih]

theorem count_separators_numeral (ds : List Char) (h : is_numeral ds) :
    count_separators ds = 0 := by
  have hall := h.2
  clear h
  induction ds with
  | nil => rfl
  | cons x xs ih =>
    have hx : x ≠ ',' := (isDigit_ne x (hall x (List.mem_cons_self x xs))).2.1
    simp only [count_separators, if_neg hx]
    exact ih (fun ch hch => hall ch (List.mem_cons_of_mem x hch))

theorem video_message_fields (c : Char) (W H I F B : List Char) :
    video_message c W H I F B =
      c :: ',' :: ("width".toList ++ '=' :: (W ++ ',' :: ("height".toList ++ '=' ::
        (H ++ ',' :: ("ishevc".toList ++ '=' :: (I ++ ',' :: ("videoFramerate".toList ++
          '=' :: (F ++ ',' :: ("streamBitrate".toList ++ '=' :: B))))))))) := by
  simp only [video_message, List.append_assoc]
  rfl

theorem video_message_separators (c : Char) (W H I F B : List Char)
    (hW : is_numeral W) (hH : is_numeral H) (hI : is_numeral I) (hF : is_numeral F)
    (hB : is_numeral B) :
    count_separators (video_message c W H I F B).tail = 5 := by
  have e1 : count_separators ",width=".toList = 1 := by decide
  have e2 : count_separators ",height=".toList = 1 := by decide
  have e3 : count_separators ",ishevc=".toList = 1 := by decide
  have e4 : count_separators ",videoFramerate=".toList = 1 := by decide
  have e5 : count_separators ",streamBitrate=".toList = 1 := by decide
  simp only [video_message, List.tail_cons, count_separators_append, e1, e2, e3, e4, e5,
    count_separators_numeral W hW, count_separators_numeral H hH,
    count_separators_numeral I hI, count_separators_numeral F hF,
    count_separators_numeral B hB]

/-- On a message of the documented form the parser returns the values its
digit scan gives for the five numerals. -/
theorem parse_video_info_digits (c : Char) (W H I F B : List Char)
    (hW : is_numeral W) (hH : is_numeral H) (hI : is_numeral I) (hF : is_numeral F)
    (hB : is_numeral B)
    (vW : digits_value W < 4294967296) (vH : digits_value H < 4294967296)
    (vI : digits_value I < 4294967296) (vF : digits_value F < 4294967296)
    (vB : digits_value B < 4294967296) :
    rockchip_parse_video_info (video_message c W H I F B) =
      some { width := digits_value W, height := digits_value H, ishevc := digits_value I,
             videoFramerate := digits_value F, streamBitrate := digits_value B } := by
  have hcount := video_message_separators c W H I F B hW hH hI hF hB
  have p1 : ∀ ch ∈ "width".toList, ch ≠ '=' := by decide
  have p1c : ∀ ch ∈ ',' :: "width".toList, ch ≠ '=' := by decide
  have p2 : ∀ ch ∈ "height".toList, ch ≠ '=' := by decide
  have p3 : ∀ ch ∈ "ishevc".toList, ch ≠ '=' := by decide
  have p4 : ∀ ch ∈ "videoFramerate".toList, ch ≠ '=' := by decide
  have p5 : ∀ ch ∈ "streamBitrate".toList, ch ≠ '=' := by decide
  unfold rockchip_parse_video_info
  rw [if_neg (by rw [hcount]; simp)]
  rw [video_message_fields]
  have hs0 : ∃ pre : List Char, (∀ ch ∈ pre, ch ≠ '=') ∧
      (strsep (some (c :: ',' :: ("width".toList ++ '=' :: (W ++ ',' :: ("height".toList ++
        '=' :: (H ++ ',' :: ("ishevc".toList ++ '=' :: (I ++ ',' ::
        ("videoFramerate".toList ++ '=' :: (F ++ ',' :: ("streamBitrate".toList ++
        '=' :: B)))))))))))
        ',').2 =
      some (pre ++ '=' :: (W ++ ',' :: ("height".toList ++ '=' :: (H ++ ',' ::
        ("ishevc".toList ++ '=' :: (I ++ ',' :: ("videoFramerate".toList ++ '=' ::
        (F ++ ',' :: ("streamBitrate".toList ++ '=' :: B))))))))) := by
    by_cases hc : c = ','
    · refine ⟨',' :: "width".toList, p1c, ?_⟩
      subst hc
      have := strsep_found [] (',' :: ("width".toList ++ '=' :: (W ++ ',' ::
        ("height".toList ++ '=' :: (H ++ ',' :: ("ishevc".toList ++ '=' :: (I ++ ',' ::
        ("videoFramerate".toList ++ '=' :: (F ++ ',' :: ("streamBitrate".toList ++
        '=' :: B)))))))))) ',' (fun ch hch => by cases hch)
      rw [List.nil_append] at this
      rw [this]
      rfl
    · refine ⟨"width".toList, p1, ?_⟩
      have := strsep_found [c] ("width".toList ++ '=' :: (W ++ ',' ::
        ("height".toList ++ '=' :: (H ++ ',' :: ("ishevc".toList ++ '=' :: (I ++ ',' ::
        ("videoFramerate".toList ++ '=' :: (F ++ ',' :: ("streamBitrate".toList ++
        '=' :: B))))))))) ',' (fun ch hch => by
          rw [List.mem_singleton] at hch; rw [hch]; exact hc)
      rw [List.singleton_append] at this
      rw [this]
  obtain ⟨pre, hpre, hs0⟩ := hs0
  simp only [hs0]
  have b64 : ∀ n : Nat, n < 4294967296 → n < 18446744073709551616 := fun n h => by omega
  rw [get_video_param_field pre W _ hpre hW (b64 _ vW)]
  simp only
  rw [get_video_param_field "height".toList H _ p2 hH (b64 _ vH)]
  simp only
  rw [get_video_param_field "ishevc".toList I _ p3 hI (b64 _ vI)]
  simp only
  rw [get_video_param_field "videoFramerate".toList F _ p4 hF (b64 _ vF)]
  simp only
  rw [get_video_param_last "streamBitrate".toList B p5 hB (b64 _ vB)]
  simp only [ulong_to_uint, Nat.mod_eq_of_lt vW, Nat.mod_eq_of_lt vH, Nat.mod_eq_of_lt vI,
    Nat.mod_eq_of_lt vF, Nat.mod_eq_of_lt vB]

theorem digits_value_snoc (ds : List Char) (c : Char) :
    digits_value (ds ++ [c]) = digits_value ds * 10 + (c.toNat - 48) := by
  unfold digits_value
  rw [List.foldl_append]
  rfl

/-- The digit scan of the `kstrtoul` model computes the positional value. -/
theorem digits_value_eq_ofDigits (ds : List Char) :
    digits_value ds = Nat.ofDigits 10 (ds.reverse.map (fun ch => ch.toNat - 48)) := by
  induction ds using List.reverseRecOn with
  | nil => rfl
  | append_singleton init c ih =>
    rw [digits_value_snoc, ih, List.reverse_append, List.reverse_singleton,
      List.singleton_append, List.map_cons, Nat.ofDigits_cons]
    omega

theorem digitChar_value : ∀ k, k < 10 →
    (Nat.digitChar k).isDigit = true ∧ (Nat.digitChar k).toNat - 48 = k := by
  decide

theorem toDigitsCore_spec : ∀ (fuel n : Nat) (ds : List Char), n < fuel →
    ∃ pre, Nat.toDigitsCore 10 fuel n ds = pre ++ ds ∧ pre ≠ [] ∧
      (∀ ch ∈ pre, ch.isDigit = true) ∧ digits_value pre = n := by
  intro fuel
  induction fuel with
  | zero => intro n ds h; omega
  | succ fuel ih =>
    intro n ds h
    obtain ⟨hd, hv⟩ := digitChar_value (n % 10) (Nat.mod_lt n (by norm_num))
    by_cases h0 : n / 10 = 0
    · refine ⟨[Nat.digitChar (n % 10)], ?_, by simp, ?_, ?_⟩
      · simp [Nat.toDigitsCore, h0]
      · intro ch hch
        rw [List.mem_singleton] at hch
        rw [hch]; exact hd
      · show 0 * 10 + ((Nat.digitChar (n % 10)).toNat - 48) = n
        rw [hv]; omega
    · obtain ⟨pre, hpre, _, hall, hval⟩ :=
        ih (n / 10) (Nat.digitChar (n % 10) :: ds) (by omega)
      refine ⟨pre ++ [Nat.digitChar (n % 10)], ?_, by simp, ?_, ?_⟩
      · simp [Nat.toDigitsCore, h0, hpre]
      · intro ch hch
        rcases List.mem_append.mp hch with h1 | h1
        · exact hall ch h1
        · rw [List.mem_singleton] at h1
          rw [h1]; exact hd
      · rw [digits_value_snoc, hval, hv]; omega

/-- The string that prints a number in base 10 is a numeral of that number. -/
theorem toDigits_numeral_of (n : Nat) : numeral_of (Nat.toDigits 10 n) n := by
  obtain ⟨pre, hpre, hne, hall, hval⟩ := toDigitsCore_spec (n + 1) n [] (Nat.lt_succ_self n)
  rw [List.append_nil] at hpre
  unfold Nat.toDigits
  rw [hpre]
  exact ⟨⟨hne, hall⟩, by rw [← digits_value_eq_ofDigits, hval]⟩

/-- C12: for every buffer of the documented form
`<c>,width=W,height=H,ishevc=I,videoFramerate=F,streamBitrate=B`, with `c` a
single character and `W`, `H`, `I`, `F`, `B` decimal numerals of numbers `w`,
`h`, `i`, `f`, `b` below 2^32 (leading zeros allowed),
`rockchip_parse_video_info` returns a record whose five fields are `w`, `h`,
`i`, `f` and `b`; and the string that prints a number in base 10 is a numeral
of that number. -/
theorem parse_video_info_documented_form (c : Char) (W H I F B : List Char)
    (w h i f b : Nat)
    (hW : numeral_of W w) (hH : numeral_of H h) (hI : numeral_of I i) (hF : numeral_of F f)
    (hB : numeral_of B b)
    (vw : w < 4294967296) (vh : h < 4294967296) (vi : i < 4294967296) (vf : f < 4294967296)
    (vb : b < 4294967296) :
    rockchip_parse_video_info (video_message c W H I F B) =
      some { width := w, height := h, ishevc := i, videoFramerate := f,
             streamBitrate := b } ∧
    (∀ n, numeral_of (Nat.toDigits 10 n) n) := by
  have eW : digits_value W = w := by rw [digits_value_eq_ofDigits]; exact hW.2
  have eH : digits_value H = h := by rw [digits_value_eq_ofDigits]; exact hH.2
  have eI : digits_value I = i := by rw [digits_value_eq_ofDigits]; exact hI.2
  have eF : digits_value F = f := by rw [digits_value_eq_ofDigits]; exact hF.2
  have eB : digits_value B = b := by rw [digits_value_eq_ofDigits]; exact hB.2
  refine ⟨?_, toDigits_numeral_of⟩
  rw [parse_video_info_digits c W H I F B hW.1 hH.1 hI.1 hF.1 hB.1 (by rw [eW]; exact vw)
    (by rw [eH]; exact vh) (by rw [eI]; exact vi) (by rw [eF]; exact vf)
    (by rw [eB]; exact vb), eW, eH, eI, eF, eB]

/-- Witness of C12: the message that registers a 1920x1080 video. -/
theorem parse_video_info_documented_form_witness :
    numeral_of "1920".toList 1920 ∧ numeral_of "1080".toList 1080 ∧
    numeral_of "0".toList 0 ∧ numeral_of "30".toList 30 ∧ numeral_of "8".toList 8 ∧
    (1920 : Nat) < 4294967296 ∧ (1080 : Nat) < 4294967296 ∧ (0 : Nat) < 4294967296 ∧
    (30 : Nat) < 4294967296 ∧ (8 : Nat) < 4294967296 ∧
    video_message '1' "1920".toList "1080".toList "0".toList "30".toList "8".toList =
      "1,width=1920,height=1080,ishevc=0,videoFramerate=30,streamBitrate=8".toList ∧
    rockchip_parse_video_info
        (video_message '1' "1920".toList "1080".toList "0".toList "30".toList "8".toList) =
      some { width := 1920, height := 1080, ishevc := 0, videoFramerate := 30,
             streamBitrate := 8 } :=
  ⟨by decide, by decide, by decide, by decide, by decide, by decide, by decide, by decide,
    by decide, by decide, by decide,
    (parse_video_info_documented_form '1' _ _ _ _ _ 1920 1080 0 30 8 (by decide) (by decide)
      (by decide) (by decide) (by decide) (by decide) (by decide) (by decide) (by decide)
      (by decide)).1⟩

/-! ## CPU offlining on temperature -/

theorem set_temp_offline_flag (m : system_monitor) (b : Bool) :
    (set_temp_offline m b).is_temp_offline = b := by
  unfold set_temp_offline rockchip_system_monitor_cpu_on_off
  by_cases h : m.is_temp_offline = b
  · rw [if_pos h]; exact h
  · rw [if_neg h]
    simp only
    split_ifs <;> rfl

/-- C19 as amended: when `temp_offline_cpus` is empty
`rockchip_system_monitor_temp_cpu_on_off(temp)` changes nothing; otherwise,
provided `temp_hysteresis >= 0` and `offline_cpus_temp - temp_hysteresis` is
not below `INT_MIN`, `is_temp_offline` becomes true when
`temp > offline_cpus_temp`, becomes false when
`temp < offline_cpus_temp - temp_hysteresis`, and keeps its value for every
`temp` with `offline_cpus_temp - temp_hysteresis <= temp <= offline_cpus_temp`. -/
theorem temp_cpu_on_off_hysteresis (m : system_monitor) (temp : Int)
    (hmax : m.offline_cpus_temp ≤ INT_MAX) (hpos : 0 ≤ m.temp_hysteresis)
    (hmin : INT_MIN ≤ m.offline_cpus_temp - m.temp_hysteresis) :
    (m.temp_offline_cpus = 0 → rockchip_system_monitor_temp_cpu_on_off m temp = m) ∧
    (m.temp_offline_cpus ≠ 0 →
      (temp > m.offline_cpus_temp →
        (rockchip_system_monitor_temp_cpu_on_off m temp).is_temp_offline = true) ∧
      (temp < m.offline_cpus_temp - m.temp_hysteresis →
        (rockchip_system_monitor_temp_cpu_on_off m temp).is_temp_offline = false) ∧
      (m.offline_cpus_temp - m.temp_hysteresis ≤ temp → temp ≤ m.offline_cpus_temp →
        (rockchip_system_monitor_temp_cpu_on_off m temp).is_temp_offline
          = m.is_temp_offline)) := by
  have hw : wrap_int (m.offline_cpus_temp - m.temp_hysteresis) =
      m.offline_cpus_temp - m.temp_hysteresis := by
    apply wrap_int_of_is_int
    unfold is_int
    exact ⟨hmin, by omega⟩
  unfold rockchip_system_monitor_temp_cpu_on_off
  rw [hw]
  constructor
  · intro h0
    rw [if_pos h0]
  · intro h0
    rw [if_neg h0]
    refine ⟨?_, ?_, ?_⟩
    · intro h
      rw [if_pos h]
      exact set_temp_offline_flag m true
    · intro h
      rw [if_neg (by omega), if_pos h]
      exact set_temp_offline_flag m false
    · intro h1 h2
      rw [if_neg (by omega), if_neg (by omega)]

/-- Witness of C19 as amended: the sample monitor at 94000 millidegrees, below
the band. -/
theorem temp_cpu_on_off_hysteresis_witness :
    sample_monitor.offline_cpus_temp ≤ INT_MAX ∧ 0 ≤ sample_monitor.temp_hysteresis ∧
    INT_MIN ≤ sample_monitor.offline_cpus_temp - sample_monitor.temp_hysteresis ∧
    (sample_monitor.temp_offline_cpus ≠ 0 →
      (94000 < sample_monitor.offline_cpus_temp - sample_monitor.temp_hysteresis →
        (rockchip_system_monitor_temp_cpu_on_off sample_monitor 94000).is_temp_offline
          = false)) :=
  ⟨by decide, by decide, by decide, fun h =>
    ((temp_cpu_on_off_hysteresis sample_monitor 94000 (by decide) (by decide)
      (by decide)).2 h).2.1⟩

/-- C19 as stated fails: with `offline_cpus_temp = 100000` and
`temp_hysteresis = -10000` the temperature 105000 is below
`offline_cpus_temp - temp_hysteresis`, yet `is_temp_offline` becomes true, not
false (the test `temp > offline_cpus_temp` comes first). -/
theorem temp_cpu_on_off_negative_hysteresis :
    negative_hysteresis_monitor.temp_offline_cpus ≠ 0 ∧
    (105000 : Int) <
      negative_hysteresis_monitor.offline_cpus_temp -
        negative_hysteresis_monitor.temp_hysteresis ∧
    (rockchip_system_monitor_temp_cpu_on_off negative_hysteresis_monitor
        105000).is_temp_offline = true := by
  decide

/-! ## Temperature OPP table -/

/-- Whenever the mathematical sum of the voltage and the adjustment is a value
of `unsigned long`, the sum of the source is that sum. -/
theorem volt_plus_delta_exact (u_volt : Nat) (delta : Int) (h0 : 0 ≤ (u_volt : Int) + delta)
    (h1 : (u_volt : Int) + delta < 18446744073709551616) :
    ((volt_plus_delta u_volt delta : Nat) : Int) = (u_volt : Int) + delta := by
  unfold volt_plus_delta int_to_ulong
  omega

theorem low_temp_volt_value_rule (info : MonitorDevInfo) (u_volt : Nat) (delta : Int) :
    low_temp_volt_value info u_volt delta =
      if volt_plus_delta u_volt delta > info.max_volt then info.max_volt
      else Nat.max (volt_plus_delta u_volt delta) info.low_temp_min_volt := by
  unfold low_temp_volt_value
  generalize volt_plus_delta u_volt delta = v
  by_cases h1 : v ≤ info.max_volt
  · have hr : ¬ v > info.max_volt := by omega
    rw [if_pos h1, if_neg hr]
    by_cases h2 : v < info.low_temp_min_volt
    · rw [if_pos h2]
      exact (Nat.max_eq_right (Nat.le_of_lt h2)).symm
    · rw [if_neg h2]
      exact (Nat.max_eq_left (by omega)).symm
  · have hr : v > info.max_volt := by omega
    rw [if_neg h1, if_pos hr]

theorem low_temp_volt_scan_delta (_rate : Nat) : ∀ (table : List VoltAdjust)
    (ret d1 d2 : Int), (ret = 0 → d1 = d2) →
    (low_temp_volt_scan _rate table (ret, d1)).map
        (fun r => if r.1 ≠ 0 then (0 : Int) else r.2) =
      (low_temp_volt_scan _rate table (ret, d2)).map
        (fun r => if r.1 ≠ 0 then (0 : Int) else r.2) := by
  intro table
  induction table with
  | nil => intro ret d1 d2 _; rfl
  | cons row rest ih =>
    intro ret d1 d2 h
    by_cases hs : row.volt = INT_MAX
    · simp only [low_temp_volt_scan, if_pos hs, Option.map_some']
      by_cases hr : ret = 0
      · rw [h hr]
      · simp [hr]
    · by_cases hm : _rate ≥ row.min ∧ _rate ≤ row.max
      · simp only [low_temp_volt_scan, if_neg hs, if_pos hm]
      · simp only [low_temp_volt_scan, if_neg hs, if_neg hm]
        exact ih ret d1 d2 h

/-- The adjustment found for a rate does not depend on what `delta_volt` held
before the lookup. -/
theorem low_temp_delta_initial (info : MonitorDevInfo) (rate : Nat) (d : Int) :
    low_temp_delta info rate d = low_temp_delta info rate 0 := by
  have key : ∀ x : Option (Int × Int),
      (match x with
        | none => none
        | some r => some (if r.1 ≠ 0 then (0 : Int) else r.2)) =
      x.map (fun r => if r.1 ≠ 0 then (0 : Int) else r.2) := by
    intro x; cases x <;> rfl
  unfold low_temp_delta rockchip_get_low_temp_volt
  rw [key, key]
  cases info.low_temp_adjust_table with
  | none => simp [EINVAL]
  | some table =>
    exact low_temp_volt_scan_delta _ table (-EINVAL) d 0 (fun h => by simp [EINVAL] at h)

theorem low_temp_delta_config (a b : MonitorDevInfo) (h : same_volt_config a b)
    (rate : Nat) (d : Int) : low_temp_delta a rate d = low_temp_delta b rate d := by
  unfold low_temp_delta rockchip_get_low_temp_volt
  rw [h.1]

theorem same_volt_config_refl (a : MonitorDevInfo) : same_volt_config a a := ⟨rfl, rfl, rfl⟩

/-- One iteration of the loop keeps the voltage configuration and appends a row
that follows the rule. -/
theorem init_temp_opp_step_rows (opps : List DevPmOpp) (info0 : MonitorDevInfo)
    (opp : DevPmOpp) (hopp : opp ∈ opps) (s s1 : TempOppLoop)
    (hcfg : same_volt_config s.info info0)
    (hrows : ∀ e ∈ s.table, row_follows_rule opps info0 e)
    (hstep : init_temp_opp_step opp s = some s1) :
    same_volt_config s1.info info0 ∧ ∀ e ∈ s1.table, row_follows_rule opps info0 e := by
  simp only [init_temp_opp_step] at hstep
  have hcfg1 : same_volt_config (high_limit_step opp s) info0 := by
    unfold high_limit_step
    split_ifs
    · exact hcfg
    · exact hcfg
  generalize high_limit_step opp s = info1 at hstep hcfg1
  cases hd : low_temp_delta info1 opp.rate s.delta_volt with
  | none => rw [hd] at hstep; simp at hstep
  | some delta =>
    rw [hd] at hstep
    simp only [Option.some.injEq] at hstep
    subst hstep
    constructor
    · simp only
      split_ifs
      · exact hcfg1
      · exact hcfg1
    · intro e he
      simp only [List.mem_append, List.mem_singleton] at he
      rcases he with he | he
      · exact hrows e he
      · subst he
        refine ⟨opp, hopp, rfl, rfl, delta, ?_, ?_⟩
        · rw [← low_temp_delta_config info1 info0 hcfg1, ← low_temp_delta_initial, hd]
        · simp only
          rw [low_temp_volt_value_rule, hcfg1.2.1, hcfg1.2.2]

theorem init_temp_opp_loop_rows (opps : List DevPmOpp) (info0 : MonitorDevInfo) :
    ∀ (n rate : Nat) (s : TempOppLoop) (last : Option DevPmOpp)
      (r : Int × TempOppLoop × Option DevPmOpp),
      same_volt_config s.info info0 →
      (∀ e ∈ s.table, row_follows_rule opps info0 e) →
      init_temp_opp_loop opps n rate s last = some r →
      same_volt_config r.2.1.info info0 ∧
        ∀ e ∈ r.2.1.table, row_follows_rule opps info0 e := by
  intro n
  induction n with
  | zero =>
    intro rate s last r hcfg hrows h
    simp only [init_temp_opp_loop, Option.some.injEq] at h
    subst h
    exact ⟨hcfg, hrows⟩
  | succ n ih =>
    intro rate s last r hcfg hrows h
    unfold init_temp_opp_loop at h
    cases hf : dev_pm_opp_find_freq_ceil opps rate with
    | none =>
      rw [hf] at h
      simp only [Option.some.injEq] at h
      subst h
      exact ⟨hcfg, hrows⟩
    | some opp =>
      rw [hf] at h
      have hmem : opp ∈ opps := List.mem_of_find?_eq_some hf
      cases hs : init_temp_opp_step opp s with
      | none => simp [hs] at h
      | some s1 =>
        simp only [hs] at h
        obtain ⟨c1, c2⟩ := init_temp_opp_step_rows opps info0 opp hmem s s1 hcfg hrows hs
        exact ih _ s1 (some opp) r c1 c2 h

/-- A row that follows the rule never exceeds `max_volt` when
`low_temp_min_volt <= max_volt`. -/
theorem row_follows_rule_bound (opps : List DevPmOpp) (info : MonitorDevInfo)
    (e : TempOppEntry) (h : row_follows_rule opps info e)
    (hmin : info.low_temp_min_volt ≤ info.max_volt) : e.low_temp_volt ≤ info.max_volt := by
  obtain ⟨_, _, _, _, delta, _, hv⟩ := h
  rw [hv]
  by_cases hc : volt_plus_delta e.volt delta > info.max_volt
  · rw [if_pos hc]
  · rw [if_neg hc]
    exact Nat.max_le.mpr ⟨by omega, hmin⟩

/-- A row that follows the rule of the source follows the rule of the
specification whenever the sum of its voltage and its adjustment is neither
negative nor beyond `unsigned long`. -/
theorem row_follows_spec_rule (opps : List DevPmOpp) (info : MonitorDevInfo)
    (e : TempOppEntry) (h : row_follows_rule opps info e) :
    ∃ opp ∈ opps, e.rate = opp.rate ∧ e.volt = opp.u_volt ∧
      ∃ delta, low_temp_delta info opp.rate 0 = some delta ∧
        (0 ≤ (e.volt : Int) + delta → (e.volt : Int) + delta < 18446744073709551616 →
          (e.low_temp_volt : Int) = spec_table_low_temp_volt info e.volt delta) := by
  obtain ⟨opp, hopp, hr, hv, delta, hd, hrule⟩ := h
  refine ⟨opp, hopp, hr, hv, delta, hd, ?_⟩
  intro h0 h1
  have hsum := volt_plus_delta_exact e.volt delta h0 h1
  rw [hrule]
  unfold spec_table_low_temp_volt
  generalize volt_plus_delta e.volt delta = s at hsum
  rw [← hsum]
  by_cases hc : s > info.max_volt
  · have hc1 : (s : Int) > (info.max_volt : Int) := by exact_mod_cast hc
    rw [if_pos hc, if_pos hc1]
  · have hc1 : ¬ (s : Int) > (info.max_volt : Int) := by
      intro hcon; exact hc (by exact_mod_cast hcon)
    rw [if_neg hc, if_neg hc1]
    exact_mod_cast rfl

/-- C20 as amended: every row of the table that `rockchip_init_temp_opp_table`
fills in comes from an OPP of the device and, with `delta` the value the
lookup `rockchip_get_low_temp_volt` gives for that OPP's rate (0 when the
lookup fails) and `s` the `unsigned long` sum `volt + delta` of the source,
its `low_temp_volt` equals `max_volt` when `s > max_volt` and
`max(s, low_temp_min_volt)` otherwise; so whenever
`low_temp_min_volt <= max_volt` no `low_temp_volt` exceeds `max_volt`. The sum
`s` is the mathematical sum whenever that is neither negative nor 2^64 or
more, and for such a row the rule holds as the specification words it. -/
theorem temp_opp_table_low_temp_volt (opps : List DevPmOpp) (info : MonitorDevInfo)
    (info1 : MonitorDevInfo) (table : List TempOppEntry)
    (hrun : rockchip_init_temp_opp_table opps info = some (0, info1))
    (htable : info1.opp_table = some table) :
    (∀ e ∈ table, row_follows_rule opps info e) ∧
    (info.low_temp_min_volt ≤ info.max_volt →
      ∀ e ∈ table, e.low_temp_volt ≤ info.max_volt) ∧
    (∀ (u_volt : Nat) (delta : Int), 0 ≤ (u_volt : Int) + delta →
      (u_volt : Int) + delta < 18446744073709551616 →
      ((volt_plus_delta u_volt delta : Nat) : Int) = (u_volt : Int) + delta) ∧
    (∀ e ∈ table, ∃ opp ∈ opps, e.rate = opp.rate ∧ e.volt = opp.u_volt ∧
      ∃ delta, low_temp_delta info opp.rate 0 = some delta ∧
        (0 ≤ (e.volt : Int) + delta → (e.volt : Int) + delta < 18446744073709551616 →
          (e.low_temp_volt : Int) = spec_table_low_temp_volt info e.volt delta)) := by
  have hrows : ∀ e ∈ table, row_follows_rule opps info e := by
    unfold rockchip_init_temp_opp_table at hrun
    by_cases h0 : opps.length = 0
    · rw [if_pos h0] at hrun
      simp [ENODATA] at hrun
    · rw [if_neg h0] at hrun
      cases hl : init_temp_opp_loop opps opps.length 0
          { info := info, table := [], delta_volt := 0, reach_max_volt := false,
            reach_high_temp_max_volt := false } none with
      | none => rw [hl] at hrun; simp at hrun
      | some r =>
        obtain ⟨_, hr⟩ := init_temp_opp_loop_rows opps info opps.length 0 _ none r
          (same_volt_config_refl info) (fun e he => by cases he) hl
        obtain ⟨ret, s, last⟩ := r
        rw [hl] at hrun
        simp only at hrun hr
        by_cases hret : ret ≠ 0
        · rw [if_pos hret] at hrun
          simp only [Option.some.injEq, Prod.mk.injEq] at hrun
          exact absurd hrun.1 hret
        · rw [if_neg hret] at hrun
          have htab : info1.opp_table = some s.table := by
            cases last with
            | none =>
              simp only [Option.some.injEq, Prod.mk.injEq, true_and] at hrun
              rw [← hrun]
            | some opp =>
              simp only [Option.some.injEq, Prod.mk.injEq, true_and] at hrun
              rw [← hrun]
          rw [htab] at htable
          simp only [Option.some.injEq] at htable
          rw [← htable]
          exact hr
  exact ⟨hrows, fun hmin e he => row_follows_rule_bound opps info e (hrows e he) hmin,
    volt_plus_delta_exact, fun e he => row_follows_spec_rule opps info e (hrows e he)⟩

/-- C20 as stated fails: for an OPP of 8 MHz at 10000 uV and an adjustment of
-25000 uV the sum `volt + delta` is -15000, not above `max_volt` = 1350000, so
that the rule gives `max(-15000, low_temp_min_volt)` = 900000; the code, whose
`unsigned long` sum is 2^64 - 15000, stores `max_volt` = 1350000. -/
theorem temp_opp_table_negative_sum :
    rockchip_init_temp_opp_table low_volt_opps negative_delta_info =
      some (0, negative_delta_result) ∧
    negative_delta_result.opp_table = some
      [{ rate := 8000000, volt := 10000, low_temp_volt := 1350000, max_volt := 1350000 }] ∧
    rockchip_get_low_temp_volt negative_delta_info 8000000 0 = some (0, -25000) ∧
    ¬ ((10000 : Int) + (-25000) > (negative_delta_info.max_volt : Int)) ∧
    spec_table_low_temp_volt negative_delta_info 10000 (-25000) = 900000 ∧
    volt_plus_delta 10000 (-25000) = 18446744073709536616 :=
  ⟨rfl, rfl, by decide, by decide, by decide, by decide⟩

/-- Witness of C20 as amended: three OPPs, the first one raised to
`low_temp_min_volt`. -/
theorem temp_opp_table_low_temp_volt_witness :
    rockchip_init_temp_opp_table sample_opps opp_info = some (0, sample_opp_result) ∧
    sample_opp_result.opp_table = some sample_opp_table ∧
    (∀ e ∈ sample_opp_table, row_follows_rule sample_opps opp_info e) ∧
    (opp_info.low_temp_min_volt ≤ opp_info.max_volt →
      ∀ e ∈ sample_opp_table, e.low_temp_volt ≤ opp_info.max_volt) :=
  ⟨rfl, rfl,
    (temp_opp_table_low_temp_volt sample_opps opp_info sample_opp_result sample_opp_table
      rfl rfl).1,
    (temp_opp_table_low_temp_volt sample_opps opp_info sample_opp_result sample_opp_table
      rfl rfl).2.1⟩

/-! ## The offsets visited by the status loops -/

theorem set_bits_descending_succ (k status : Nat) :
    set_bits_descending (k + 1) status =
      if status.testBit k = true then k :: set_bits_descending k status
      else set_bits_descending k status := by
  unfold set_bits_descending
  rw [List.range_succ, List.filter_append]
  by_cases h : status.testBit k = true
  · simp [h]
  · simp [h]

theorem set_bits_descending_trim (status m : Nat) : ∀ k, m ≤ k →
    (∀ j, m ≤ j → j < k → status.testBit j = false) →
    set_bits_descending k status = set_bits_descending m status := by
  intro k
  induction k with
  | zero =>
    intro hm _
    have : m = 0 := by omega
    rw [this]
  | succ k ih =>
    intro hm hclear
    by_cases hk : m = k + 1
    · rw [hk]
    · have hb : status.testBit k = false := hclear k (by omega) (by omega)
      rw [set_bits_descending_succ, hb]
      simp only [Bool.false_eq_true, if_false]
      exact ih (by omega) (fun j h1 h2 => hclear j h1 (by omega))

theorem set_bits_descending_congr (a b k : Nat) (h : ∀ j, j < k → a.testBit j = b.testBit j) :
    set_bits_descending k a = set_bits_descending k b := by
  unfold set_bits_descending
  congr 1
  apply List.filter_congr
  intro j hj
  exact h j (List.mem_range.mp hj)

theorem set_bits_descending_zero (k : Nat) : set_bits_descending k 0 = [] := by
  unfold set_bits_descending
  simp

/-- The loop visits the set bits of `status`, highest first, and ends. -/
theorem status_loop_offsets_spec : ∀ (fuel status : Nat), fuel ≤ 32 →
    (∀ j, fuel ≤ j → status.testBit j = false) →
    status_loop_offsets fuel status = (set_bits_descending fuel status, true) := by
  intro fuel
  induction fuel with
  | zero =>
    intro status _ hhigh
    have h0 : status = 0 := no_bits_eq_zero status (fun j => hhigh j (Nat.zero_le j))
    subst h0
    rfl
  | succ fuel ih =>
    intro status hfuel hhigh
    by_cases h0 : status = 0
    · subst h0
      rw [set_bits_descending_zero]
      simp [status_loop_offsets]
    · obtain ⟨m, hoff, hmlt, hbit, hall⟩ := offset_spec (fuel + 1) status hfuel hhigh h0
      have hm32 : m < 32 := by omega
      have hstep := status_step_testBit status m hm32 hall
      have hhigh1 : ∀ j, fuel ≤ j → (status &&& clear_mask m).testBit j = false := by
        intro j hj
        rw [hstep]
        by_cases hjm : j = m
        · simp [hjm]
        · rw [hall j (by omega)]; rfl
      have hrec := ih (status &&& clear_mask m) (by omega) hhigh1
      simp only [status_loop_offsets, if_neg h0, hoff, if_pos hm32, hrec]
      have e1 : set_bits_descending (fuel + 1) status = set_bits_descending (m + 1) status :=
        set_bits_descending_trim status (m + 1) (fuel + 1) (by omega)
          (fun j h1 _ => hall j (by omega))
      have e2 : set_bits_descending fuel (status &&& clear_mask m) =
          set_bits_descending m (status &&& clear_mask m) :=
        set_bits_descending_trim _ m fuel (by omega) (fun j h1 _ => by
          rw [hstep]
          by_cases hjm : j = m
          · simp [hjm]
          · rw [hall j (by omega)]; rfl)
      have e3 : set_bits_descending m (status &&& clear_mask m) = set_bits_descending m status :=
        set_bits_descending_congr _ _ m (fun j hj => by
          rw [hstep]
          have : j ≠ m := by omega
          simp [this])
      rw [e1, set_bits_descending_succ, if_pos hbit, e2, e3]

/-- The loop of `rockchip_set_system_status` runs its body on the offsets
visited, in order. -/
theorem set_status_loop_eq_fold : ∀ (fuel status : Nat) (st : SysState),
    set_status_loop fuel status st =
      if (status_loop_offsets fuel status).2 = true then
        some ((status_loop_offsets fuel status).1.foldl (fun s m => set_status_bit m s) st)
      else none := by
  intro fuel
  induction fuel with
  | zero =>
    intro status st
    by_cases h0 : status = 0
    · simp [set_status_loop, status_loop_offsets, h0]
    · simp [set_status_loop, status_loop_offsets, h0]
  | succ fuel ih =>
    intro status st
    by_cases h0 : status = 0
    · simp [set_status_loop, status_loop_offsets, h0]
    · by_cases h32 : status_offset status < 32
      · simp only [set_status_loop, status_loop_offsets, if_neg h0, if_pos h32, ih,
          List.foldl_cons]
      · simp [set_status_loop, status_loop_offsets, h0, h32]

/-- The loop of `rockchip_clear_system_status` runs its body on the offsets
visited, in order. -/
theorem clear_status_loop_eq_fold : ∀ (fuel status : Nat) (st : SysState),
    clear_status_loop fuel status st =
      if (status_loop_offsets fuel status).2 = true then
        some ((status_loop_offsets fuel status).1.foldl (fun s m => clear_status_bit m s) st)
      else none := by
  intro fuel
  induction fuel with
  | zero =>
    intro status st
    by_cases h0 : status = 0
    · simp [clear_status_loop, status_loop_offsets, h0]
    · simp [clear_status_loop, status_loop_offsets, h0]
  | succ fuel ih =>
    intro status st
    by_cases h0 : status = 0
    · simp [clear_status_loop, status_loop_offsets, h0]
    · by_cases h32 : status_offset status < 32
      · simp only [clear_status_loop, status_loop_offsets, if_neg h0, if_pos h32, ih,
          List.foldl_cons]
      · simp [clear_status_loop, status_loop_offsets, h0, h32]

theorem status_loop_offsets_zero (fuel : Nat) : status_loop_offsets fuel 0 = ([], true) := by
  cases fuel <;> simp [status_loop_offsets]

/-- A scan that ended used as many iterations as it visited offsets, and any
larger bound gives the same scan. -/
theorem status_loop_offsets_fuel : ∀ (fuel status : Nat) (l : List Nat),
    status_loop_offsets fuel status = (l, true) →
    l.length ≤ fuel ∧
      ∀ fuel', l.length ≤ fuel' → status_loop_offsets fuel' status = (l, true) := by
  intro fuel
  induction fuel with
  | zero =>
    intro status l h
    simp only [status_loop_offsets, Prod.mk.injEq, decide_eq_true_eq] at h
    obtain ⟨hl, h0⟩ := h
    subst hl; subst h0
    exact ⟨Nat.le_refl 0, fun fuel' _ => status_loop_offsets_zero fuel'⟩
  | succ fuel ih =>
    intro status l h
    by_cases h0 : status = 0
    · simp only [status_loop_offsets, if_pos h0, Prod.mk.injEq, and_true] at h
      subst h; subst h0
      exact ⟨Nat.zero_le _, fun fuel' _ => status_loop_offsets_zero fuel'⟩
    · by_cases h32 : status_offset status < 32
      · simp only [status_loop_offsets, if_neg h0, if_pos h32, Prod.mk.injEq] at h
        obtain ⟨hl, hend⟩ := h
        obtain ⟨c1, c2⟩ := ih (status &&& clear_mask (status_offset status))
          (status_loop_offsets fuel (status &&& clear_mask (status_offset status))).1
          (by rw [← hend])
        subst hl
        constructor
        · simp only [List.length_cons]; omega
        · intro fuel' hf
          cases fuel' with
          | zero => simp at hf
          | succ f =>
            simp only [List.length_cons, Nat.add_le_add_iff_right] at hf
            simp only [status_loop_offsets, if_neg h0, if_pos h32, c2 f hf]
      · simp [status_loop_offsets, h0, h32] at h

theorem set_bits_descending_length (status : Nat) :
    (set_bits_descending 32 status).length = popcount status := by
  unfold set_bits_descending popcount
  rw [List.length_reverse, List.countP_eq_length_filter]

theorem popcount_le (status : Nat) : popcount status ≤ 32 := by
  unfold popcount
  exact (List.countP_le_length _).trans (by simp)

theorem set_bits_descending_mem (status : Nat) (h : status < 4294967296) (i : Nat) :
    i ∈ set_bits_descending 32 status ↔ status.testBit i = true := by
  unfold set_bits_descending
  rw [List.mem_reverse, List.mem_filter, List.mem_range]
  constructor
  · intro hi; exact hi.2
  · intro hi
    refine ⟨?_, hi⟩
    by_contra hcon
    rw [testBit_high_of_lt status h i (by omega)] at hi
    exact Bool.false_ne_true hi

theorem set_bits_descending_pairwise (k status : Nat) :
    (set_bits_descending k status).Pairwise (fun a b => a > b) := by
  unfold set_bits_descending
  rw [List.pairwise_reverse]
  exact List.Pairwise.filter _ (List.pairwise_lt_range k)

/-- C23: for a status argument below 2^32 the bit-scanning loop shared by
`rockchip_set_system_status` and `rockchip_clear_system_status` ends; the
offsets it computes are the positions of the set bits of `status`, each once,
from the highest to the lowest, so their number is `popcount status`: that many
iterations are enough and fewer are not; every offset, the index used to
access `ref_count`, is below 32; and each of the two loops is its body run on
these offsets in that order. -/
theorem status_loops_visit_set_bits (status : Nat) (h : status < 4294967296) :
    status_loop_offsets 32 status = (set_bits_descending 32 status, true) ∧
    (set_bits_descending 32 status).length = popcount status ∧
    (∀ fuel, popcount status ≤ fuel →
      status_loop_offsets fuel status = (set_bits_descending 32 status, true)) ∧
    (∀ fuel, fuel < popcount status → (status_loop_offsets fuel status).2 = false) ∧
    (set_bits_descending 32 status).Pairwise (fun a b => a > b) ∧
    (∀ i, i ∈ set_bits_descending 32 status ↔ status.testBit i = true) ∧
    (∀ i ∈ set_bits_descending 32 status, i < 32) ∧
    (∀ st, set_status_loop 32 status st =
      some ((set_bits_descending 32 status).foldl (fun s m => set_status_bit m s) st)) ∧
    (∀ st, clear_status_loop 32 status st =
      some ((set_bits_descending 32 status).foldl (fun s m => clear_status_bit m s) st)) := by
  have hspec := status_loop_offsets_spec 32 status (Nat.le_refl 32) (testBit_high_of_lt status h)
  have hlen := set_bits_descending_length status
  obtain ⟨_, hfuel⟩ := status_loop_offsets_fuel 32 status _ hspec
  refine ⟨hspec, hlen, ?_, ?_, set_bits_descending_pairwise 32 status,
    set_bits_descending_mem status h, ?_, ?_, ?_⟩
  · intro fuel hf
    exact hfuel fuel (by rw [hlen]; exact hf)
  · intro fuel hf
    by_contra hcon
    have hend : (status_loop_offsets fuel status).2 = true := by simpa using hcon
    obtain ⟨c1, c2⟩ := status_loop_offsets_fuel fuel status (status_loop_offsets fuel status).1
      (by rw [← hend])
    have h32 := c2 32 (by have := popcount_le status; omega)
    rw [hspec] at h32
    have hl : (status_loop_offsets fuel status).1 = set_bits_descending 32 status :=
      (congrArg Prod.fst h32).symm
    rw [hl, hlen] at c1
    omega
  · intro i hi
    by_contra hcon
    have hb := (set_bits_descending_mem status h i).mp hi
    rw [testBit_high_of_lt status h i (by omega)] at hb
    exact Bool.false_ne_true hb
  · intro st
    rw [set_status_loop_eq_fold, hspec]
    rfl
  · intro st
    rw [clear_status_loop_eq_fold, hspec]
    rfl

/-- Witness of C23 on the mask 0x80000011: the offsets are 31, 4 and 0. -/
theorem status_loops_visit_set_bits_witness :
    (2147483665 : Nat) < 4294967296 ∧
    status_loop_offsets 32 2147483665 = (set_bits_descending 32 2147483665, true) ∧
    set_bits_descending 32 2147483665 = [31, 4, 0] ∧ popcount 2147483665 = 3 :=
  ⟨by decide, (status_loops_visit_set_bits 2147483665 (by decide)).1, by decide, by decide⟩

/-! ## Notifications of the status functions -/

theorem fold_set_status_bit_notified : ∀ (l : List Nat) (st : SysState),
    (l.foldl (fun s m => set_status_bit m s) st).notified = st.notified := by
  intro l
  induction l with
  | nil => intro st; rfl
  | cons m l ih =>
    intro st
    rw [List.foldl_cons, ih, (set_status_bit_frame m st).2]

theorem fold_clear_status_bit_notified : ∀ (l : List Nat) (st : SysState),
    (l.foldl (fun s m => clear_status_bit m s) st).notified = st.notified := by
  intro l
  induction l with
  | nil => intro st; rfl
  | cons m l ih =>
    intro st
    rw [List.foldl_cons, ih, (clear_status_bit_frame m st).2]

/-- The tail of both functions appends the new `system_status` exactly when it
differs from the saved one. -/
theorem notify_if_changed_notified (st st1 : SysState) (h : st1.notified = st.notified) :
    ((notify_if_changed st.system_status st1).system_status ≠ st.system_status →
      (notify_if_changed st.system_status st1).notified =
        st.notified ++ [(notify_if_changed st.system_status st1).system_status]) ∧
    ((notify_if_changed st.system_status st1).system_status = st.system_status →
      (notify_if_changed st.system_status st1).notified = st.notified) := by
  unfold notify_if_changed
  by_cases hc : st.system_status ≠ st1.system_status
  · rw [if_pos hc]
    constructor
    · intro _; simp only; rw [h]
    · intro he; exact absurd he.symm hc
  · rw [if_neg hc]
    have he : st.system_status = st1.system_status := by
      by_contra hne; exact hc hne
    constructor
    · intro hne; exact absurd he.symm hne
    · intro _; exact h

theorem set_status_bit_held (m : Nat) (st : SysState) (h : 0 < st.ref_count m) :
    (set_status_bit m st).system_status = st.system_status := by
  unfold set_status_bit
  have h0 : ¬ st.ref_count m = 0 := by omega
  simp [h0]

theorem clear_status_bit_held (m : Nat) (st : SysState) (h : st.ref_count m ≠ 1) :
    (clear_status_bit m st).system_status = st.system_status := by
  unfold clear_status_bit
  by_cases h0 : st.ref_count m = 0
  · simp [h0]
  · simp [h0, h]

theorem clear_status_bit_unheld (m : Nat) (st : SysState) (h : st.ref_count m = 0) :
    clear_status_bit m st = st := by
  unfold clear_status_bit
  rw [if_pos h]

theorem fold_set_status_bit_held : ∀ (l : List Nat) (st : SysState),
    (∀ m ∈ l, 0 < st.ref_count m) →
    (l.foldl (fun s m => set_status_bit m s) st).system_status = st.system_status := by
  intro l
  induction l with
  | nil => intro st _; rfl
  | cons m l ih =>
    intro st h
    rw [List.foldl_cons, ih, set_status_bit_held m st (h m (List.mem_cons_self m l))]
    intro m1 hm1
    rw [set_status_bit_ref_count]
    have := h m1 (List.mem_cons_of_mem m hm1)
    by_cases he : m1 = m
    · rw [if_pos he]; omega
    · rw [if_neg he]; exact this

theorem fold_clear_status_bit_held : ∀ (l : List Nat) (st : SysState), l.Nodup →
    (∀ m ∈ l, 1 < st.ref_count m) →
    (l.foldl (fun s m => clear_status_bit m s) st).system_status = st.system_status := by
  intro l
  induction l with
  | nil => intro st _ _; rfl
  | cons m l ih =>
    intro st hnd h
    have hm := h m (List.mem_cons_self m l)
    rw [List.foldl_cons, ih _ (List.nodup_cons.mp hnd).2,
      clear_status_bit_held m st (by omega)]
    intro m1 hm1
    rw [clear_status_bit_ref_count]
    have hne : m1 ≠ m := by
      intro he
      rw [he] at hm1
      exact (List.nodup_cons.mp hnd).1 hm1
    rw [if_neg hne]
    exact h m1 (List.mem_cons_of_mem m hm1)

theorem fold_clear_status_bit_unheld : ∀ (l : List Nat) (st : SysState),
    (∀ m ∈ l, st.ref_count m = 0) →
    l.foldl (fun s m => clear_status_bit m s) st = st := by
  intro l
  induction l with
  | nil => intro st _; rfl
  | cons m l ih =>
    intro st h
    rw [List.foldl_cons, clear_status_bit_unheld m st (h m (List.mem_cons_self m l))]
    exact ih st (fun m1 hm1 => h m1 (List.mem_cons_of_mem m hm1))

theorem notify_if_changed_same (st : SysState) :
    notify_if_changed st.system_status st = st := by
  unfold notify_if_changed
  rw [if_neg (fun hne => hne rfl)]

theorem notify_if_unchanged (st st1 : SysState) (h : st1.system_status = st.system_status) :
    notify_if_changed st.system_status st1 = st1 := by
  rw [← h]
  exact notify_if_changed_same st1

theorem set_bits_descending_nodup (k status : Nat) : (set_bits_descending k status).Nodup := by
  have h := set_bits_descending_pairwise k status
  unfold List.Nodup
  exact h.imp (fun hab => Nat.ne_of_gt hab)

/-- C22: whenever `rockchip_set_system_status` or
`rockchip_clear_system_status` returns, the notifier chain has been called once
more, with the new `system_status`, if the call changed `system_status`, and
not at all if `system_status` is what it was; both functions return for every
mask below 2^32; and for such a mask, setting bits whose counters are all
positive, or clearing bits whose counters all stay positive, leaves
`system_status` as it was and calls no notifier. -/
theorem status_notifier_called_once_on_change (status : Nat) (st : SysState) :
    (∀ st', rockchip_set_system_status status st = some st' →
      (st'.system_status ≠ st.system_status →
        st'.notified = st.notified ++ [st'.system_status]) ∧
      (st'.system_status = st.system_status → st'.notified = st.notified)) ∧
    (∀ st', rockchip_clear_system_status status st = some st' →
      (st'.system_status ≠ st.system_status →
        st'.notified = st.notified ++ [st'.system_status]) ∧
      (st'.system_status = st.system_status → st'.notified = st.notified)) ∧
    (status < 4294967296 → ∃ st', rockchip_set_system_status status st = some st') ∧
    (status < 4294967296 → ∃ st', rockchip_clear_system_status status st = some st') ∧
    (status < 4294967296 → (∀ i, status.testBit i = true → 0 < st.ref_count i) →
      ∃ st', rockchip_set_system_status status st = some st' ∧
        st'.system_status = st.system_status ∧ st'.notified = st.notified) ∧
    (status < 4294967296 → (∀ i, status.testBit i = true → 1 < st.ref_count i) →
      ∃ st', rockchip_clear_system_status status st = some st' ∧
        (∀ i, status.testBit i = true → 0 < st'.ref_count i) ∧
        st'.system_status = st.system_status ∧ st'.notified = st.notified) := by
  refine ⟨?_, ?_, ?_, ?_, ?_, ?_⟩
  · intro st' hrun
    unfold rockchip_set_system_status at hrun
    rw [set_status_loop_eq_fold] at hrun
    by_cases hend : (status_loop_offsets 32 status).2 = true
    · rw [if_pos hend] at hrun
      simp only [Option.map_some', Option.some.injEq] at hrun
      rw [← hrun]
      exact notify_if_changed_notified st _ (fold_set_status_bit_notified _ st)
    · rw [if_neg hend] at hrun
      simp at hrun
  · intro st' hrun
    unfold rockchip_clear_system_status at hrun
    rw [clear_status_loop_eq_fold] at hrun
    by_cases hend : (status_loop_offsets 32 status).2 = true
    · rw [if_pos hend] at hrun
      simp only [Option.map_some', Option.some.injEq] at hrun
      rw [← hrun]
      exact notify_if_changed_notified st _ (fold_clear_status_bit_notified _ st)
    · rw [if_neg hend] at hrun
      simp at hrun
  · intro h
    obtain ⟨st', hrun, _⟩ := rockchip_set_system_status_spec status st h
    exact ⟨st', hrun⟩
  · intro h
    obtain ⟨st', hrun, _⟩ := rockchip_clear_system_status_spec status st h
    exact ⟨st', hrun⟩
  · intro h hheld
    have hspec := status_loop_offsets_spec 32 status (Nat.le_refl 32)
      (testBit_high_of_lt status h)
    have hsame : ((set_bits_descending 32 status).foldl
        (fun s m => set_status_bit m s) st).system_status = st.system_status :=
      fold_set_status_bit_held _ st
        (fun m hm => hheld m ((set_bits_descending_mem status h m).mp hm))
    have hnot := fold_set_status_bit_notified (set_bits_descending 32 status) st
    refine ⟨_, ?_, hsame, hnot⟩
    unfold rockchip_set_system_status
    rw [set_status_loop_eq_fold, hspec]
    simp only [if_true, Option.map_some', Option.some.injEq]
    exact notify_if_unchanged st _ hsame
  · intro h hheld
    have hspec := status_loop_offsets_spec 32 status (Nat.le_refl 32)
      (testBit_high_of_lt status h)
    have hsame : ((set_bits_descending 32 status).foldl
        (fun s m => clear_status_bit m s) st).system_status = st.system_status :=
      fold_clear_status_bit_held _ st (set_bits_descending_nodup 32 status)
        (fun m hm => hheld m ((set_bits_descending_mem status h m).mp hm))
    have hnot := fold_clear_status_bit_notified (set_bits_descending 32 status) st
    obtain ⟨st2, hrun2, hrc, _⟩ := rockchip_clear_system_status_spec status st h
    have hrun : rockchip_clear_system_status status st =
        some ((set_bits_descending 32 status).foldl (fun s m => clear_status_bit m s) st) := by
      unfold rockchip_clear_system_status
      rw [clear_status_loop_eq_fold, hspec]
      simp only [if_true, Option.map_some', Option.some.injEq]
      exact notify_if_unchanged st _ hsame
    refine ⟨_, hrun, ?_, hsame, hnot⟩
    intro i hi
    rw [hrun] at hrun2
    simp only [Option.some.injEq] at hrun2
    rw [hrun2, hrc i, if_pos hi]
    have := hheld i hi
    omega

/-- C24: for a mask `s` below 2^32 all of whose bits have a zero counter,
`rockchip_clear_system_status(s)` returns and leaves the whole state as it
was: `system_status`, every `ref_count` entry (none is decremented) and the
record of notifications. -/
theorem clear_unheld_status_is_noop (s : Nat) (st : SysState) (hs : s < 4294967296)
    (hfree : ∀ i, s.testBit i = true → st.ref_count i = 0) :
    ∃ st', rockchip_clear_system_status s st = some st' ∧
      st'.system_status = st.system_status ∧ (∀ i, st'.ref_count i = st.ref_count i) ∧
      st'.notified = st.notified ∧ st' = st := by
  refine ⟨st, ?_, rfl, fun _ => rfl, rfl, rfl⟩
  unfold rockchip_clear_system_status
  rw [clear_status_loop_eq_fold,
    status_loop_offsets_spec 32 s (Nat.le_refl 32) (testBit_high_of_lt s hs)]
  simp only [if_true, Option.map_some', Option.some.injEq]
  rw [fold_clear_status_bit_unheld _ st
    (fun m hm => hfree m ((set_bits_descending_mem s hs m).mp hm))]
  exact notify_if_changed_same st

/-- Witness of C24: clearing the mask 0x30 in the initial state. -/
theorem clear_unheld_status_is_noop_witness :
    (48 : Nat) < 4294967296 ∧
    (∀ i, (48 : Nat).testBit i = true → SysState.init.ref_count i = 0) ∧
    ∃ st', rockchip_clear_system_status 48 SysState.init = some st' ∧
      st'.system_status = SysState.init.system_status ∧
      (∀ i, st'.ref_count i = SysState.init.ref_count i) ∧
      st'.notified = SysState.init.notified ∧ st' = SysState.init :=
  ⟨by decide, fun _ _ => rfl,
    clear_unheld_status_is_noop 48 SysState.init (by decide) (fun _ _ => rfl)⟩

/-! ## Messages with a wrong number of fields -/

/-- The scan of `rockchip_parse_video_info` counts the commas of the string it
runs over. -/
theorem count_separators_eq_count (l : List Char) : count_separators l = l.count (',') := by
  induction l with
  | nil => rfl
  | cons ch rest ih =>
    by_cases hc : ch = ','
    · subst hc
      simp [count_separators, ih]
    · have hne : (ch == ',') = false := by simpa using hc
      simp only [count_separators, if_neg hc, ih, List.count_cons, hne]
      simp

/-- C26: for a buffer with first character `c` and remaining characters
`rest`, if the number of commas in `rest` (the commas at index 1 or later) is
not 5, `rockchip_parse_video_info` returns `NULL`, and
`rockchip_update_system_status` called with the buffer, when `c` is `0` or `1`,
returns and leaves the whole state as it was: the video list, `system_status`
and every `ref_count` entry. -/
theorem parse_video_info_rejects_field_count (K : SysStatusBits) (c : Char)
    (rest : List Char) (st : SysState) (hcount : rest.count (',') ≠ 5) :
    rockchip_parse_video_info (c :: rest) = none ∧
    ((c = '0' ∨ c = '1') →
      ∃ st', rockchip_update_system_status K (some (c :: rest)) st = some st' ∧
        st'.video_info_list = st.video_info_list ∧
        st'.system_status = st.system_status ∧
        (∀ i, st'.ref_count i = st.ref_count i) ∧ st' = st) := by
  have hparse : rockchip_parse_video_info (c :: rest) = none := by
    unfold rockchip_parse_video_info
    rw [List.tail_cons, count_separators_eq_count, if_pos hcount]
  refine ⟨hparse, ?_⟩
  intro hc
  refine ⟨st, ?_, rfl, rfl, fun _ => rfl, rfl⟩
  rcases hc with hc | hc
  · subst hc
    simp [rockchip_update_system_status, rockchip_find_video_info, hparse]
  · subst hc
    simp [rockchip_update_system_status, hparse]

/-- Witness of C26: a message with two fields only. -/
theorem parse_video_info_rejects_field_count_witness :
    (",width=1920,height=1080".toList).count (',') ≠ 5 ∧
    rockchip_parse_video_info ('1' :: ",width=1920,height=1080".toList) = none ∧
    (('1' = '0' ∨ '1' = '1') →
      ∃ st', rockchip_update_system_status status_bits
          (some ('1' :: ",width=1920,height=1080".toList)) SysState.init = some st' ∧
        st'.video_info_list = SysState.init.video_info_list ∧
        st'.system_status = SysState.init.system_status ∧
        (∀ i, st'.ref_count i = SysState.init.ref_count i) ∧ st' = SysState.init) :=
  ⟨by decide,
    parse_video_info_rejects_field_count status_bits ('1') ",width=1920,height=1080".toList
      SysState.init (by decide)⟩

/-! ## Frequency limits of the temperature OPP table -/

/-- In a list sorted by rate the search finds the first OPP that is not below
the rate asked for. -/
theorem find_freq_ceil_sorted (pre post : List DevPmOpp) (opp : DevPmOpp) (r : Nat)
    (hpre : ∀ x ∈ pre, x.rate < r) (hopp : r ≤ opp.rate) :
    dev_pm_opp_find_freq_ceil (pre ++ opp :: post) r = some opp := by
  unfold dev_pm_opp_find_freq_ceil
  rw [List.find?_append]
  have hnone : pre.find? (fun o => decide (o.rate ≥ r)) = none := by
    rw [List.find?_eq_none]
    intro x hx
    have := hpre x hx
    simp only [decide_eq_true_eq]
    omega
  rw [hnone]
  simp only [Option.none_or]
  rw [List.find?_cons_of_pos]
  simp only [decide_eq_true_eq]
  exact hopp

/-- On OPPs sorted by strictly increasing rate the loop visits them in order
and ends with `ret == 0`, the last OPP of the list being the last one found. -/
theorem init_temp_opp_loop_sorted : ∀ (post pre : List DevPmOpp) (r : Nat) (s : TempOppLoop)
    (last : Option DevPmOpp),
    (pre ++ post).Pairwise (fun a b => a.rate < b.rate) →
    (∀ x ∈ pre ++ post, x.rate < 18446744073709551616) →
    (post ≠ [] → ∀ x ∈ pre, x.rate < r) →
    (∀ o ∈ post.head?, r ≤ o.rate) →
    init_temp_opp_loop (pre ++ post) post.length r s last =
      (init_temp_opp_steps post s).map
        (fun s1 => ((0 : Int), s1,
          match post.getLast? with
          | some o => some o
          | none => last)) := by
  intro post
  induction post with
  | nil =>
    intro pre r s last _ _ _ _
    simp [init_temp_opp_loop, init_temp_opp_steps]
  | cons opp post ih =>
    intro pre r s last hsorted hbound hpre hhead
    have hfind : dev_pm_opp_find_freq_ceil (pre ++ opp :: post) r = some opp :=
      find_freq_ceil_sorted pre post opp r (hpre (List.cons_ne_nil opp post))
        (hhead opp (by simp))
    simp only [List.length_cons, init_temp_opp_loop, hfind, init_temp_opp_steps]
    cases hs : init_temp_opp_step opp s with
    | none => simp
    | some s1 =>
      simp only [Option.some_bind]
      have e : pre ++ opp :: post = (pre ++ [opp]) ++ post := by simp
      rw [e]
      rw [e] at hsorted hbound
      have hrec := ih (pre ++ [opp]) ((opp.rate + 1) % 18446744073709551616) s1 (some opp)
        hsorted hbound ?_ ?_
      · rw [hrec, List.getLast?_cons]
        cases post.getLast? <;> rfl
      · intro hne x hx
        obtain ⟨o1, rest, hpost⟩ := List.exists_cons_of_ne_nil hne
        have hb1 : o1.rate < 18446744073709551616 :=
          hbound o1 (by rw [hpost]; simp)
        have hlt : opp.rate < o1.rate := by
          rw [hpost] at hsorted
          have := List.pairwise_append.mp hsorted
          exact this.2.2 opp (by simp) o1 (by simp)
        rw [Nat.mod_eq_of_lt (by omega)]
        rcases List.mem_append.mp hx with hx | hx
        · have h1 := hpre (List.cons_ne_nil opp post) x hx
          have h2 := hhead opp (by simp)
          omega
        · simp only [List.mem_singleton] at hx
          rw [hx]; omega
      · intro o1 ho1
        cases post with
        | nil => simp at ho1
        | cons o2 rest =>
          simp only [List.head?_cons, Option.mem_def, Option.some.injEq] at ho1
          subst ho1
          have hb1 : o2.rate < 18446744073709551616 := hbound o2 (by simp)
          have hlt : opp.rate < o2.rate := by
            have := List.pairwise_append.mp hsorted
            exact this.2.2 opp (by simp) o2 (by simp)
          rw [Nat.mod_eq_of_lt (by omega)]
          omega

theorem high_limit_step_spec (opp : DevPmOpp) (s : TempOppLoop) :
    (high_limit_step opp s).high_temp_max_volt = s.info.high_temp_max_volt ∧
    same_volt_config (high_limit_step opp s) s.info ∧
    (high_limit_step opp s).low_limit = s.info.low_limit ∧
    ((high_limit_step opp s).high_limit = s.info.high_limit ∨
      ((high_limit_step opp s).high_limit = opp.rate ∧
        opp.u_volt ≤ s.info.high_temp_max_volt)) := by
  unfold high_limit_step
  by_cases h : opp.u_volt ≤ s.info.high_temp_max_volt ∧ ¬ s.reach_high_temp_max_volt = true
  · rw [if_pos h]
    exact ⟨rfl, ⟨rfl, rfl, rfl⟩, rfl, Or.inr ⟨rfl, h.1⟩⟩
  · rw [if_neg h]
    exact ⟨rfl, ⟨rfl, rfl, rfl⟩, rfl, Or.inl rfl⟩

/-- One iteration keeps the configuration and leaves in each limit 0 or the
rate of an OPP that qualifies. -/
theorem init_temp_opp_step_limits (opps : List DevPmOpp) (info0 : MonitorDevInfo)
    (opp : DevPmOpp) (hopp : opp ∈ opps) (s s1 : TempOppLoop)
    (hmax : s.info.high_temp_max_volt = info0.high_temp_max_volt)
    (hcfg : same_volt_config s.info info0)
    (hhigh : high_limit_source opps info0 s.info.high_limit)
    (hlow : low_limit_source opps info0 s.info.low_limit)
    (hstep : init_temp_opp_step opp s = some s1) :
    s1.info.high_temp_max_volt = info0.high_temp_max_volt ∧
    same_volt_config s1.info info0 ∧
    high_limit_source opps info0 s1.info.high_limit ∧
    low_limit_source opps info0 s1.info.low_limit := by
  simp only [init_temp_opp_step] at hstep
  obtain ⟨a1, a2, a3, a4⟩ := high_limit_step_spec opp s
  generalize high_limit_step opp s = info1 at hstep a1 a2 a3 a4
  have hcfg1 : same_volt_config info1 info0 :=
    ⟨a2.1.trans hcfg.1, a2.2.1.trans hcfg.2.1, a2.2.2.trans hcfg.2.2⟩
  have hhigh1 : high_limit_source opps info0 info1.high_limit := by
    rcases a4 with h | ⟨h, hv⟩
    · rw [h]; exact hhigh
    · exact Or.inr ⟨opp, hopp, h.symm, by rw [← hmax]; exact hv⟩
  cases hd : low_temp_delta info1 opp.rate s.delta_volt with
  | none => rw [hd] at hstep; simp at hstep
  | some delta =>
    rw [hd] at hstep
    simp only [Option.some.injEq] at hstep
    subst hstep
    simp only
    by_cases hfit : decide (volt_plus_delta opp.u_volt delta ≤ info1.max_volt) = true ∧
        ¬ s.reach_max_volt = true
    · rw [if_pos hfit]
      refine ⟨a1.trans hmax, hcfg1, hhigh1, Or.inr ⟨opp, hopp, rfl, delta, ?_, ?_⟩⟩
      · rw [← low_temp_delta_config info1 info0 hcfg1, ← low_temp_delta_initial, hd]
      · have := hfit.1
        simp only [decide_eq_true_eq] at this
        rw [← hcfg1.2.1]; exact this
    · rw [if_neg hfit]
      refine ⟨a1.trans hmax, hcfg1, hhigh1, ?_⟩
      rw [a3]; exact hlow

theorem init_temp_opp_steps_limits (opps : List DevPmOpp) (info0 : MonitorDevInfo) :
    ∀ (l : List DevPmOpp) (s s1 : TempOppLoop), (∀ o ∈ l, o ∈ opps) →
    s.info.high_temp_max_volt = info0.high_temp_max_volt →
    same_volt_config s.info info0 →
    high_limit_source opps info0 s.info.high_limit →
    low_limit_source opps info0 s.info.low_limit →
    init_temp_opp_steps l s = some s1 →
    high_limit_source opps info0 s1.info.high_limit ∧
      low_limit_source opps info0 s1.info.low_limit := by
  intro l
  induction l with
  | nil =>
    intro s s1 _ _ _ hh hl hrun
    simp only [init_temp_opp_steps, Option.some.injEq] at hrun
    subst hrun
    exact ⟨hh, hl⟩
  | cons opp rest ih =>
    intro s s1 hmem hmax hcfg hh hl hrun
    simp only [init_temp_opp_steps] at hrun
    cases hs : init_temp_opp_step opp s with
    | none => rw [hs] at hrun; simp at hrun
    | some s2 =>
      rw [hs] at hrun
      simp only [Option.some_bind] at hrun
      obtain ⟨b1, b2, b3, b4⟩ := init_temp_opp_step_limits opps info0 opp
        (hmem opp (List.mem_cons_self opp rest)) s s2 hmax hcfg hh hl hs
      exact ih s2 s1 (fun o ho => hmem o (List.mem_cons_of_mem opp ho)) b1 b2 b3 b4 hrun

/-- In a list sorted by strictly increasing rate, an OPP whose rate is not that
of the last one has a lower rate than the last one. -/
theorem rate_below_last (opps : List DevPmOpp) (last opp : DevPmOpp)
    (hsorted : opps.Pairwise (fun a b => a.rate < b.rate))
    (hlast : opps.getLast? = some last) (hopp : opp ∈ opps) (hne : opp.rate ≠ last.rate) :
    last ∈ opps ∧ opp.rate < last.rate := by
  have hmem : last ∈ opps := List.mem_of_getLast?_eq_some hlast
  refine ⟨hmem, ?_⟩
  have hsplit : opps = opps.dropLast ++ [last] := by
    have := List.dropLast_append_getLast? last hlast
    exact this.symm
  rw [hsplit] at hopp hsorted
  rcases List.mem_append.mp hopp with h | h
  · exact (List.pairwise_append.mp hsorted).2.2 opp h last (by simp)
  · simp only [List.mem_singleton] at h
    rw [h] at hne
    exact absurd rfl hne

/-- The sum of the source bounds the mathematical sum whenever the latter is a
value of `unsigned long` or negative. -/
theorem volt_plus_delta_bound (u_volt : Nat) (delta : Int) (max_volt : Nat)
    (h : volt_plus_delta u_volt delta ≤ max_volt)
    (h1 : (u_volt : Int) + delta < 18446744073709551616) :
    (u_volt : Int) + delta ≤ (max_volt : Int) := by
  by_cases h0 : 0 ≤ (u_volt : Int) + delta
  · rw [← volt_plus_delta_exact u_volt delta h0 h1]
    exact_mod_cast h
  · omega

/-- C21: after a successful `rockchip_init_temp_opp_table` (return value 0) on
a record whose `low_limit` and `high_limit` are still zero, for OPPs listed by
strictly increasing rate (`unsigned long` rates), `high_limit` is 0 or the rate
of an OPP whose voltage is at most `high_temp_max_volt` and above which another
OPP exists; `low_limit` is 0 or the rate of such an OPP, not the highest one,
whose voltage plus `delta` is at most `max_volt`, `delta` being what the lookup
`rockchip_get_low_temp_volt` gives for its rate (0 when it fails). The sum is
the `unsigned long` sum of the source; the bound holds for the mathematical sum
too unless that sum is 2^64 or more. -/
theorem temp_opp_table_limits (opps : List DevPmOpp) (info info1 : MonitorDevInfo)
    (hsorted : opps.Pairwise (fun a b => a.rate < b.rate))
    (hrate : ∀ opp ∈ opps, opp.rate < 18446744073709551616)
    (hlow : info.low_limit = 0) (hhigh : info.high_limit = 0)
    (hrun : rockchip_init_temp_opp_table opps info = some (0, info1)) :
    (info1.high_limit = 0 ∨ ∃ opp ∈ opps, opp.rate = info1.high_limit ∧
        opp.u_volt ≤ info.high_temp_max_volt ∧ ∃ top ∈ opps, opp.rate < top.rate) ∧
    (info1.low_limit = 0 ∨ ∃ opp ∈ opps, opp.rate = info1.low_limit ∧
        (∃ delta, low_temp_delta info opp.rate 0 = some delta ∧
          volt_plus_delta opp.u_volt delta ≤ info.max_volt ∧
          ((opp.u_volt : Int) + delta < 18446744073709551616 →
            (opp.u_volt : Int) + delta ≤ (info.max_volt : Int))) ∧
        ∃ top ∈ opps, opp.rate < top.rate) := by
  unfold rockchip_init_temp_opp_table at hrun
  by_cases h0 : opps.length = 0
  · rw [if_pos h0] at hrun
    simp [ENODATA] at hrun
  · rw [if_neg h0] at hrun
    have hloop := init_temp_opp_loop_sorted opps [] 0
      { info := info, table := [], delta_volt := 0, reach_max_volt := false,
        reach_high_temp_max_volt := false } none
      (by simpa using hsorted) (by simpa using hrate) (fun _ x hx => by cases hx)
      (fun o _ => Nat.zero_le _)
    rw [List.nil_append] at hloop
    rw [hloop] at hrun
    cases hsteps : init_temp_opp_steps opps
        { info := info, table := [], delta_volt := 0, reach_max_volt := false,
          reach_high_temp_max_volt := false } with
    | none => rw [hsteps] at hrun; simp at hrun
    | some s =>
      rw [hsteps] at hrun
      obtain ⟨ih, il⟩ := init_temp_opp_steps_limits opps info opps _ s (fun o ho => ho) rfl
        (same_volt_config_refl info) (Or.inl hhigh) (Or.inl hlow) hsteps
      have hne : opps ≠ [] := fun he => h0 (by rw [he]; rfl)
      cases hlast : opps.getLast? with
      | none => exact absurd (List.getLast?_eq_none_iff.mp hlast) hne
      | some last =>
        rw [hlast] at hrun
        simp only [Option.map_some', ne_eq, not_true_eq_false, if_false, Option.some.injEq,
          Prod.mk.injEq, true_and] at hrun
        constructor
        · have hv : info1.high_limit =
              if s.info.high_limit = last.rate then 0 else s.info.high_limit := by
            rw [← hrun]
            by_cases c1 : s.info.low_limit = last.rate <;>
              by_cases c2 : s.info.high_limit = last.rate <;> simp [c1, c2]
          by_cases c : s.info.high_limit = last.rate
          · left; rw [hv, if_pos c]
          · rw [if_neg c] at hv
            rcases ih with hz | ⟨opp, hopp, hr, hvolt⟩
            · left; rw [hv]; exact hz
            · right
              obtain ⟨hm, hlt⟩ := rate_below_last opps last opp hsorted hlast hopp
                (by rw [hr]; exact c)
              exact ⟨opp, hopp, by rw [hv]; exact hr, hvolt, last, hm, hlt⟩
        · have hv : info1.low_limit =
              if s.info.low_limit = last.rate then 0 else s.info.low_limit := by
            rw [← hrun]
            by_cases c1 : s.info.low_limit = last.rate <;>
              by_cases c2 : s.info.high_limit = last.rate <;> simp [c1, c2]
          by_cases c : s.info.low_limit = last.rate
          · left; rw [hv, if_pos c]
          · rw [if_neg c] at hv
            rcases il with hz | ⟨opp, hopp, hr, delta, hd, hfit⟩
            · left; rw [hv]; exact hz
            · right
              obtain ⟨hm, hlt⟩ := rate_below_last opps last opp hsorted hlast hopp
                (by rw [hr]; exact c)
              exact ⟨opp, hopp, by rw [hv]; exact hr,
                ⟨delta, hd, hfit, volt_plus_delta_bound opp.u_volt delta info.max_volt hfit⟩,
                last, hm, hlt⟩

/-- Witness of C21 on three OPPs: `high_limit` is the rate of the second one,
`low_limit` is 0. -/
theorem temp_opp_table_limits_witness :
    sample_opps.Pairwise (fun a b => a.rate < b.rate) ∧
    (∀ opp ∈ sample_opps, opp.rate < 18446744073709551616) ∧
    opp_info.low_limit = 0 ∧ opp_info.high_limit = 0 ∧
    rockchip_init_temp_opp_table sample_opps opp_info = some (0, sample_opp_result) ∧
    sample_opp_result.high_limit = 600000000 ∧ sample_opp_result.low_limit = 0 ∧
    (sample_opp_result.high_limit = 0 ∨ ∃ opp ∈ sample_opps,
        opp.rate = sample_opp_result.high_limit ∧
        opp.u_volt ≤ opp_info.high_temp_max_volt ∧ ∃ top ∈ sample_opps, opp.rate < top.rate) :=
  ⟨by decide, by decide, rfl, rfl, rfl, rfl, rfl,
    (temp_opp_table_limits sample_opps opp_info sample_opp_result (by decide) (by decide)
      rfl rfl rfl).1⟩

/-! ## The cap left by registration -/

/-- A record that `monitor_device_parse_dt` has filled in is no longer zeroed:
registering a device while the thermal zone reads 90000 millidegrees, above
`high_temp`, leaves a record with `wide_temp_limit` 600000000 and both flags
clear, and calls of `rockchip_system_monitor_wide_temp_adjust` at 40000
millidegrees, inside the band, leave it so. -/
theorem registration_caps_without_flag :
    rockchip_system_monitor_register (some sample_props) sample_opps 0 90000 =
      some (some capped_at_registration) ∧
    rockchip_system_monitor_wide_temp_init
      { capped_at_registration with wide_temp_limit := 0 } 0 90000 = capped_at_registration ∧
    capped_at_registration.wide_temp_limit = 600000000 ∧
    capped_at_registration.is_low_temp = false ∧
    capped_at_registration.is_high_temp = false ∧
    run_wide_temp_calls dev_profile [WideTempCall.adjust 40000, WideTempCall.adjust 40000]
      capped_at_registration = capped_at_registration :=
  ⟨rfl, rfl, rfl, rfl, rfl, rfl⟩

end SystemMonitor

namespace NormDesc

/-! ## Receive and transmit status -/

/-- C13: `ndesc_get_rx_status` returns `dma_own` if and only if `RDES0_OWN` is
set in `des0`; it returns `good_frame` if and only if `RDES0_OWN` is clear,
`RDES0_LAST_DESCRIPTOR` is set and none of `RDES0_ERROR_SUMMARY`,
`RDES0_LENGTH_ERROR`, `RDES0_MII_ERROR` is set; in every remaining case it
returns `discard_frame`. -/
theorem rx_status_classification (vlan_tag_used : Bool) (c : Counters) (p : DmaDesc) :
    ((ndesc_get_rx_status vlan_tag_used c p).1 = dma_own ↔ p.des0 &&& RDES0_OWN ≠ 0) ∧
    ((ndesc_get_rx_status vlan_tag_used c p).1 = good_frame ↔
      (p.des0 &&& RDES0_OWN = 0 ∧ p.des0 &&& RDES0_LAST_DESCRIPTOR ≠ 0 ∧
        p.des0 &&& RDES0_ERROR_SUMMARY = 0 ∧ p.des0 &&& RDES0_LENGTH_ERROR = 0 ∧
        p.des0 &&& RDES0_MII_ERROR = 0)) ∧
    (p.des0 &&& RDES0_OWN = 0 →
      ¬ (p.des0 &&& RDES0_LAST_DESCRIPTOR ≠ 0 ∧ p.des0 &&& RDES0_ERROR_SUMMARY = 0 ∧
        p.des0 &&& RDES0_LENGTH_ERROR = 0 ∧ p.des0 &&& RDES0_MII_ERROR = 0) →
      (ndesc_get_rx_status vlan_tag_used c p).1 = discard_frame) := by
  unfold ndesc_get_rx_status
  by_cases h1 : p.des0 &&& RDES0_OWN = 0 <;>
  by_cases h2 : p.des0 &&& RDES0_LAST_DESCRIPTOR = 0 <;>
  by_cases h3 : p.des0 &&& RDES0_ERROR_SUMMARY = 0 <;>
  by_cases h4 : p.des0 &&& RDES0_LENGTH_ERROR = 0 <;>
  by_cases h5 : p.des0 &&& RDES0_MII_ERROR = 0 <;>
  simp [h1, h2, h3, h4, h5, dma_own, good_frame, discard_frame]

/-- C16: `ndesc_get_tx_status` returns -1 if and only if `TDES0_ERROR_SUMMARY` is
set in `des0`, and 0 otherwise, whatever the other bits of `des0`, the other
words of the descriptor and the counters are. -/
theorem tx_status_return (c : Counters) (p : DmaDesc) :
    ((ndesc_get_tx_status c p).1 = -1 ↔ p.des0 &&& TDES0_ERROR_SUMMARY ≠ 0) ∧
    (p.des0 &&& TDES0_ERROR_SUMMARY = 0 → (ndesc_get_tx_status c p).1 = 0) ∧
    (∀ (c1 : Counters) (q : DmaDesc),
      q.des0 &&& TDES0_ERROR_SUMMARY = p.des0 &&& TDES0_ERROR_SUMMARY →
      (ndesc_get_tx_status c1 q).1 = (ndesc_get_tx_status c p).1) := by
  have key : ∀ (c0 : Counters) (r : DmaDesc), (ndesc_get_tx_status c0 r).1 =
      if r.des0 &&& TDES0_ERROR_SUMMARY ≠ 0 then -1 else 0 := by
    intro c0 r
    unfold ndesc_get_tx_status
    by_cases h : r.des0 &&& TDES0_ERROR_SUMMARY = 0 <;> simp [h]
  refine ⟨?_, ?_, ?_⟩
  · rw [key]
    by_cases h : p.des0 &&& TDES0_ERROR_SUMMARY = 0 <;> simp [h]
  · intro h
    rw [key]; simp [h]
  · intro c1 q hq
    rw [key, key, hq]

/-! ## Frame length and time stamp -/

theorem frame_len_field_bound (des0 : Nat) :
    (des0 &&& RDES0_FRAME_LEN_MASK) >>> RDES0_FRAME_LEN_SHIFT ≤ 16383 := by
  have h1 : des0 &&& RDES0_FRAME_LEN_MASK ≤ RDES0_FRAME_LEN_MASK := Nat.and_le_right
  have h2 : RDES0_FRAME_LEN_MASK = 1073676288 := by decide
  have h3 : RDES0_FRAME_LEN_SHIFT = 16 := rfl
  rw [h3, Nat.shiftRight_eq_div_pow]
  generalize des0 &&& RDES0_FRAME_LEN_MASK = m at h1
  rw [h2] at h1
  omega

/-- C14: `ndesc_get_rx_frame_len(p, rx_coe_type)` returns the frame-length field
`(des0 & RDES0_FRAME_LEN_MASK) >> RDES0_FRAME_LEN_SHIFT`, less 2 when
`rx_coe_type == STMMAC_RX_COE_TYPE1` and as it is for every other
`rx_coe_type`; two descriptors that agree on the bits of the field give the
same result. -/
theorem rx_frame_len_is_field (p : DmaDesc) (rx_coe_type : Int) :
    ndesc_get_rx_frame_len p rx_coe_type =
      (((p.des0 &&& RDES0_FRAME_LEN_MASK) >>> RDES0_FRAME_LEN_SHIFT : Nat) : Int) -
        (if rx_coe_type = STMMAC_RX_COE_TYPE1 then 2 else 0) ∧
    (∀ q : DmaDesc, q.des0 &&& RDES0_FRAME_LEN_MASK = p.des0 &&& RDES0_FRAME_LEN_MASK →
      ndesc_get_rx_frame_len q rx_coe_type = ndesc_get_rx_frame_len p rx_coe_type) := by
  constructor
  · have hb := frame_len_field_bound p.des0
    unfold ndesc_get_rx_frame_len to_int SystemMonitor.wrap_int
    generalize (p.des0 &&& RDES0_FRAME_LEN_MASK) >>> RDES0_FRAME_LEN_SHIFT = f at hb
    by_cases ht : rx_coe_type = STMMAC_RX_COE_TYPE1
    · simp only [ht, if_true]
      omega
    · simp only [ht, if_false]
      omega
  · intro q hq
    unfold ndesc_get_rx_frame_len
    rw [hq]

/-- C15: for 32-bit `des2` and `des3` (and any `ats`) `ndesc_get_timestamp`
returns `des2 + des3 * 1000000000` as a natural number: the 64-bit computation
does not wrap. -/
theorem timestamp_exact (desc : DmaDesc) (ats : Nat)
    (h2 : desc.des2 < 4294967296) (h3 : desc.des3 < 4294967296) :
    ndesc_get_timestamp desc ats = desc.des2 + desc.des3 * 1000000000 := by
  simp only [ndesc_get_timestamp]
  omega

/-- Witness of C15: the largest values of both words. -/
theorem timestamp_exact_witness :
    (4294967295 : Nat) < 4294967296 ∧
    ndesc_get_timestamp { des0 := 0, des1 := 0, des2 := 4294967295, des3 := 4294967295 } 0 =
      4294967295 + 4294967295 * 1000000000 :=
  ⟨by decide,
    timestamp_exact { des0 := 0, des1 := 0, des2 := 4294967295, des3 := 4294967295 } 0
      (by decide) (by decide)⟩

/-! ## Ownership and release of transmit descriptors -/

/-- The C idiom `(x & BIT(k)) >> k` is 1 when bit `k` of `x` is set and 0
otherwise. -/
theorem and_bit_shift (x k : Nat) :
    (x &&& BIT k) >>> k = if x.testBit k = true then 1 else 0 := by
  apply Nat.eq_of_testBit_eq
  intro i
  rw [Nat.testBit_shiftRight, Nat.testBit_and]
  unfold BIT
  rw [Nat.testBit_two_pow]
  by_cases hx : x.testBit k = true
  · rw [if_pos hx]
    by_cases hi : i = 0
    · subst hi; simp [hx]
    · have : ¬ k = k + i := by omega
      have h1 : (1 : Nat).testBit i = false := by
        have := mt (Nat.testBit_one_eq_true_iff_self_eq_zero).mp hi
        simpa using this
      simp [this, h1]
  · rw [if_neg hx]
    by_cases hi : i = 0
    · subst hi; simp [hx]
    · have : ¬ k = k + i := by omega
      simp [this]

/-- The C expression `x & BIT(k)` is `BIT(k)` when bit `k` of `x` is set and 0
otherwise. -/
theorem and_bit (x k : Nat) :
    x &&& BIT k = if x.testBit k = true then BIT k else 0 := by
  apply Nat.eq_of_testBit_eq
  intro i
  rw [Nat.testBit_and]
  unfold BIT
  rw [Nat.testBit_two_pow]
  by_cases hx : x.testBit k = true
  · rw [if_pos hx, Nat.testBit_two_pow]
    by_cases hi : k = i
    · subst hi; simp [hx]
    · simp [hi]
  · rw [if_neg hx]
    by_cases hi : k = i
    · subst hi; simp [hx]
    · simp [hi]

theorem to_int_zero_one (b : Bool) : to_int (if b = true then 1 else 0) = if b = true then 1 else 0 := by
  cases b <;> decide

theorem get_tx_owner_eq (p : DmaDesc) :
    ndesc_get_tx_owner p = if p.des0.testBit 31 = true then 1 else 0 := by
  unfold ndesc_get_tx_owner TDES0_OWN
  rw [and_bit_shift]
  exact to_int_zero_one _

theorem get_tx_ls_eq (p : DmaDesc) :
    ndesc_get_tx_ls p = if p.des1.testBit 30 = true then 1 else 0 := by
  unfold ndesc_get_tx_ls TDES1_LAST_SEGMENT
  rw [and_bit_shift]
  exact to_int_zero_one _

theorem to_uint_testBit (x i : Nat) :
    (to_uint x).testBit i = (decide (i < 32) && x.testBit i) := by
  have : to_uint x = x % 2 ^ 32 := rfl
  rw [this, Nat.testBit_mod_two_pow]

/-- Both helpers of `descs_com.h` leave `des0` alone. -/
theorem tx_helpers_keep_des0 (p : DmaDesc) (e : Int) :
    (ndesc_tx_set_on_chain p).des0 = p.des0 ∧
      (ndesc_end_tx_desc_on_ring p e).des0 = p.des0 := by
  unfold ndesc_tx_set_on_chain ndesc_end_tx_desc_on_ring
  by_cases he : e ≠ 0 <;> simp [he]

theorem init_tx_desc_des0 (p : DmaDesc) (mode end_ : Int) :
    (ndesc_init_tx_desc p mode end_).des0 =
      to_uint (p.des0 &&& (18446744073709551615 - TDES0_OWN)) := by
  unfold ndesc_init_tx_desc
  by_cases hm : mode = STMMAC_CHAIN_MODE
  · simp only [hm, if_true]
    exact (tx_helpers_keep_des0 _ 0).1
  · simp only [hm, if_false]
    exact (tx_helpers_keep_des0 _ end_).2

/-- C17: `ndesc_get_tx_owner` returns 1 right after `ndesc_set_tx_owner` and 0
right after `ndesc_init_tx_desc` (for any `mode` and `end`); it only ever
returns 0 or 1; and `ndesc_set_tx_owner` changes no bit of the descriptor
other than the OWN bit (bit 31) of `des0`. -/
theorem tx_owner_accessors_agree (p : DmaDesc) (mode end_ : Int) :
    ndesc_get_tx_owner (ndesc_set_tx_owner p) = 1 ∧
    ndesc_get_tx_owner (ndesc_init_tx_desc p mode end_) = 0 ∧
    (ndesc_get_tx_owner p = 0 ∨ ndesc_get_tx_owner p = 1) ∧
    (ndesc_set_tx_owner p).des1 = p.des1 ∧
    (ndesc_set_tx_owner p).des2 = p.des2 ∧
    (ndesc_set_tx_owner p).des3 = p.des3 ∧
    (∀ i, i < 32 → i ≠ 31 →
      (ndesc_set_tx_owner p).des0.testBit i = p.des0.testBit i) := by
  refine ⟨?_, ?_, ?_, rfl, rfl, rfl, ?_⟩
  · rw [get_tx_owner_eq]
    have : (ndesc_set_tx_owner p).des0.testBit 31 = true := by
      show (to_uint (p.des0 ||| 2 ^ 31)).testBit 31 = true
      rw [to_uint_testBit, Nat.testBit_or, Nat.testBit_two_pow]
      simp
    rw [if_pos this]
  · rw [get_tx_owner_eq, init_tx_desc_des0]
    have h31 : (18446744073709551615 - TDES0_OWN).testBit 31 = false := by decide
    have : (to_uint (p.des0 &&& (18446744073709551615 - TDES0_OWN))).testBit 31 = false := by
      rw [to_uint_testBit, Nat.testBit_and, h31]
      simp
    rw [this]
    simp
  · rw [get_tx_owner_eq]
    by_cases h : p.des0.testBit 31 = true
    · right; rw [if_pos h]
    · left; rw [if_neg h]
  · intro i hi hne
    have h31 : ¬ 31 = i := fun e => hne e.symm
    show (to_uint (p.des0 ||| 2 ^ 31)).testBit i = p.des0.testBit i
    rw [to_uint_testBit, Nat.testBit_or, Nat.testBit_two_pow]
    simp [hi, h31]

/-- The word `des1` that `ndesc_release_tx_desc` leaves: in chain mode the
chained-address bit alone, in ring mode the former `TDES1_END_RING` bit
alone. -/
theorem release_tx_desc_des1 (p : DmaDesc) (mode : Int) :
    (ndesc_release_tx_desc p mode).des1 =
      if mode = STMMAC_CHAIN_MODE then TDES1_SECOND_ADDRESS_CHAINED
      else p.des1 &&& TDES1_END_RING := by
  have e1 : to_uint (0 ||| TDES1_SECOND_ADDRESS_CHAINED) = TDES1_SECOND_ADDRESS_CHAINED := by
    decide
  have e2 : to_uint (0 ||| BIT 25) = BIT 25 := by decide
  have e3 : to_uint (0 &&& (18446744073709551615 - BIT 25)) = 0 := by decide
  unfold ndesc_release_tx_desc
  by_cases hm : mode = STMMAC_CHAIN_MODE
  · simp only [hm, if_true]
    exact e1
  · simp only [hm, if_false]
    unfold TDES1_END_RING
    rw [and_bit_shift, and_bit, to_int_zero_one]
    unfold ndesc_end_tx_desc_on_ring TDES1_END_RING
    by_cases hb : p.des1.testBit 25 = true
    · simp only [hb, if_true]
      rw [if_pos (by decide)]
      exact e2
    · simp only [hb, if_false]
      rw [if_neg (by decide)]
      exact e3

/-- C18 as stated fails: in chain mode the release of a descriptor does not
leave `des1` clear: after the `memset`, `ndesc_tx_set_on_chain` sets
`TDES1_SECOND_ADDRESS_CHAINED`, bit 24, so that `des1` ends as 0x1000000
whatever it held. -/
theorem release_tx_desc_chain_mark :
    (ndesc_release_tx_desc { des0 := 2147483648, des1 := 1073743872, des2 := 7, des3 := 9 }
      STMMAC_CHAIN_MODE).des1 = 16777216 ∧
    (ndesc_release_tx_desc { des0 := 2147483648, des1 := 1073743872, des2 := 7, des3 := 9 }
      STMMAC_CHAIN_MODE).des1 ≠ 0 ∧
    (ndesc_release_tx_desc { des0 := 0, des1 := 0, des2 := 0, des3 := 0 }
      STMMAC_CHAIN_MODE).des1 = TDES1_SECOND_ADDRESS_CHAINED := by
  decide

/-- C18 as amended: `ndesc_release_tx_desc` clears `des0` and leaves `des2`,
`des3` as they were. In ring mode (`mode != STMMAC_CHAIN_MODE`) the resulting
`des1` has every bit clear except `TDES1_END_RING`, which keeps the value it
had; in chain mode the resulting `des1` has every bit clear except
`TDES1_SECOND_ADDRESS_CHAINED`, which is set, whatever `des1` held. So of the
bits `des1` had before the call none survives except `TDES1_END_RING` in ring
mode, and after a release `ndesc_get_tx_owner`, `ndesc_get_tx_ls` and
`ndesc_get_tx_len` all return 0, in either mode. -/
theorem release_tx_desc_clears (p : DmaDesc) (mode : Int) :
    (ndesc_release_tx_desc p mode).des0 = 0 ∧
    (ndesc_release_tx_desc p mode).des2 = p.des2 ∧
    (ndesc_release_tx_desc p mode).des3 = p.des3 ∧
    (mode ≠ STMMAC_CHAIN_MODE →
      (ndesc_release_tx_desc p mode).des1 = p.des1 &&& TDES1_END_RING) ∧
    (mode = STMMAC_CHAIN_MODE →
      (ndesc_release_tx_desc p mode).des1 = TDES1_SECOND_ADDRESS_CHAINED) ∧
    (∀ i, (ndesc_release_tx_desc p mode).des1.testBit i = true →
      (mode ≠ STMMAC_CHAIN_MODE ∧ i = 25 ∧ p.des1.testBit 25 = true) ∨
      (mode = STMMAC_CHAIN_MODE ∧ i = 24)) ∧
    ndesc_get_tx_owner (ndesc_release_tx_desc p mode) = 0 ∧
    ndesc_get_tx_ls (ndesc_release_tx_desc p mode) = 0 ∧
    ndesc_get_tx_len (ndesc_release_tx_desc p mode) = 0 := by
  have h0 : (ndesc_release_tx_desc p mode).des0 = 0 := by
    unfold ndesc_release_tx_desc
    by_cases hm : mode = STMMAC_CHAIN_MODE
    · simp only [hm, if_true]
      exact (tx_helpers_keep_des0 _ 0).1
    · simp only [hm, if_false]
      exact (tx_helpers_keep_des0 _ _).2
  have h23 : (ndesc_release_tx_desc p mode).des2 = p.des2 ∧
      (ndesc_release_tx_desc p mode).des3 = p.des3 := by
    unfold ndesc_release_tx_desc ndesc_tx_set_on_chain ndesc_end_tx_desc_on_ring
    by_cases hm : mode = STMMAC_CHAIN_MODE
    · simp [hm]
    · by_cases ht : to_int ((p.des1 &&& TDES1_END_RING) >>> 25) ≠ 0 <;> simp [hm, ht]
  have h1 := release_tx_desc_des1 p mode
  have hcases : (ndesc_release_tx_desc p mode).des1 = 16777216 ∨
      (ndesc_release_tx_desc p mode).des1 = 33554432 ∨
      (ndesc_release_tx_desc p mode).des1 = 0 := by
    rw [h1]
    by_cases hm : mode = STMMAC_CHAIN_MODE
    · left; rw [if_pos hm]; decide
    · rw [if_neg hm]
      unfold TDES1_END_RING
      rw [and_bit]
      by_cases hb : p.des1.testBit 25 = true
      · right; left; rw [if_pos hb]; decide
      · right; right; rw [if_neg hb]
  refine ⟨h0, h23.1, h23.2, ?_, ?_, ?_, ?_, ?_, ?_⟩
  · intro hm
    rw [h1, if_neg hm]
  · intro hm
    rw [h1, if_pos hm]
  · intro i hi
    rw [h1] at hi
    by_cases hm : mode = STMMAC_CHAIN_MODE
    · right
      rw [if_pos hm] at hi
      refine ⟨hm, ?_⟩
      have e : TDES1_SECOND_ADDRESS_CHAINED = 2 ^ 24 := by decide
      rw [e, Nat.testBit_two_pow] at hi
      simp only [decide_eq_true_eq] at hi
      exact hi.symm
    · left
      rw [if_neg hm] at hi
      have e : TDES1_END_RING = 2 ^ 25 := by decide
      rw [e, Nat.testBit_and, Nat.testBit_two_pow] at hi
      simp only [Bool.and_eq_true, decide_eq_true_eq] at hi
      exact ⟨hm, hi.2.symm, by rw [hi.2]; exact hi.1⟩
  · rw [get_tx_owner_eq, h0]
    decide
  · rw [get_tx_ls_eq]
    rcases hcases with e | e | e <;> rw [e] <;> decide
  · unfold ndesc_get_tx_len
    rcases hcases with e | e | e <;> rw [e] <;> decide

end NormDesc


namespace XhciDbg

/-! ## The addresses printed by the context dumps -/

theorem dma_add_add (x a b : Nat) : dma_add (dma_add x a) b = dma_add x (a + b) := by
  unfold dma_add
  omega

theorem dma_add_zero (x : Nat) (h : x < 18446744073709551616) : dma_add x 0 = x := by
  unfold dma_add
  omega

theorem dma_add_dma_add_zero (x a : Nat) : dma_add (dma_add x a) 0 = dma_add x a := by
  unfold dma_add
  omega

theorem dma_add_exact (x k : Nat) (h : x + k < 18446744073709551616) : dma_add x k = x + k := by
  unfold dma_add
  omega

theorem dbg_rsvd64_places (c : XhciContainerCtx) (ctx dma : Nat) :
    (dbg_rsvd64 c ctx dma).map DumpLine.place =
      [(ctx + 32, dma, 8), (ctx + 40, dma_add dma 8, 8), (ctx + 48, dma_add dma 16, 8),
       (ctx + 56, dma_add dma 24, 8)] := by
  simp [dbg_rsvd64, dbg_rsvd64_loop, field64, DumpLine.place, dma_add_add]

theorem slot_ctx_places (hcc_params : Nat) (ctx : XhciContainerCtx) :
    (xhci_dbg_slot_ctx hcc_params ctx).map DumpLine.place =
      field_places (xhci_get_slot_ctx hcc_params ctx)
        (dma_add ctx.dma (xhci_get_slot_ctx hcc_params ctx))
        (context_fields hcc_params word_fields) := by
  by_cases h : HCC_64BYTE_CONTEXT hcc_params ≠ 0
  · simp [xhci_dbg_slot_ctx, dbg_reserved_loop, field32, DumpLine.place, dma_add_add,
      dbg_rsvd64_places, h, field_places, context_fields, word_fields, rsvd64_fields,
      dma_add_dma_add_zero]
  · simp [xhci_dbg_slot_ctx, dbg_reserved_loop, field32, DumpLine.place, dma_add_add,
      h, field_places, context_fields, word_fields, dma_add_dma_add_zero]

theorem one_ep_ctx_places (hcc_params : Nat) (ctx : XhciContainerCtx) (i : Nat) :
    (dbg_one_ep_ctx hcc_params ctx i).map DumpLine.place =
      field_places (xhci_get_ep_ctx hcc_params ctx i)
        (dma_add ctx.dma (xhci_get_ep_ctx hcc_params ctx i))
        (context_fields hcc_params ep_fields) := by
  by_cases h : HCC_64BYTE_CONTEXT hcc_params ≠ 0
  · simp [dbg_one_ep_ctx, dbg_reserved_loop, field32, field64, DumpLine.place, dma_add_add,
      dbg_rsvd64_places, h, field_places, context_fields, ep_fields, rsvd64_fields,
      dma_add_dma_add_zero]
  · simp [dbg_one_ep_ctx, dbg_reserved_loop, field32, field64, DumpLine.place, dma_add_add,
      h, field_places, context_fields, ep_fields, dma_add_dma_add_zero]

theorem input_control_ctx_places (hcc_params : Nat) (ctx : XhciContainerCtx) (ctrl_ctx : Nat)
    (hdma : ctx.dma < 18446744073709551616) :
    (dbg_input_control_ctx hcc_params ctx ctrl_ctx).map DumpLine.place =
      field_places ctrl_ctx ctx.dma (context_fields hcc_params word_fields) := by
  by_cases h : HCC_64BYTE_CONTEXT hcc_params ≠ 0
  · simp [dbg_input_control_ctx, dbg_reserved_loop, field32, DumpLine.place, dma_add_add,
      dbg_rsvd64_places, h, field_places, context_fields, word_fields, rsvd64_fields,
      dma_add_zero _ hdma]
  · simp [dbg_input_control_ctx, dbg_reserved_loop, field32, DumpLine.place, dma_add_add,
      h, field_places, context_fields, word_fields, dma_add_zero _ hdma]

theorem dbg_ep_ctx_loop_eq (hcc_params : Nat) (ctx : XhciContainerCtx) : ∀ (n i : Nat),
    dbg_ep_ctx_loop hcc_params ctx n i =
      ((List.range n).map (fun k => dbg_one_ep_ctx hcc_params ctx (i + k))).flatten := by
  intro n
  induction n with
  | zero => intro i; rfl
  | succ n ih =>
    intro i
    rw [dbg_ep_ctx_loop, ih, List.range_succ_eq_map, List.map_cons, List.flatten_cons,
      List.map_map]
    congr 2
    apply List.map_congr_left
    intro k _
    simp only [Function.comp_apply]
    congr 1
    omega

/-- C27: in the dumps of a slot context, of an endpoint context and of the
input control context, every line shows, next to the pointer to a field that
lies `k` bytes after the start of the context, the DMA address of that start
plus `k` (as a `dma_addr_t` sum, which is the exact sum unless it passes
2^64): the eight 32-bit fields at 0, 4, ..., 28, or for an endpoint context
the fields at 0, 4, 8 (`deq`, 8 bytes), 16, 20, 24 and 28, which cover the
bytes 0..31 once each; and with 64-byte contexts these lines are followed by
those of `dbg_rsvd64`, exactly four 64-bit words at 32, 40, 48 and 56, so that
the 64 bytes are covered. `xhci_dbg_ep_ctx` dumps the endpoint contexts
0, 1, ... in turn, and `xhci_dbg_ctx` puts the dumps one after the other. -/
theorem context_dumps_print_field_addresses (hcc_params : Nat) (ctx : XhciContainerCtx)
    (hdma : ctx.dma < 18446744073709551616) :
    (xhci_dbg_slot_ctx hcc_params ctx).map DumpLine.place =
      field_places (xhci_get_slot_ctx hcc_params ctx)
        (dma_add ctx.dma (xhci_get_slot_ctx hcc_params ctx))
        (context_fields hcc_params word_fields) ∧
    (∀ i, (dbg_one_ep_ctx hcc_params ctx i).map DumpLine.place =
      field_places (xhci_get_ep_ctx hcc_params ctx i)
        (dma_add ctx.dma (xhci_get_ep_ctx hcc_params ctx i))
        (context_fields hcc_params ep_fields)) ∧
    (∀ ctrl_ctx, (dbg_input_control_ctx hcc_params ctx ctrl_ctx).map DumpLine.place =
      field_places ctrl_ctx ctx.dma (context_fields hcc_params word_fields)) ∧
    (∀ c start, (dbg_rsvd64 ctx c (dma_add start 32)).map DumpLine.place =
      field_places c start rsvd64_fields) ∧
    (∀ last_ep, xhci_dbg_ep_ctx hcc_params ctx last_ep =
      ((List.range (if last_ep < 31 then last_ep + 1 else 31)).map
        (fun i => dbg_one_ep_ctx hcc_params ctx i)).flatten) ∧
    (∀ last_ep, xhci_dbg_ctx hcc_params ctx last_ep =
      if ctx.type = XHCI_CTX_TYPE_INPUT then
        dbg_input_control_ctx hcc_params ctx 0 ++ xhci_dbg_slot_ctx hcc_params ctx ++
          xhci_dbg_ep_ctx hcc_params ctx last_ep
      else xhci_dbg_slot_ctx hcc_params ctx ++ xhci_dbg_ep_ctx hcc_params ctx last_ep) ∧
    fields_cover word_fields 32 ∧ fields_cover ep_fields 32 ∧
    (HCC_64BYTE_CONTEXT hcc_params ≠ 0 →
      context_fields hcc_params word_fields = word_fields ++ rsvd64_fields ∧
      context_fields hcc_params ep_fields = ep_fields ++ rsvd64_fields ∧
      fields_cover (word_fields ++ rsvd64_fields) 64 ∧
      fields_cover (ep_fields ++ rsvd64_fields) 64) ∧
    (HCC_64BYTE_CONTEXT hcc_params = 0 →
      context_fields hcc_params word_fields = word_fields ∧
      context_fields hcc_params ep_fields = ep_fields) ∧
    (∀ start k, start + k < 18446744073709551616 → dma_add start k = start + k) := by
  refine ⟨slot_ctx_places hcc_params ctx, one_ep_ctx_places hcc_params ctx,
    fun ctrl_ctx => input_control_ctx_places hcc_params ctx ctrl_ctx hdma, ?_, ?_, ?_,
    by decide, by decide, ?_, ?_, dma_add_exact⟩
  · intro c start
    rw [dbg_rsvd64_places]
    simp [field_places, rsvd64_fields, dma_add_add]
  · intro last_ep
    unfold xhci_dbg_ep_ctx
    rw [dbg_ep_ctx_loop_eq]
    simp
  · intro last_ep
    unfold xhci_dbg_ctx xhci_get_input_control_ctx
    by_cases h : ctx.type = XHCI_CTX_TYPE_INPUT
    · simp [h]
    · simp [h]
  · intro h
    refine ⟨?_, ?_, by decide, by decide⟩
    · unfold context_fields; rw [if_pos h]
    · unfold context_fields; rw [if_pos h]
  · intro h
    constructor
    · unfold context_fields; simp [h]
    · unfold context_fields; simp [h]

/-- Witness of C27: an input context with 64-byte contexts at DMA address
0x1000; its slot context starts at 0x1040. -/
theorem context_dumps_print_field_addresses_witness :
    sample_ctx.dma < 18446744073709551616 ∧
    (xhci_dbg_slot_ctx 4 sample_ctx).map DumpLine.place =
      field_places (xhci_get_slot_ctx 4 sample_ctx)
        (dma_add sample_ctx.dma (xhci_get_slot_ctx 4 sample_ctx))
        (context_fields 4 word_fields) ∧
    field_places (xhci_get_slot_ctx 4 sample_ctx)
        (dma_add sample_ctx.dma (xhci_get_slot_ctx 4 sample_ctx))
        (context_fields 4 word_fields) =
      [(64, 4160, 4), (68, 4164, 4), (72, 4168, 4), (76, 4172, 4), (80, 4176, 4),
       (84, 4180, 4), (88, 4184, 4), (92, 4188, 4), (96, 4192, 8), (104, 4200, 8),
       (112, 4208, 8), (120, 4216, 8)] :=
  ⟨by decide, (context_dumps_print_field_addresses 4 sample_ctx (by decide)).1, by decide⟩

end XhciDbg
